import Mathlib

/-!
# Marbles: a verification development for the simulation and game-state core

Shallow embedding of the C++ sources (`CVector3.cpp`, `CMarble.cpp`,
`museum/CGameObject.cpp`, `museum/CObjectManager.cpp`, `CGame.cpp`,
`ODEManager.cpp`, `CTimer.cpp`, `museum/CInputManager.cpp`).

Modelling conventions used throughout:

* a C++ `double` is an exact rational number (`ℚ`); rounding of `double`
  arithmetic is not modelled, and a division of a `double` by zero, whose
  quotient is not a finite number, is a `Fault`;
* the C library `sqrt` is a parameter `sqrt : ℚ → ℚ` of every function that
  calls it, and a theorem states what it needs of that parameter;
* the narrowing of a `double` to a `float` that decides a branch is a parameter
  `toFloat : ℚ → ℚ` in the same way;
* the physics library (ODE) is external: a handle (`dBodyID`, `dGeomID`) is a
  natural number, every mutating library call is recorded as an `OdeCall`, and
  the values the library hands back (`dBodyGetPosition`, ...) come from an
  `OdeBodies` view;
* a method of a game object returns the new object together with the library
  calls it issued, oldest first;
* a `CMarble*` is an index into the heap of allocated objects; dereferencing
  an index outside the heap is undefined in C++ and is a `Fault` here;
* a constructor receives the raw memory of the new object as an argument, so
  that a data member it does not write keeps an arbitrary value;
* `(int)sqrt((double)n)` for an `int n ≥ 0` is the integer square root `Nat.sqrt n`;
* in a whole frame the library is an `OdeWorld`: what it reports is a function
  of the calls issued so far, and the frame runs on a `Program`, the `CGame`
  object together with its modules, each module being the one object of its
  class.
-/

set_option linter.dupNamespace false

namespace Marbles

/-! ## Faults -/

/-- Why a call did not complete with finite values: a C++ exception was thrown,
the call used a pointer or a vector index that does not exist (undefined in
C++), or a `double` was divided by zero, where the quotient is an infinity or a
NaN and not a finite number. -/
inductive Fault where
  | thrown (message : String)
  | undefinedBehaviour
  | divisionByZero
deriving DecidableEq, Repr

/-! ## CVector3 -/

/-- The value type of `CVector3.h`. The `initialized` flag of the class is
never read by any function and is left out. -/
structure CVector3 where
  x : ℚ
  y : ℚ
  z : ℚ
deriving DecidableEq, Repr

namespace CVector3

/-- Source `CVector3::Magnitude`: `sqrt(x*x + y*y + z*z)`. -/
def Magnitude (sqrt : ℚ → ℚ) (v : CVector3) : ℚ :=
  sqrt ((v.x * v.x) + (v.y * v.y) + (v.z * v.z))

/-- Source `CVector3::operator+`. -/
def add (v vVector : CVector3) : CVector3 :=
  ⟨vVector.x + v.x, vVector.y + v.y, vVector.z + v.z⟩

/-- Source `CVector3::operator-`. -/
def sub (v vVector : CVector3) : CVector3 :=
  ⟨v.x - vVector.x, v.y - vVector.y, v.z - vVector.z⟩

/-- Source `CVector3::operator*` (scaling). -/
def mul (v : CVector3) (num : ℚ) : CVector3 :=
  ⟨v.x * num, v.y * num, v.z * num⟩

/-- Source `CVector3::operator/` (scaling). -/
def div (v : CVector3) (num : ℚ) : CVector3 :=
  ⟨v.x / num, v.y / num, v.z / num⟩

/-- Source `CVector3::set`. -/
def set (_v : CVector3) (xp yp zp : ℚ) : CVector3 := ⟨xp, yp, zp⟩

/-- Source `CVector3::Cross`: the receiver becomes the cross product of the arguments. -/
def Cross (_v : CVector3) (vVector1 vVector2 : CVector3) : CVector3 :=
  ⟨(vVector1.y * vVector2.z) - (vVector1.z * vVector2.y),
   (vVector1.z * vVector2.x) - (vVector1.x * vVector2.z),
   (vVector1.x * vVector2.y) - (vVector1.y * vVector2.x)⟩

/-- Source `CVector3::Normalize`: divides every component by the magnitude, without a
guard for a zero magnitude. With a zero magnitude every quotient is a division of
a `double` by zero: no component of the receiver is a finite number after the
call, which is the fault `divisionByZero` here. -/
def Normalize (sqrt : ℚ → ℚ) (v : CVector3) : Except Fault CVector3 :=
  let mag := v.Magnitude sqrt
  if mag = 0 then Except.error Fault.divisionByZero
  else Except.ok ⟨v.x / mag, v.y / mag, v.z / mag⟩

end CVector3

/-! ## The physics library seen from the game -/

/-- An ODE body handle. -/
abbrev dBodyID := Nat

/-- An ODE geometry handle. -/
abbrev dGeomID := Nat

/-- The mutating ODE calls the game issues, with their arguments. `dSpaceCollide`
marks the start of a collision pass, whose callbacks follow it. The last two
are not ODE calls: `free` is the C library call of `CMarble::~CMarble` on a
geometry handle, and `operatorDelete p` releases the heap cell of the game object
`p`. -/
inductive OdeCall where
  | dBodyCreate (result : dBodyID)
  | dCreateSphere (result : dGeomID) (radius : ℚ)
  | dCreatePlane (result : dGeomID) (a b c d : ℚ)
  | dGeomSetBody (g : dGeomID) (b : dBodyID)
  | dBodySetMass (b : dBodyID) (density radius : ℚ)
  | dBodySetPosition (b : dBodyID) (x y z : ℚ)
  | dBodySetLinearVel (b : dBodyID) (x y z : ℚ)
  | dBodyAddForce (b : dBodyID) (x y z : ℚ)
  | dBodyAddTorque (b : dBodyID) (x y z : ℚ)
  | dBodyDisable (b : dBodyID)
  | dBodyEnable (b : dBodyID)
  | dGeomDestroy (g : dGeomID)
  | dBodyDestroy (b : dBodyID)
  | dSpaceCollide
  | dJointCreateContact (bounce bounce_vel : ℚ)
  | dJointAttach (b1 b2 : dBodyID)
  | dWorldStep (stepsize : ℚ)
  | dJointGroupEmpty
  | free (g : dGeomID)
  | operatorDelete (p : Nat)
deriving DecidableEq, Repr

/-- What the library reports about its bodies when asked. -/
structure OdeBodies where
  dBodyGetPosition : dBodyID → ℚ × ℚ × ℚ
  dBodyGetLinearVel : dBodyID → ℚ × ℚ × ℚ
  dBodyGetAngularVel : dBodyID → ℚ × ℚ × ℚ

/-! ## CGameObject, CMarble, CTolley -/

/-- Source `MARBLE_RADIUS` of `CMarble.h`. -/
def MARBLE_RADIUS : ℚ := 0.5

/-- Source `TOLLEY_RADIUS` of `CMarble.h`. -/
def TOLLEY_RADIUS : ℚ := 0.75

/-- Source `RING_RADIUS` of `CMarble.h`. -/
def RING_RADIUS : ℚ := 20.0

/-- The data members of `CGameObject` followed by those of `CMarble`.
`isTolley` stands for the dynamic type (`CTolley` adds no data member and
overrides `Update` only). -/
structure CMarble where
  ID : Int
  m_body : dBodyID
  m_geom : dGeomID
  m_position : ℚ × ℚ × ℚ
  m_size : ℚ × ℚ × ℚ
  m_color : ℚ × ℚ × ℚ × ℚ
  m_dynamic : Bool
  m_odeDestroyed : Bool
  m_texture : Nat
  m_radius : ℚ
  m_lastPosition : ℚ × ℚ × ℚ
  m_inPlay : Bool
  isTolley : Bool
deriving DecidableEq, Repr

namespace CMarble

/-- Source `CGameObject::isDynamic`. -/
def isDynamic (m : CMarble) : Bool := m.m_dynamic

/-- Source `CGameObject::getBodyID`. -/
def getBodyID (m : CMarble) : dBodyID := m.m_body

/-- Source `CMarble::getRadius`. -/
def getRadius (m : CMarble) : ℚ := m.m_radius

/-- Source `CGameObject::setColor` with four arguments. -/
def setColor (m : CMarble) (r g b a : ℚ) : CMarble :=
  { m with m_color := (r, g, b, a) }

/-- Source `CGameObject::DisableBody`. -/
def DisableBody (m : CMarble) : CMarble × List OdeCall :=
  ({ m with m_dynamic := false }, [OdeCall.dBodyDisable m.m_body])

/-- Source `CGameObject::EnableBody`. -/
def EnableBody (m : CMarble) : CMarble × List OdeCall :=
  ({ m with m_dynamic := true }, [OdeCall.dBodyEnable m.m_body])

/-- Source `CGameObject::DestroyODEObject`. -/
def DestroyODEObject (m : CMarble) : CMarble × List OdeCall :=
  if !m.m_odeDestroyed then
    ({ m with m_odeDestroyed := true },
     [OdeCall.dGeomDestroy m.m_geom, OdeCall.dBodyDestroy m.m_body])
  else (m, [])

/-- Source `CMarble::AddForce`. -/
def AddForce (m : CMarble) (x y z : ℚ) : CMarble × List OdeCall :=
  if !m.m_odeDestroyed then (m, [OdeCall.dBodyAddForce m.m_body x y z])
  else (m, [])

/-- Source `CMarble::AddTorque`. -/
def AddTorque (m : CMarble) (x y z : ℚ) : CMarble × List OdeCall :=
  if !m.m_odeDestroyed then (m, [OdeCall.dBodyAddTorque m.m_body x y z])
  else (m, [])

/-- Source `CMarble::setVel`: the call to the library is not guarded. -/
def setVel (m : CMarble) (x y z : ℚ) : CMarble × List OdeCall :=
  (m, [OdeCall.dBodySetLinearVel m.m_body x y z])

/-- Source `CMarble::setPos`: both caches are written first, the library call is
guarded by `m_odeDestroyed`. -/
def setPos (m : CMarble) (x y z : ℚ) : CMarble × List OdeCall :=
  let m1 := { m with m_position := (x, y, z), m_lastPosition := (x, y, z) }
  if !m1.m_odeDestroyed then (m1, [OdeCall.dBodySetPosition m1.m_body x y z])
  else (m1, [])

/-- Source `CMarble::getVel`: the squared speed reported by the library. -/
def getVel (ode : OdeBodies) (m : CMarble) : ℚ :=
  let vel := ode.dBodyGetLinearVel m.m_body
  vel.1 * vel.1 + vel.2.1 * vel.2.1 + vel.2.2 * vel.2.2

end CMarble

/-- What one `Update` call leaves behind: the object, the library calls it
issued, and the final values of its two local coefficients. -/
structure UpdateResult where
  obj : CMarble
  calls : List OdeCall
  dAccel : ℚ
  dAngAccel : ℚ
deriving DecidableEq, Repr

/-- Source `CMarble::Update`. The ring test reads `m_lastPosition`; the force line of
the source is commented out, so `dAccel` is chosen but not applied. The local
`dist` is a `float` in the source: the sum of the two squares is narrowed by
`toFloat` before it is compared with `RING_RADIUS*RING_RADIUS`. -/
def CMarble.Update (toFloat : ℚ → ℚ) (ode : OdeBodies) (m : CMarble) : UpdateResult :=
  let dAccel : ℚ := -1.0
  let dAngAccel : ℚ := -0.05
  let dist := toFloat (m.m_lastPosition.1 * m.m_lastPosition.1 +
              m.m_lastPosition.2.2 * m.m_lastPosition.2.2)
  let out := decide (dist > RING_RADIUS * RING_RADIUS)
  let dAccel := if out then -3.0 else dAccel
  let dAngAccel := if out then -0.1 else dAngAccel
  let m1 : CMarble :=
    if out then
      { m with m_inPlay := false,
               m_color := (m.m_color.1, 0, 0, m.m_color.2.2.2) }
    else m
  let m2 := { m1 with m_lastPosition := m1.m_position }
  let pos := ode.dBodyGetPosition m2.m_body
  let m3 := { m2 with m_position := pos }
  let omega := ode.dBodyGetAngularVel m3.m_body
  let calls :=
    if m3.m_position.2.1 ≤ m3.m_radius then
      [OdeCall.dBodyAddTorque m3.m_body
        (dAngAccel * omega.1) (dAngAccel * omega.2.1) (dAngAccel * omega.2.2)]
    else []
  { obj := m3, calls := calls, dAccel := dAccel, dAngAccel := dAngAccel }

/-- Source `CTolley::Update`. The local `dist` is a `float`, as in
`CMarble::Update`. -/
def CTolley.Update (toFloat : ℚ → ℚ) (ode : OdeBodies) (m : CMarble) : UpdateResult :=
  let dAccel : ℚ := -1.5
  let dAngAccel : ℚ := -0.5
  let dist := toFloat (m.m_lastPosition.1 * m.m_lastPosition.1 +
              m.m_lastPosition.2.2 * m.m_lastPosition.2.2)
  let out := decide (dist > RING_RADIUS * RING_RADIUS)
  let dAccel := if out then -3.0 else dAccel
  let dAngAccel := if out then -0.3 else dAngAccel
  let m2 := { m with m_lastPosition := m.m_position }
  let pos := ode.dBodyGetPosition m2.m_body
  let m3 := { m2 with m_position := pos }
  let vel := ode.dBodyGetLinearVel m3.m_body
  let omega := ode.dBodyGetAngularVel m3.m_body
  let calls1 :=
    if m3.m_position.2.1 ≤ m3.m_radius then
      [OdeCall.dBodyAddTorque m3.m_body
        (dAngAccel * omega.1) (dAngAccel * omega.2.1) (dAngAccel * omega.2.2)]
    else []
  let calls2 :=
    if m3.m_position.2.1 ≤ m3.m_radius then
      [OdeCall.dBodyAddForce m3.m_body (vel.1 * dAccel) 0 (vel.2.2 * dAccel)]
    else []
  { obj := m3, calls := calls1 ++ calls2, dAccel := dAccel, dAngAccel := dAngAccel }

/-- The virtual call `obj->Update()`. -/
def CMarble.virtualUpdate (toFloat : ℚ → ℚ) (ode : OdeBodies) (m : CMarble) : UpdateResult :=
  if m.isTolley then CTolley.Update toFloat ode m else CMarble.Update toFloat ode m

/-! ## Heap and library state -/

/-- A pointer to a heap-allocated game object: its index in the heap. -/
abbrev ObjPtr := Nat

/-- The state shared by all objects: the heap of allocated game objects, the
library calls issued so far (oldest first) and the next fresh handles. -/
structure Env where
  heap : List CMarble
  odeCalls : List OdeCall
  nextBody : dBodyID
  nextGeom : dGeomID
deriving DecidableEq, Repr

namespace Env

/-- The state before anything is constructed; handle 0 is the null handle. -/
def init : Env := { heap := [], odeCalls := [], nextBody := 1, nextGeom := 1 }

/-- The method call `p->f(...)`: the object is read from the heap, the method
runs, the object is written back and its library calls are appended. -/
def invoke (env : Env) (p : ObjPtr) (f : CMarble → CMarble × List OdeCall) :
    Except Fault Env :=
  match env.heap[p]? with
  | none => Except.error Fault.undefinedBehaviour
  | some o =>
    Except.ok { env with heap := env.heap.set p (f o).1,
                         odeCalls := env.odeCalls ++ (f o).2 }

/-- The expression `new T`: the constructed object gets the next heap cell. -/
def alloc (env : Env) (o : CMarble) : ObjPtr × Env :=
  (env.heap.length, { env with heap := env.heap ++ [o] })

end Env

/-! ## ODEManager (factory part) -/

/-- The data members of `ODEManager` that are handles or plain values. -/
structure ODEManager where
  m_plane : dGeomID
  m_gravity : ℚ × ℚ × ℚ
deriving DecidableEq, Repr

namespace ODEManager

/-- Source `ODEManager::createBody`. -/
def createBody (env : Env) : dBodyID × Env :=
  (env.nextBody, { env with nextBody := env.nextBody + 1,
                            odeCalls := env.odeCalls ++ [OdeCall.dBodyCreate env.nextBody] })

/-- Source `ODEManager::createSphere`. -/
def createSphere (env : Env) (radius : ℚ) : dGeomID × Env :=
  (env.nextGeom, { env with nextGeom := env.nextGeom + 1,
                            odeCalls := env.odeCalls ++ [OdeCall.dCreateSphere env.nextGeom radius] })

end ODEManager

/-- Source `ODEManager::ODEManager`: gravity is stored and the floor plane is
created. -/
def ODEManager.ODEManager (env : Env) : ODEManager × Env :=
  ({ m_plane := env.nextGeom, m_gravity := (0.0, -9.8, 0.0) },
   { env with nextGeom := env.nextGeom + 1,
              odeCalls := env.odeCalls ++ [OdeCall.dCreatePlane env.nextGeom 0 1 0 0] })

/-! ## Constructors of the game objects

A constructor receives the raw memory of the new object as `raw`: a data member
the constructor does not write keeps the value it has in `raw`. -/

/-- Source `CGameObject::CGameObject`. -/
def CGameObject.CGameObject (raw : CMarble) (env : Env) : CMarble × Env :=
  let r := ODEManager.createBody env
  ({ raw with m_body := r.1, m_dynamic := true, m_odeDestroyed := false }, r.2)

/-- The statements shared by the bodies of both constructors, for the radius
just stored in `m_radius`: create the sphere, attach it, set the mass,
`setPos(0,0,0)`. -/
def CMarble.constructSphere (m : CMarble) (env : Env) : CMarble × Env :=
  let g := ODEManager.createSphere env m.m_radius
  let m1 := { m with m_geom := g.1 }
  let env1 := { g.2 with odeCalls := g.2.odeCalls ++
    [OdeCall.dGeomSetBody m1.m_geom m1.m_body,
     OdeCall.dBodySetMass m1.m_body 20.0 (m1.m_radius / 2)] }
  let p := m1.setPos 0.0 0.0 0.0
  (p.1, { env1 with odeCalls := env1.odeCalls ++ p.2 })

/-- Source `CMarble::CMarble`. The local `inPlay` of the source is not the data
member `m_inPlay`, which is not written. -/
def CMarble.CMarble (raw : CMarble) (env : Env) : CMarble × Env :=
  let b := CGameObject.CGameObject raw env
  let m := { b.1 with isTolley := false, m_radius := MARBLE_RADIUS, m_texture := 4294967295 }
  let s := CMarble.constructSphere m b.2
  (s.1.setColor 0.8 0.8 0.8 1.0, s.2)

/-- Source `CTolley::CTolley`: runs after the base constructor `CMarble::CMarble`. -/
def CTolley.CTolley (raw : CMarble) (env : Env) : CMarble × Env :=
  let b := CMarble.CMarble raw env
  let m := { b.1 with isTolley := true, m_radius := TOLLEY_RADIUS }
  let s := CMarble.constructSphere m b.2
  (s.1.setColor 1.0 1.0 1.0 1.0, s.2)

/-! ## CObjectManager -/

/-- Source `Marble_Type` of `CObjectManager.h`. -/
def Marble_Type : String := "marble type"

/-- Source `Tolley_Type` of `CObjectManager.h`. -/
def Tolley_Type : String := "tolley type"

/-- The `std::map<dBodyID, CGameObject*>` of `CObjectManager.h`: at most one
entry for a key; the value `none` is the null pointer. -/
abbrev ObjectIDMap := List (dBodyID × Option ObjPtr)

namespace ObjectIDMap

/-- The entry stored for a key by `std::map::find`, if there is one. -/
def find (m : ObjectIDMap) (id : dBodyID) : Option (Option ObjPtr) :=
  (m.find? (fun e => e.1 == id)).map (fun e => e.2)

/-- The statement `m[id] = p` of `std::map`: the entry for the key is replaced, or
created when there was none. -/
def assign (m : ObjectIDMap) (id : dBodyID) (p : Option ObjPtr) : ObjectIDMap :=
  (id, p) :: m.filter (fun e => e.1 != id)

/-- The expression `m[id]` of `std::map`: a missing key is first inserted with a
null pointer, then the stored value is returned. -/
def index (m : ObjectIDMap) (id : dBodyID) : Option ObjPtr × ObjectIDMap :=
  match m.find id with
  | some v => (v, m)
  | none => (none, (id, none) :: m)

end ObjectIDMap

/-- The data members of `CObjectManager`. -/
structure CObjectManager where
  CGameObjectFactory : List (String × Bool)
  m_objectList : List ObjPtr
  m_objectIDMap : ObjectIDMap
  m_dynamicWaitTime : ℚ
  m_dynamicWaitLastTime : ℚ
deriving DecidableEq, Repr

/-- Modelled from the spec: `ObjectFactory.h` is not among the sources. The
factory keeps the registered type tags, each with the constructor it stands for
(`true` for `CTolley`, `false` for `CMarble`); `Register` adds a tag and fails on
a tag that is already there. -/
def ObjFactory.Register (f : List (String × Bool)) (tag : String) (tolley : Bool) :
    Bool × List (String × Bool) :=
  if f.any (fun e => e.1 == tag) then (false, f) else (true, f ++ [(tag, tolley)])

/-- Modelled from the spec: `ObjectFactory.h` is not among the sources. `Create`
looks up the constructor registered for the tag and runs it on a new heap cell;
for an unregistered tag it returns the null pointer and changes nothing. -/
def ObjFactory.Create (f : List (String × Bool)) (raw : Nat → CMarble) (tag : String)
    (env : Env) : Option ObjPtr × Env :=
  match f.find? (fun e => e.1 == tag) with
  | none => (none, env)
  | some e =>
    let c := if e.2 then CTolley.CTolley (raw env.heap.length) env
             else CMarble.CMarble (raw env.heap.length) env
    let a := c.2.alloc c.1
    (some a.1, a.2)

namespace CObjectManager

/-- Source `CObjectManager::AddObject`. -/
def AddObject (mgr : CObjectManager) (env : Env) (p : ObjPtr) :
    Except Fault CObjectManager :=
  match env.heap[p]? with
  | none => Except.error Fault.undefinedBehaviour
  | some o =>
    Except.ok { mgr with m_objectList := mgr.m_objectList ++ [p],
                         m_objectIDMap := mgr.m_objectIDMap.assign o.getBodyID (some p) }

/-- Source `CObjectManager::CreateObject`. The function can leave through its
`throw`, so the result keeps the state in which it is left as well: the first
component is the returned pointer, or the fault; the others are the heap and
library state and the manager at that point. -/
def CreateObject (mgr : CObjectManager) (raw : Nat → CMarble) (type : String) (env : Env) :
    Except Fault ObjPtr × Env × CObjectManager :=
  let r := ObjFactory.Create mgr.CGameObjectFactory raw type env
  match r.1 with
  | none => (Except.error (Fault.thrown "CGameObjectFactory.Create returned 0"), r.2, mgr)
  | some obj =>
    match r.2.heap[obj]? with
    | none => (Except.error Fault.undefinedBehaviour, r.2, mgr)
    | some o =>
      (Except.ok obj, r.2,
        { mgr with m_objectIDMap := mgr.m_objectIDMap.assign o.getBodyID (some obj),
                   m_objectList := mgr.m_objectList ++ [obj] })

/-- Source `CObjectManager::getObject`. -/
def getObject (mgr : CObjectManager) (id : dBodyID) : Option ObjPtr × CObjectManager :=
  let r := mgr.m_objectIDMap.index id
  (r.1, { mgr with m_objectIDMap := r.2 })

/-- The loop of `CObjectManager::DynamicsDone` over the objects from index `i`
on, `retval` being the value of the local so far. -/
def DynamicsDone.loop (ode : OdeBodies) (heap : List CMarble) :
    List ObjPtr → Bool → Except Fault Bool
  | [], retval => Except.ok retval
  | p :: rest, retval =>
    match heap[p]? with
    | none => Except.error Fault.undefinedBehaviour
    | some o =>
      if !o.isDynamic then DynamicsDone.loop ode heap rest retval
      else
        let vel := ode.dBodyGetLinearVel o.getBodyID
        if (vel.1 ≤ 0.1 ∧ vel.1 ≥ -0.1) ∧
           (vel.2.1 ≤ 0.1 ∧ vel.2.1 ≥ -0.1) ∧
           (vel.2.2 ≤ 0.1 ∧ vel.2.2 ≥ -0.1) then
          DynamicsDone.loop ode heap rest retval
        else DynamicsDone.loop ode heap rest false

/-- Source `CObjectManager::DynamicsDone`. -/
def DynamicsDone (mgr : CObjectManager) (ode : OdeBodies) (env : Env) :
    Except Fault (Bool × CObjectManager) :=
  match DynamicsDone.loop ode env.heap mgr.m_objectList true with
  | Except.error e => Except.error e
  | Except.ok retval =>
    Except.ok (retval, { mgr with m_dynamicWaitLastTime := 0, m_dynamicWaitTime := 0 })

end CObjectManager

/-- Source `CObjectManager::CObjectManager`, run on the default-constructed (empty)
factory, list and map (the message boxes are not modelled). -/
def CObjectManager.CObjectManager : CObjectManager :=
  let r1 := ObjFactory.Register [] Marble_Type false
  let r2 := ObjFactory.Register r1.2 Tolley_Type true
  { m_objectList := [], m_objectIDMap := [], CGameObjectFactory := r2.2,
    m_dynamicWaitLastTime := 0, m_dynamicWaitTime := 0 }

/-! ## CGame -/

/-- Source `GameState` of `CGame.h`. -/
inductive GameState where
  | GS_Menu
  | GS_AimShot
  | GS_LoadLevel
  | GS_ShotDetect
  | GS_DynamicsSettle
  | GS_NumGameStates
deriving DecidableEq, Repr

/-- Modelled from the spec: `CCamera.h` is not among the sources. The camera
keeps the eye position, the view centre and the up vector last given to
`LookAt`. -/
structure CCamera where
  eye : CVector3
  center : CVector3
  up : CVector3
deriving DecidableEq, Repr

/-- Modelled from the spec: `CCamera.h` is not among the sources. `LookAt`
stores its nine arguments. -/
def CCamera.LookAt (_c : CCamera) (ex ey ez cx cy cz ux uy uz : ℚ) : CCamera :=
  { eye := ⟨ex, ey, ez⟩, center := ⟨cx, cy, cz⟩, up := ⟨ux, uy, uz⟩ }

/-- Source `NUM_MARBLES` of `CGame.cpp`. -/
def NUM_MARBLES : Nat := 25

/-- The data members of `CGame` that the simulation core reads or writes. -/
structure CGame where
  m_marbleList : List ObjPtr
  m_p1Tolley : ObjPtr
  m_p2Tolley : ObjPtr
  m_tolleyForward : CVector3
  m_tolleyStrafe : CVector3
  m_forwardAim : CVector3
  m_sideAim : CVector3
  m_tolleyPos : CVector3
  m_aimPos : CVector3
  m_camera : CCamera
  m_objectManager : CObjectManager
  m_odeManager : ODEManager
  m_gameState : GameState
  m_throbber : ℚ
  m_throbIncrSign : ℚ
  m_viewInterp : ℚ
  m_deltaT : ℚ
  m_toggleTolleyMove : Bool
  m_pause : Bool
  m_quit : Bool
deriving DecidableEq, Repr

namespace CGame

/-- The first loop of `CGame::CreateMarbles`, with `n` iterations still to run:
each one creates a marble through the object manager and appends the pointer to
`m_marbleList`. -/
def CreateMarbles.create (raw : Nat → CMarble) : Nat → Env × CGame → Except Fault (Env × CGame)
  | 0, s => Except.ok s
  | n + 1, s =>
    match s.2.m_objectManager.CreateObject raw Marble_Type s.1 with
    | (Except.error e, _, _) => Except.error e
    | (Except.ok p, env1, mgr1) =>
      CreateMarbles.create raw n
        (env1, { s.2 with m_objectManager := mgr1,
                          m_marbleList := s.2.m_marbleList ++ [p] })

/-- The inner loop (over `j`) of the placement in `CGame::CreateMarbles`, with
`rem` iterations still to run. The result tells whether the function returned
from inside the loop, and gives the final `z`. -/
def CreateMarbles.inner (marbleList : List ObjPtr) (number cols : Nat) (x : ℚ) (i : Nat) :
    Nat → Nat → Nat → Env → Except Fault (Bool × Nat × Env)
  | 0, _, z, env => Except.ok (false, z, env)
  | rem + 1, j, z, env =>
    match marbleList[z]? with
    | none => Except.error Fault.undefinedBehaviour
    | some p =>
      match env.invoke p (fun m => m.setPos
          ((((cols / 2 : Nat) : Int) - (i : Int) : Int) * x) (x / 2)
          ((((cols / 2 : Nat) : Int) - (j : Int) : Int) * x)) with
      | Except.error e => Except.error e
      | Except.ok env1 =>
        if z + 1 ≥ number then Except.ok (true, z + 1, env1)
        else CreateMarbles.inner marbleList number cols x i rem (j + 1) (z + 1) env1

/-- The outer loop (over `i`) of the placement in `CGame::CreateMarbles`, with
`rem` iterations still to run. -/
def CreateMarbles.outer (marbleList : List ObjPtr) (number cols : Nat) (x : ℚ) :
    Nat → Nat → Nat → Env → Except Fault (Bool × Nat × Env)
  | 0, _, z, env => Except.ok (false, z, env)
  | rem + 1, i, z, env =>
    match CreateMarbles.inner marbleList number cols x i cols 0 z env with
    | Except.error e => Except.error e
    | Except.ok r =>
      if r.1 then Except.ok r
      else CreateMarbles.outer marbleList number cols x rem (i + 1) r.2.1 r.2.2

/-- Source `CGame::CreateMarbles`, for `number ≥ 0`. `(int)sqrt((double)number)` is
the integer square root. -/
def CreateMarbles (raw : Nat → CMarble) (number : Nat) (s : Env × CGame) :
    Except Fault (Bool × Env × CGame) :=
  match CreateMarbles.create raw number s with
  | Except.error e => Except.error e
  | Except.ok s1 =>
    match s1.2.m_marbleList[1]? with
    | none => Except.error Fault.undefinedBehaviour
    | some p1 =>
      match s1.1.heap[p1]? with
      | none => Except.error Fault.undefinedBehaviour
      | some m1 =>
        let x := m1.getRadius * 2
        let cols := Nat.sqrt number + 1
        match CreateMarbles.outer s1.2.m_marbleList number cols x cols 0 0 s1.1 with
        | Except.error e => Except.error e
        | Except.ok r => Except.ok (true, r.2.2, s1.2)

/-- The local `yVel` of `CGame::ShootMarble` after the clamp. -/
def ShootMarble.yVel (sqrt : ℚ → ℚ) (aim : CVector3) : ℚ :=
  let yVel := aim.Magnitude sqrt / 30.0
  if yVel > 5.0 then 10.0 else yVel

/-- Source `CGame::ShootMarble`. -/
def ShootMarble (sqrt : ℚ → ℚ) (forward side aim : CVector3) (s : Env × CGame) :
    Except Fault (Env × CGame) :=
  let yVel := ShootMarble.yVel sqrt aim
  match s.1.invoke s.2.m_p1Tolley (fun t => t.setVel (aim.x * 1.3) yVel (aim.z * 1.3)) with
  | Except.error e => Except.error e
  | Except.ok env1 =>
    match (if forward.Magnitude sqrt ≠ 0 then
             env1.invoke s.2.m_p1Tolley
               (fun t => t.AddTorque (forward.x / 10) (forward.y / 10) (forward.z / 10))
           else Except.ok env1) with
    | Except.error e => Except.error e
    | Except.ok env2 =>
      match (if side.Magnitude sqrt ≠ 0 then
               env2.invoke s.2.m_p1Tolley
                 (fun t => t.AddTorque (side.x / 3) (side.y / 3) (side.z / 3))
             else Except.ok env2) with
      | Except.error e => Except.error e
      | Except.ok env3 =>
        Except.ok (env3, { s.2 with m_gameState := GameState.GS_DynamicsSettle })

end CGame

/-- Source `CGame::CGame`, preceded by the constructors of the data members
`m_objectManager` and `m_odeManager`. -/
def CGame.CGame (raw : CGame) (rawObj : Nat → CMarble) (env : Env) :
    Except Fault (Env × CGame) :=
  let mgr := CObjectManager.CObjectManager
  let om := ODEManager.ODEManager env
  let g : Marbles.CGame :=
    { raw with m_marbleList := [], m_objectManager := mgr, m_odeManager := om.1,
               m_throbber := 0, m_throbIncrSign := 1, m_pause := false, m_viewInterp := 0,
               m_camera := raw.m_camera.LookAt 40 20 40 0 0 0 0 1 0,
               m_gameState := GameState.GS_LoadLevel,
               m_tolleyPos := raw.m_tolleyPos.set (-20) 0 50,
               m_aimPos := raw.m_aimPos.set 0 0 0 }
  let t := CTolley.CTolley (rawObj om.2.heap.length) om.2
  let a := t.2.alloc t.1
  let g1 := { g with m_p1Tolley := a.1 }
  match g1.m_objectManager.AddObject a.2 g1.m_p1Tolley with
  | Except.error e => Except.error e
  | Except.ok mgr1 =>
    let g2 := { g1 with m_objectManager := mgr1,
                        m_marbleList := g1.m_marbleList ++ [g1.m_p1Tolley] }
    match a.2.invoke g2.m_p1Tolley (fun m => m.setPos g2.m_tolleyPos.x 1 g2.m_tolleyPos.z) with
    | Except.error e => Except.error e
    | Except.ok env1 => Except.ok (env1, g2)

/-- The run that `WinMain` starts: the game is constructed on the initial state
and the first `MainLoop` frame (state `GS_LoadLevel`) calls `CreateMarbles`. -/
def newGameCreateMarbles (raw : CGame) (rawObj : Nat → CMarble) (number : Nat) :
    Except Fault (Bool × Env × CGame) :=
  match CGame.CGame raw rawObj Env.init with
  | Except.error e => Except.error e
  | Except.ok s0 => CGame.CreateMarbles rawObj number s0

/-- The coordinates a library call sets as the position of a body, when it is a
`dBodySetPosition`. -/
def OdeCall.positionSet : OdeCall → Option (ℚ × ℚ × ℚ)
  | OdeCall.dBodySetPosition _ x y z => some (x, y, z)
  | _ => none

/-- The library calls that the placement loops of `CreateMarbles` issue in the run
of `newGameCreateMarbles`: the calls of the whole run that come after those of the
constructor and of the first loop. -/
def newGamePlacementCalls (raw : CGame) (rawObj : Nat → CMarble) (number : Nat) :
    Option (List OdeCall) :=
  match CGame.CGame raw rawObj Env.init with
  | Except.error _ => none
  | Except.ok s0 =>
    match CGame.CreateMarbles.create rawObj number s0, CGame.CreateMarbles rawObj number s0 with
    | Except.ok s1, Except.ok r => some (r.2.1.odeCalls.drop s1.1.odeCalls.length)
    | _, _ => none

/-! ## Sequences of calls on the object manager -/

/-- One call on the object manager. -/
inductive MgrOp where
  | AddObject (p : ObjPtr)
  | CreateObject (type : String)
  | getObject (id : dBodyID)
deriving DecidableEq, Repr

/-- Whether the call is an `AddObject` or a `CreateObject`. -/
def MgrOp.isRegistration : MgrOp → Bool
  | MgrOp.AddObject _ => true
  | MgrOp.CreateObject _ => true
  | MgrOp.getObject _ => false

/-- The body id of the object a pointer refers to (0 for a pointer outside the
heap). -/
def bodyIdAt (env : Env) (p : ObjPtr) : dBodyID :=
  match env.heap[p]? with
  | some o => o.getBodyID
  | none => 0

/-- One call of a sequence. Next to the new state the result names the
registration the call has made, if any: the body id used as key and the pointer
stored under it. -/
def MgrOp.step (raw : Nat → CMarble) (op : MgrOp) (s : Env × CObjectManager) :
    Except Fault ((Env × CObjectManager) × Option (dBodyID × ObjPtr)) :=
  match op with
  | MgrOp.AddObject p =>
    match s.2.AddObject s.1 p with
    | Except.error e => Except.error e
    | Except.ok mgr => Except.ok ((s.1, mgr), some (bodyIdAt s.1 p, p))
  | MgrOp.CreateObject type =>
    match s.2.CreateObject raw type s.1 with
    | (Except.error e, _, _) => Except.error e
    | (Except.ok obj, env, mgr) => Except.ok ((env, mgr), some (bodyIdAt env obj, obj))
  | MgrOp.getObject id => Except.ok ((s.1, (s.2.getObject id).2), none)

/-- A sequence of calls, run from left to right; the registrations made are
collected in order. -/
def MgrOp.run (raw : Nat → CMarble) :
    List MgrOp → (Env × CObjectManager) × List (dBodyID × ObjPtr) →
      Except Fault ((Env × CObjectManager) × List (dBodyID × ObjPtr))
  | [], st => Except.ok st
  | op :: rest, st =>
    match op.step raw st.1 with
    | Except.error e => Except.error e
    | Except.ok r => MgrOp.run raw rest (r.1, st.2 ++ r.2.toList)

/-- The pointer of the last registration made under a body id, if there is one. -/
def lastRegistered (events : List (dBodyID × ObjPtr)) (id : dBodyID) : Option ObjPtr :=
  (events.reverse.find? (fun e => e.1 == id)).map (fun e => e.2)

/-! ## Destruction of all objects -/

/-- Source `CMarble::~CMarble` followed by `CGameObject::~CGameObject` (which is
empty): the calls the destructor issues. -/
def CMarble.destructor (m : Marbles.CMarble) : List OdeCall := [OdeCall.free m.m_geom]

/-- The loop of `CObjectManager::DestroyObjects` over the objects from index `i`
on: `curr->DestroyODEObject()` and `delete curr`. -/
def DestroyObjects.loop : List ObjPtr → Env → Except Fault Env
  | [], env => Except.ok env
  | curr :: rest, env =>
    match env.invoke curr CMarble.DestroyODEObject with
    | Except.error e => Except.error e
    | Except.ok env1 =>
      match env1.heap[curr]? with
      | none => Except.error Fault.undefinedBehaviour
      | some o =>
        DestroyObjects.loop rest
          { env1 with odeCalls := env1.odeCalls ++ o.destructor ++
                                    [OdeCall.operatorDelete curr] }

/-- Source `CObjectManager::DestroyObjects`. -/
def CObjectManager.DestroyObjects (mgr : Marbles.CObjectManager) (env : Env) :
    Except Fault (Env × Marbles.CObjectManager) :=
  match DestroyObjects.loop mgr.m_objectList env with
  | Except.error e => Except.error e
  | Except.ok env1 => Except.ok (env1, { mgr with m_objectList := [] })

/-- Whether a library call releases a physics resource (a shape or a body). -/
def OdeCall.isDestroy : OdeCall → Bool
  | OdeCall.dGeomDestroy _ => true
  | OdeCall.dBodyDestroy _ => true
  | _ => false

/-! ## CTimer -/

/-- The data members of `CTimer` (`__int64` counters). -/
structure CTimer where
  m_frequency : Int
  m_lastTime : Int
  m_totalTime : Int
deriving DecidableEq, Repr

namespace CTimer

/-- Source `CTimer::FrameUpdate`; `counter` is what `QueryPerformanceCounter`
reports. -/
def FrameUpdate (t : CTimer) (counter : Int) : CTimer :=
  { t with m_lastTime := t.m_totalTime, m_totalTime := counter }

/-- Source `CTimer::getDeltaT`. Counter readings are non-negative 64-bit values, so
the difference does not overflow. -/
def getDeltaT (t : CTimer) : ℚ :=
  ((t.m_totalTime - t.m_lastTime : Int) : ℚ) / (t.m_frequency : ℚ)

/-- Source `CTimer::getTime`. -/
def getTime (t : CTimer) : ℚ := (t.m_totalTime : ℚ) / (t.m_frequency : ℚ)

/-- A sequence of frames: `FrameUpdate` on each counter reading in turn. -/
def frames (t : CTimer) (readings : List Int) : CTimer :=
  readings.foldl FrameUpdate t

end CTimer

/-- Source `CTimer::CTimer`; `frequency` is what `QueryPerformanceFrequency`
reports. -/
def CTimer.CTimer (frequency : Int) : Marbles.CTimer :=
  { m_lastTime := 0, m_totalTime := 0, m_frequency := frequency }

/-! ## The modules around `CGame`

`Singleton.h` is not among the sources. Every module is used as the one object of
its class: `WinMain` constructs a single `CGame`, whose data members are the
modules, and `X::Instance()` denotes that object. -/

/-- Source `MAX_CONTACTS` of `ODEManager.h`. -/
def MAX_CONTACTS : Nat := 6

/-- Source `LEFT_MB` of `CGame.cpp`. -/
def LEFT_MB : Nat := 0

/-- The virtual-key code `VK_SPACE` of `windows.h`. -/
def VK_SPACE : Nat := 32

/-- The virtual-key code `VK_LEFT` of `windows.h`. -/
def VK_LEFT : Nat := 37

/-- The virtual-key code `VK_UP` of `windows.h`. -/
def VK_UP : Nat := 38

/-- The virtual-key code `VK_RIGHT` of `windows.h`. -/
def VK_RIGHT : Nat := 39

/-- The virtual-key code `VK_DOWN` of `windows.h`. -/
def VK_DOWN : Nat := 40

/-- The virtual-key code `VK_F2` of `windows.h`. -/
def VK_F2 : Nat := 113

/-- The virtual-key code `VK_F3` of `windows.h`. -/
def VK_F3 : Nat := 114

/-- A call on the sound manager, with its argument. -/
inductive SoundCall where
  | startMusic
  | stopMusic
  | playFX (vol : ℚ)
deriving DecidableEq, Repr

/-- A call on the window system made from the frame. -/
inductive WinCall where
  | ShowCursor (bShow : Bool)
  | SetCursorPos (x y : Int)
deriving DecidableEq, Repr

/-- The data members of `CInputManager`. -/
structure CInputManager where
  m_keys : Nat → Bool
  m_mb : Nat → Bool
  m_lastX : Int
  m_lastY : Int
  m_dx : Int
  m_dy : Int

namespace CInputManager

/-- Source `CInputManager::KeyState`. -/
def KeyState (im : CInputManager) (w : Nat) : Bool := im.m_keys w

/-- Source `CInputManager::KeyUp`. -/
def KeyUp (im : CInputManager) (w : Nat) : CInputManager :=
  { im with m_keys := fun k => if k = w then false else im.m_keys k }

/-- Source `CInputManager::MouseState`, for a button index that is not negative. -/
def MouseState (im : CInputManager) (i : Nat) : Bool :=
  if i > 2 then false else im.m_mb i

/-- Source `CInputManager::getMouseDX`. -/
def getMouseDX (im : CInputManager) : Int := im.m_dx

/-- Source `CInputManager::getMouseDY`. -/
def getMouseDY (im : CInputManager) : Int := im.m_dy

/-- Source `CInputManager::UpdateMouse`; `mousePos` is what `GetCursorPos`
reports. The second component is the call made on the window system. -/
def UpdateMouse (im : CInputManager) (mousePos : Int × Int) (middleX middleY : Int) :
    CInputManager × List WinCall :=
  ({ im with m_dx := middleX - mousePos.1, m_dy := middleY - mousePos.2 },
   [WinCall.SetCursorPos middleX middleY])

end CInputManager

/-- The data members of `CGLRender` that the frame reads. -/
structure CGLRender where
  m_width : Int
  m_height : Int
deriving DecidableEq, Repr

/-- Source `CGLRender::getWidth`. -/
def CGLRender.getWidth (r : CGLRender) : Int := r.m_width

/-- Source `CGLRender::getHeight`. -/
def CGLRender.getHeight (r : CGLRender) : Int := r.m_height

/-- One pair of shapes that `dSpaceCollide` hands to the callback, with what the
library answers about the pair: the bodies of the two shapes (`dGeomGetBody`),
whether these are connected by a joint that is not a contact
(`dAreConnectedExcluding`), and the number of contacts `dCollide` finds. -/
structure Candidate where
  o1 : dGeomID
  o2 : dGeomID
  b1 : dBodyID
  b2 : dBodyID
  connected : Bool
  numc : Nat
deriving DecidableEq, Repr

/-- The physics library as the game sees it: what it reports is determined by
the calls issued so far. `bodies` gives the answers of the reading calls,
`candidates` the pairs of a collision pass started after the given calls. -/
structure OdeWorld where
  bodies : List OdeCall → OdeBodies
  candidates : List OdeCall → List Candidate

/-- What the system reports in one frame: the performance counter and the
cursor position. -/
structure FrameInput where
  counter : Int
  cursor : Int × Int
deriving DecidableEq, Repr

/-- The state of the running program: the heap and the library calls, the `CGame`
object, its modules `m_timer`, `m_inputManager` and `m_renderer`, and the calls
made so far on the sound manager and on the window system. -/
structure Program where
  env : Env
  game : CGame
  timer : CTimer
  input : CInputManager
  render : CGLRender
  sound : List SoundCall
  window : List WinCall

/-! ## Collision pass and simulation step -/

/-- Source `CGame::CheckCollisions`. Both objects are dereferenced in every run:
the second by the condition when the first is slow, by `max` otherwise. The
`float` rounding of `volume` is not modelled. -/
def CGame.CheckCollisions (world : OdeWorld) (b1 b2 : dBodyID) (p : Program) :
    Except Fault Program :=
  let r1 := p.game.m_objectManager.getObject b1
  let r2 := r1.2.getObject b2
  match r1.1, r2.1 with
  | some obj1, some obj2 =>
    match p.env.heap[obj1]?, p.env.heap[obj2]? with
    | some o1, some o2 =>
      let ode := world.bodies p.env.odeCalls
      let p1 := { p with game := { p.game with m_objectManager := r2.2 } }
      if o1.getVel ode > 0.3 ∨ o2.getVel ode > 0.3 then
        let volume := max (o1.getVel ode) (o2.getVel ode)
        Except.ok { p1 with sound := p1.sound ++ [SoundCall.playFX (volume * 2.0)] }
      else Except.ok p1
    | _, _ => Except.error Fault.undefinedBehaviour
  | _, _ => Except.error Fault.undefinedBehaviour

/-- The calls of the contact loop of `NearCallback` for `numc` contacts. -/
def ODEManager.contactCalls (b1 b2 : dBodyID) : Nat → List OdeCall
  | 0 => []
  | numc + 1 =>
    OdeCall.dJointCreateContact 0.75 0.1 :: OdeCall.dJointAttach b1 b2 ::
      ODEManager.contactCalls b1 b2 numc

/-- Source `ODEManager::NearCallback` on one candidate pair. `dCollide` is asked
for at most `MAX_CONTACTS` contacts. -/
def ODEManager.NearCallback (world : OdeWorld) (c : Candidate) (p : Program) :
    Except Fault Program :=
  if c.b1 ≠ 0 ∧ c.b2 ≠ 0 ∧ c.connected = true then Except.ok p
  else
    match (if c.o1 ≠ p.game.m_odeManager.m_plane ∧ c.o2 ≠ p.game.m_odeManager.m_plane then
             CGame.CheckCollisions world c.b1 c.b2 p
           else Except.ok p) with
    | Except.error e => Except.error e
    | Except.ok p1 =>
      let calls := ODEManager.contactCalls c.b1 c.b2 (min c.numc MAX_CONTACTS)
      Except.ok { p1 with env := { p1.env with odeCalls := p1.env.odeCalls ++ calls } }

/-- The callbacks of one `dSpaceCollide` pass, in the order of the candidates. -/
def ODEManager.collide (world : OdeWorld) : List Candidate → Program → Except Fault Program
  | [], p => Except.ok p
  | c :: rest, p =>
    match ODEManager.NearCallback world c p with
    | Except.error e => Except.error e
    | Except.ok p1 => ODEManager.collide world rest p1

/-- Source `ODEManager::SimLoop`. The local `deltaT` is read and not used. -/
def ODEManager.SimLoop (world : OdeWorld) (pause : Bool) (p : Program) :
    Except Fault Program :=
  if !pause then
    let _deltaT := p.timer.getDeltaT
    let log := p.env.odeCalls ++ [OdeCall.dSpaceCollide]
    let p1 := { p with env := { p.env with odeCalls := log } }
    match ODEManager.collide world (world.candidates p1.env.odeCalls) p1 with
    | Except.error e => Except.error e
    | Except.ok p2 =>
      let calls := [OdeCall.dWorldStep 0.05, OdeCall.dJointGroupEmpty]
      Except.ok { p2 with env := { p2.env with odeCalls := p2.env.odeCalls ++ calls } }
  else Except.ok p

/-- The number of joints in the contact group after a sequence of library calls:
`dJointCreateContact` adds one to the group, `dJointGroupEmpty` removes all. -/
def contactJoints (calls : List OdeCall) : Nat :=
  calls.foldl (fun n c =>
    match c with
    | OdeCall.dJointCreateContact _ _ => n + 1
    | OdeCall.dJointGroupEmpty => 0
    | _ => n) 0

/-! ## One frame of `MainLoop` -/

/-- The loop of `CObjectManager::UpdateObjects`: the virtual `Update` of every
object of the list in turn. -/
def UpdateObjects.loop (toFloat : ℚ → ℚ) (world : OdeWorld) :
    List ObjPtr → Env → Except Fault Env
  | [], env => Except.ok env
  | p :: rest, env =>
    match env.heap[p]? with
    | none => Except.error Fault.undefinedBehaviour
    | some o =>
      let r := o.virtualUpdate toFloat (world.bodies env.odeCalls)
      UpdateObjects.loop toFloat world rest
        { env with heap := env.heap.set p r.obj, odeCalls := env.odeCalls ++ r.calls }

/-- Source `CObjectManager::UpdateObjects`. -/
def CObjectManager.UpdateObjects (mgr : Marbles.CObjectManager) (toFloat : ℚ → ℚ)
    (world : OdeWorld) (env : Env) : Except Fault Env :=
  UpdateObjects.loop toFloat world mgr.m_objectList env

/-- Source `CGame::interpView`. -/
def CGame.interpView (g : Marbles.CGame) : Marbles.CGame :=
  let destPos : CVector3 := ⟨3, 40, 3⟩
  let sourcePos : CVector3 :=
    ⟨g.m_tolleyPos.x + g.m_tolleyForward.x * 10, 5, g.m_tolleyPos.z + g.m_tolleyForward.z * 10⟩
  if g.m_viewInterp < 1 then
    let g1 := { g with m_viewInterp := g.m_viewInterp + g.m_deltaT }
    let viewPos := (sourcePos.mul (1 - g1.m_viewInterp)).add (destPos.mul g1.m_viewInterp)
    let viewCtr := (g1.m_aimPos.mul (1 - g1.m_viewInterp)).add (g1.m_tolleyPos.mul g1.m_viewInterp)
    let camera := g1.m_camera.LookAt viewPos.x viewPos.y viewPos.z viewCtr.x viewCtr.y viewCtr.z
      0 1 0
    { g1 with m_camera := camera }
  else
    let viewCtr := g.m_tolleyPos
    let viewPos := destPos
    let camera := g.m_camera.LookAt viewPos.x viewPos.y viewPos.z viewCtr.x viewCtr.y viewCtr.z
      0 1 0
    { g with m_camera := camera }

/-- The statements `m_tolleyForward = m_tolleyPos-m_aimPos; m_tolleyForward.y = 0;`
of `CGame::MainLoop`: the value of `m_tolleyForward` before it is normalized. -/
def CGame.MainLoop.aimDifference (g : Marbles.CGame) : CVector3 :=
  { g.m_tolleyPos.sub g.m_aimPos with y := 0 }

/-- The statements of the simulation branch of `CGame::MainLoop` before
`SimLoop`: the aim vectors, the timer and the throbber. A `Normalize` that divides
by a zero magnitude is a fault. -/
def CGame.MainLoop.prepare (sqrt : ℚ → ℚ) (inp : FrameInput) (p : Program) :
    Except Fault Program :=
  match CVector3.Normalize sqrt (CGame.MainLoop.aimDifference p.game) with
  | Except.error e => Except.error e
  | Except.ok forward =>
    let up : CVector3 := ⟨0, 1, 0⟩
    match CVector3.Normalize sqrt (p.game.m_tolleyStrafe.Cross forward up) with
    | Except.error e => Except.error e
    | Except.ok strafe =>
      let timer := p.timer.FrameUpdate inp.counter
      let deltaT := timer.getDeltaT
      let sign := if p.game.m_throbber < 0.0 ∨ p.game.m_throbber > 1.0 then -p.game.m_throbIncrSign
                  else p.game.m_throbIncrSign
      let g := { p.game with m_tolleyForward := forward, m_tolleyStrafe := strafe,
                             m_deltaT := deltaT, m_throbIncrSign := sign,
                             m_throbber := p.game.m_throbber + deltaT * sign }
      Except.ok { p with game := g, timer := timer }

/-- The statements of the simulation branch of `CGame::MainLoop` up to and
including `SimLoop(m_pause)`. -/
def CGame.MainLoop.simulate (sqrt : ℚ → ℚ) (world : OdeWorld) (inp : FrameInput) (p : Program) :
    Except Fault Program :=
  match CGame.MainLoop.prepare sqrt inp p with
  | Except.error e => Except.error e
  | Except.ok p1 => ODEManager.SimLoop world p1.game.m_pause p1

/-- The branch `m_gameState == GS_DynamicsSettle` of `CGame::MainLoop`. -/
def CGame.MainLoop.dynamicsSettle (world : OdeWorld) (p : Program) : Except Fault Program :=
  let g := CGame.interpView p.game
  match g.m_objectManager.DynamicsDone (world.bodies p.env.odeCalls) p.env with
  | Except.error e => Except.error e
  | Except.ok r =>
    let g1 := { g with m_objectManager := r.2 }
    Except.ok { p with game := if r.1 then { g1 with m_gameState := GameState.GS_AimShot } else g1 }

/-- The key handling of the branch `m_gameState == GS_AimShot`: the four arrow
keys move the striker position or the aim position. -/
def CGame.MainLoop.arrowKeys (im : CInputManager) (speed : ℚ) (g : Marbles.CGame) :
    Marbles.CGame :=
  if g.m_toggleTolleyMove then
    let g := if im.KeyState VK_UP then
      { g with m_tolleyPos := g.m_tolleyPos.sub (g.m_tolleyForward.mul speed) } else g
    let g := if im.KeyState VK_DOWN then
      { g with m_tolleyPos := g.m_tolleyPos.add (g.m_tolleyForward.mul speed) } else g
    let g := if im.KeyState VK_LEFT then
      { g with m_tolleyPos := g.m_tolleyPos.add (g.m_tolleyStrafe.mul speed) } else g
    let g := if im.KeyState VK_RIGHT then
      { g with m_tolleyPos := g.m_tolleyPos.sub (g.m_tolleyStrafe.mul speed) } else g
    g
  else
    let g := if im.KeyState VK_UP then
      { g with m_aimPos := g.m_aimPos.sub ((g.m_tolleyForward.mul speed).mul 1.5) } else g
    let g := if im.KeyState VK_DOWN then
      { g with m_aimPos := g.m_aimPos.add ((g.m_tolleyForward.mul speed).mul 1.5) } else g
    let g := if im.KeyState VK_LEFT then
      { g with m_aimPos := g.m_aimPos.add ((g.m_tolleyStrafe.mul speed).mul 1.5) } else g
    let g := if im.KeyState VK_RIGHT then
      { g with m_aimPos := g.m_aimPos.sub ((g.m_tolleyStrafe.mul speed).mul 1.5) } else g
    g

/-- The branch `m_gameState == GS_AimShot` of `CGame::MainLoop`; `width` and
`height` are the locals of that name. -/
def CGame.MainLoop.aimShot (world : OdeWorld) (width height : Int) (p : Program) :
    Except Fault Program :=
  let speed := p.game.m_deltaT * 5
  match p.game.m_objectManager.DynamicsDone (world.bodies p.env.odeCalls) p.env with
  | Except.error e => Except.error e
  | Except.ok r =>
    let g := { p.game with m_objectManager := r.2 }
    let g := if !r.1 then
      { g with m_gameState := GameState.GS_DynamicsSettle, m_viewInterp := 0.0 } else g
    let mouse := p.input.MouseState LEFT_MB
    let g := if mouse then
      { g with m_gameState := GameState.GS_ShotDetect,
               m_forwardAim := g.m_forwardAim.set 0 0 0,
               m_sideAim := g.m_sideAim.set 0 0 0 } else g
    let window := if mouse then
      p.window ++ [WinCall.ShowCursor false, WinCall.SetCursorPos width height] else p.window
    let space := p.input.KeyState VK_SPACE
    let g := if space then { g with m_toggleTolleyMove := !g.m_toggleTolleyMove } else g
    let input := if space then p.input.KeyUp VK_SPACE else p.input
    let g := CGame.MainLoop.arrowKeys input speed g
    match p.env.invoke g.m_p1Tolley
        (fun t => t.setPos g.m_tolleyPos.x g.m_tolleyPos.y g.m_tolleyPos.z) with
    | Except.error e => Except.error e
    | Except.ok env1 =>
      let camera := g.m_camera.LookAt
        (g.m_tolleyPos.x + g.m_tolleyForward.x * 10) 5 (g.m_tolleyPos.z + g.m_tolleyForward.z * 10)
        g.m_aimPos.x g.m_aimPos.y g.m_aimPos.z 0 1 0
      let g := { g with m_camera := camera }
      Except.ok { p with env := env1, game := g, input := input, window := window }

/-- The branch `m_gameState == GS_ShotDetect` of `CGame::MainLoop`. -/
def CGame.MainLoop.shotDetect (sqrt : ℚ → ℚ) (inp : FrameInput) (width height : Int)
    (p : Program) : Except Fault Program :=
  match (if !p.input.MouseState LEFT_MB then
           match CGame.ShootMarble sqrt p.game.m_forwardAim p.game.m_sideAim
               (p.game.m_aimPos.sub p.game.m_tolleyPos) (p.env, p.game) with
           | Except.error e => Except.error e
           | Except.ok s =>
             Except.ok { p with env := s.1,
                                game := { s.2 with m_gameState := GameState.GS_DynamicsSettle,
                                                   m_viewInterp := 0.0 },
                                window := p.window ++ [WinCall.ShowCursor true] }
         else Except.ok p) with
  | Except.error e => Except.error e
  | Except.ok p1 =>
    let u := p1.input.UpdateMouse inp.cursor width height
    let g := p1.game
    let g := { g with m_sideAim := g.m_sideAim.add (g.m_tolleyForward.mul (u.1.getMouseDX : ℚ)) }
    let g := { g with m_forwardAim := g.m_forwardAim.add (g.m_tolleyStrafe.mul (u.1.getMouseDY : ℚ)) }
    Except.ok { p1 with game := g, input := u.1, window := p1.window ++ u.2 }

/-- The chain of state tests of the simulation branch of `CGame::MainLoop`; no
branch is taken in any other state. -/
def CGame.MainLoop.react (sqrt : ℚ → ℚ) (world : OdeWorld) (inp : FrameInput)
    (width height : Int) (p : Program) : Except Fault Program :=
  match p.game.m_gameState with
  | GameState.GS_DynamicsSettle => CGame.MainLoop.dynamicsSettle world p
  | GameState.GS_AimShot => CGame.MainLoop.aimShot world width height p
  | GameState.GS_ShotDetect => CGame.MainLoop.shotDetect sqrt inp width height p
  | _ => Except.ok p

/-- The end of the simulation branch of `CGame::MainLoop`: the striker position
is read back from the library and every object is updated (drawing is not
modelled). -/
def CGame.MainLoop.finish (toFloat : ℚ → ℚ) (world : OdeWorld) (p : Program) :
    Except Fault Program :=
  match p.env.heap[p.game.m_p1Tolley]? with
  | none => Except.error Fault.undefinedBehaviour
  | some t =>
    let pos := (world.bodies p.env.odeCalls).dBodyGetPosition t.m_body
    let g := { p.game with m_tolleyPos := p.game.m_tolleyPos.set pos.1 pos.2.1 pos.2.2 }
    match g.m_objectManager.UpdateObjects toFloat world p.env with
    | Except.error e => Except.error e
    | Except.ok env1 => Except.ok { p with env := env1, game := g }

/-- The first two statements of `CGame::MainLoop`: the music keys. -/
def CGame.MainLoop.musicKeys (p : Program) : Program :=
  let p := if p.input.KeyState VK_F2 then
    { p with sound := p.sound ++ [SoundCall.startMusic] } else p
  if p.input.KeyState VK_F3 then
    { p with sound := p.sound ++ [SoundCall.stopMusic] } else p

/-- Source `CGame::MainLoop`. `raw` is the raw memory of the objects that
`CreateMarbles` allocates; `>> 1` on the window size is the division by 2 that
rounds down. -/
def CGame.MainLoop (sqrt toFloat : ℚ → ℚ) (raw : Nat → CMarble) (world : OdeWorld)
    (inp : FrameInput) (p : Program) : Except Fault Program :=
  let p := CGame.MainLoop.musicKeys p
  let width := p.render.getWidth / 2
  let height := p.render.getHeight / 2
  match p.game.m_gameState with
  | GameState.GS_Menu => Except.ok p
  | GameState.GS_LoadLevel =>
    match CGame.CreateMarbles raw NUM_MARBLES (p.env, p.game) with
    | Except.error e => Except.error e
    | Except.ok r =>
      Except.ok { p with env := r.2.1,
                         game := { r.2.2 with m_gameState := GameState.GS_DynamicsSettle } }
  | _ =>
    match CGame.MainLoop.simulate sqrt world inp p with
    | Except.error e => Except.error e
    | Except.ok p1 =>
      match CGame.MainLoop.react sqrt world inp width height p1 with
      | Except.error e => Except.error e
      | Except.ok p2 => CGame.MainLoop.finish toFloat world p2

/-- The test of `DynamicsDone` on one velocity: every component in the closed
range from -0.1 to 0.1. -/
def withinThreshold (v : ℚ × ℚ × ℚ) : Prop :=
  (-0.1 ≤ v.1 ∧ v.1 ≤ 0.1) ∧ (-0.1 ≤ v.2.1 ∧ v.2.1 ≤ 0.1) ∧ (-0.1 ≤ v.2.2 ∧ v.2.2 ≤ 0.1)

/-- A live marble resting at the origin. -/
def exampleMarble : CMarble :=
  { ID := 0, m_body := 1, m_geom := 2, m_position := (0, 0.5, 0), m_size := (1, 1, 1),
    m_color := (0.8, 0.8, 0.8, 1.0), m_dynamic := true, m_odeDestroyed := false,
    m_texture := 4294967295, m_radius := MARBLE_RADIUS, m_lastPosition := (0, 0.5, 0),
    m_inPlay := true, isTolley := false }

/-- A live striker. -/
def exampleTolley : CMarble :=
  { exampleMarble with m_radius := TOLLEY_RADIUS, m_color := (1, 1, 1, 1), isTolley := true }

/-- A marble put outside the ring by `setPos(25, 0.5, 0)`. -/
def exampleOutside : CMarble :=
  { exampleMarble with m_position := (25, 0.5, 0), m_lastPosition := (25, 0.5, 0) }

/-- A library view in which every body sits at `pos` and moves with `vel` and `omega`. -/
def constBodies (pos vel omega : ℚ × ℚ × ℚ) : OdeBodies :=
  { dBodyGetPosition := fun _ => pos, dBodyGetLinearVel := fun _ => vel,
    dBodyGetAngularVel := fun _ => omega }

/-- A heap of two objects: a dynamic striker and a disabled marble. -/
def exampleEnv : Env :=
  { heap := [exampleTolley, { exampleMarble with m_body := 2, m_geom := 3, m_dynamic := false }],
    odeCalls := [], nextBody := 3, nextGeom := 4 }

/-- A manager whose object list holds both objects of `exampleEnv`. -/
def exampleManager : CObjectManager :=
  { CObjectManager.CObjectManager with
      m_objectList := [0, 1], m_objectIDMap := [(2, some 1), (1, some 0)] }

/-- A game in the shot-detection state whose striker is object 0 of `exampleEnv`. -/
def exampleGame : CGame :=
  { m_marbleList := [0, 1], m_p1Tolley := 0, m_p2Tolley := 0,
    m_tolleyForward := ⟨0, 0, 1⟩, m_tolleyStrafe := ⟨1, 0, 0⟩,
    m_forwardAim := ⟨0, 0, 0⟩, m_sideAim := ⟨0, 0, 0⟩,
    m_tolleyPos := ⟨0, 0.5, 0⟩, m_aimPos := ⟨3, 0.5, 4⟩,
    m_camera := { eye := ⟨40, 20, 40⟩, center := ⟨0, 0, 0⟩, up := ⟨0, 1, 0⟩ },
    m_objectManager := exampleManager, m_odeManager := { m_plane := 1, m_gravity := (0, -9.8, 0) },
    m_gameState := GameState.GS_ShotDetect, m_throbber := 0, m_throbIncrSign := 1,
    m_viewInterp := 0, m_deltaT := 0, m_toggleTolleyMove := false, m_pause := false,
    m_quit := false }

/-- Some contents for the raw memory of a `CMarble` about to be constructed. -/
def exampleRawMarble : CMarble :=
  { ID := 7, m_body := 0, m_geom := 0, m_position := (9, 9, 9), m_size := (9, 9, 9),
    m_color := (9, 9, 9, 9), m_dynamic := false, m_odeDestroyed := true, m_texture := 0,
    m_radius := 9, m_lastPosition := (9, 9, 9), m_inPlay := true, isTolley := false }

/-- Some contents for the raw memory of the `CGame` about to be constructed. -/
def exampleRawGame : CGame :=
  { exampleGame with m_marbleList := [], m_gameState := GameState.GS_Menu,
                     m_objectManager := CObjectManager.CObjectManager,
                     m_tolleyPos := ⟨9, 9, 9⟩, m_aimPos := ⟨9, 9, 9⟩ }

/-- A computable square root used to instantiate the `sqrt` parameter: the
integer square root taken on the grid of the denominator; exact on squares of
integers. -/
def exampleSqrt (q : ℚ) : ℚ := (Nat.sqrt (q.num.toNat * q.den) : ℚ) / q.den

/-- The integer square root of `n` below `2 ^ k`, found bit by bit from the
highest bit down, starting from `r`. -/
def exampleRoot.bits : Nat → Nat → Nat → Nat
  | 0, _, r => r
  | k + 1, n, r =>
    exampleRoot.bits k n (if (r + 2 ^ k) * (r + 2 ^ k) ≤ n then r + 2 ^ k else r)

/-- A second computable square root, for runs of whole frames: the integer square
root of numerator times denominator, found bit by bit below `2 ^ 32`, over the
denominator. At 2900 it gives 53 and at 25 it gives 5. -/
def exampleRoot (q : ℚ) : ℚ := (exampleRoot.bits 32 (q.num.toNat * q.den) 0 : ℚ) / q.den

/-- A computable narrowing used to instantiate the `toFloat` parameter: the
nearest multiple of `2^-15`, ties to the even multiple. This is what the narrowing
of a `double` to a `float` gives for values from 256 up to 512, where
neighbouring `float` values are `2^-15` apart; every multiple of `2^-15` is left as
it is. -/
def exampleFloat (q : ℚ) : ℚ :=
  let s := q * 32768
  let f : Int := Rat.floor s
  let n : Int :=
    if s - f < 1 / 2 then f
    else if s - f > 1 / 2 then f + 1
    else if f % 2 = 0 then f else f + 1
  (n : ℚ) / 32768

/-- Whether a call of a sequence is defined in a state: `AddObject` needs a
pointer to an object of the heap, `CreateObject` a type tag that the factory
knows. -/
def MgrOp.defined (env : Env) (mgr : CObjectManager) : MgrOp → Bool
  | MgrOp.AddObject p => decide (p < env.heap.length)
  | MgrOp.CreateObject type => mgr.CGameObjectFactory.any (fun e => e.1 == type)
  | MgrOp.getObject _ => true

/-- The invariant of the registrations: the pointers of the list are valid, and
when their body ids are pairwise distinct the map holds one entry per object,
latest first. -/
def registrySync (s : Env × CObjectManager) : Prop :=
  (∀ p ∈ s.2.m_objectList, p < s.1.heap.length) ∧
  ((s.2.m_objectList.map (bodyIdAt s.1)).Nodup →
    s.2.m_objectIDMap = s.2.m_objectList.reverse.map (fun p => (bodyIdAt s.1 p, some p)))

/-- The calls that one iteration of the loop of `DestroyObjects` issues for the
object a pointer refers to in the state before the loop. -/
def destroyCallsAt (env : Env) (p : ObjPtr) : List OdeCall :=
  match env.heap[p]? with
  | some o => o.DestroyODEObject.2 ++ o.destructor ++ [OdeCall.operatorDelete p]
  | none => []

/-- A sample sequence of registrations on a new manager: two objects of
`exampleEnv` are added, then a marble is created. -/
def exampleOps : List MgrOp :=
  [MgrOp.AddObject 0, MgrOp.AddObject 1, MgrOp.CreateObject Marble_Type]

/-- The call sequence of one callback of the collision pass: nothing when the
pair is skipped, the contact calls otherwise. -/
def ODEManager.callbackCalls (c : Candidate) : List OdeCall :=
  if c.b1 ≠ 0 ∧ c.b2 ≠ 0 ∧ c.connected = true then []
  else ODEManager.contactCalls c.b1 c.b2 (min c.numc MAX_CONTACTS)

/-- Whether the callback hands a pair to `CheckCollisions`: the pair is not
skipped and neither shape is the floor plane. -/
def Candidate.checked (plane : dGeomID) (c : Candidate) : Prop :=
  ¬ (c.b1 ≠ 0 ∧ c.b2 ≠ 0 ∧ c.connected = true) ∧ c.o1 ≠ plane ∧ c.o2 ≠ plane

/-- A body id is registered in the identity map with a pointer to an object of
the heap. -/
def resolves (p : Program) (b : dBodyID) : Prop :=
  ∃ obj o, p.game.m_objectManager.m_objectIDMap.find b = some (some obj) ∧
    p.env.heap[obj]? = some o

/-- The squared speed the library reports for a body after the calls made so
far. -/
def squaredSpeed (world : OdeWorld) (p : Program) (b : dBodyID) : ℚ :=
  let vel := (world.bodies p.env.odeCalls).dBodyGetLinearVel b
  vel.1 * vel.1 + vel.2.1 * vel.2.1 + vel.2.2 * vel.2.2

/-- The body whose position a library call sets, when it is a
`dBodySetPosition`. -/
def OdeCall.positionedBody : OdeCall → Option dBodyID
  | OdeCall.dBodySetPosition b _ _ _ => some b
  | _ => none

/-- A library in which body 1 moves with `vel1` and every other body with
`vel2`, all bodies sit at `pos`, and every collision pass reports `pairs`. -/
def exampleWorld (pos vel1 vel2 : ℚ × ℚ × ℚ) (pairs : List Candidate) : OdeWorld :=
  { bodies := fun _ =>
      { dBodyGetPosition := fun _ => pos,
        dBodyGetLinearVel := fun b => if b = 1 then vel1 else vel2,
        dBodyGetAngularVel := fun _ => (0, 0, 0) },
    candidates := fun _ => pairs }

/-- An input manager with no key and no button down. -/
def exampleInput : CInputManager :=
  { m_keys := fun _ => false, m_mb := fun _ => false, m_lastX := 0, m_lastY := 0,
    m_dx := 0, m_dy := 0 }

/-- A running program around `exampleGame` and `exampleEnv`, in the given game
state and with the primary mouse button as given. -/
def exampleProgram (state : GameState) (mouseDown : Bool) : Program :=
  { env := exampleEnv, game := { exampleGame with m_gameState := state },
    timer := { m_frequency := 1000, m_lastTime := 0, m_totalTime := 5000 },
    input := { exampleInput with m_mb := fun i => decide (i = 0) && mouseDown },
    render := { m_width := 1024, m_height := 768 }, sound := [], window := [] }

/-- The pair of the two objects of `exampleEnv`, touching in two contacts. -/
def examplePair : Candidate :=
  { o1 := 2, o2 := 3, b1 := 1, b2 := 2, connected := false, numc := 2 }

/-- A game settling after a shot: the view-interpolation timer stands at 0.9 and
the frame delta is 0.5. -/
def exampleSettling : CGame :=
  { exampleGame with m_gameState := GameState.GS_DynamicsSettle, m_viewInterp := 9 / 10,
                     m_deltaT := 1 / 2 }

/-- The throbber statements of `CGame::MainLoop` (`if (m_throbber < 0.0 ||
m_throbber > 1.0) m_throbIncrSign = -m_throbIncrSign; m_throbber +=
m_deltaT*m_throbIncrSign;`) on the pair (`m_throbber`, `m_throbIncrSign`), for the
frame delta `deltaT`. -/
def CGame.MainLoop.throb (deltaT : ℚ) (s : ℚ × ℚ) : ℚ × ℚ :=
  let sign := if s.1 < 0.0 ∨ s.1 > 1.0 then -s.2 else s.2
  (s.1 + deltaT * sign, sign)

/-- The pair (`m_throbber`, `m_throbIncrSign`) after simulation frames with the
given deltas, oldest first, starting from the values 0 and 1 that `CGame::CGame`
stores. -/
def throbberAfter (deltas : List ℚ) : ℚ × ℚ :=
  deltas.foldl (fun s deltaT => CGame.MainLoop.throb deltaT s) (0, 1)

/-- The values that the statements of a simulation frame before `SimLoop` store
and that nothing later in the frame writes: the throbber, its sign, and the two
aim vectors. -/
def CGame.frameValues (g : Marbles.CGame) : ℚ × ℚ × CVector3 × CVector3 :=
  (g.m_throbber, g.m_throbIncrSign, g.m_tolleyForward, g.m_tolleyStrafe)

/-- The ring test of `CMarble::Update` and of `CTolley::Update`: the squared
planar distance of the last-known position, narrowed to `float`, exceeds the
square of `RING_RADIUS`. -/
def outsideRing (toFloat : ℚ → ℚ) (m : CMarble) : Prop :=
  toFloat (m.m_lastPosition.1 * m.m_lastPosition.1 +
      m.m_lastPosition.2.2 * m.m_lastPosition.2.2) >
    RING_RADIUS * RING_RADIUS

/-- A striker put outside the ring by `setPos(25, 0.75, 0)`. -/
def exampleOutsideTolley : CMarble :=
  { exampleTolley with m_position := (25, 0.75, 0), m_lastPosition := (25, 0.75, 0) }

/-- Modelled from the spec: the position of placement number `k` (counted from 0)
in a grid of `c` columns with spacing `d`: `((c/2 - i)*d, d/2, (c/2 - j)*d)` for
`k = i*c + j` with `j < c`, the division `c/2` rounding down. -/
def gridPosition (c : Nat) (d : ℚ) (k : Nat) : ℚ × ℚ × ℚ :=
  (((((c / 2 : Nat) : Int) - ((k / c : Nat) : Int) : Int) : ℚ) * d, d / 2,
   ((((c / 2 : Nat) : Int) - ((k % c : Nat) : Int) : Int) : ℚ) * d)

/-- Modelled from the spec: `n` calls of `setPos`, on the list indices `z`, `z+1`,
..., `z+n-1` in that order, the call on index `k` at `gridPosition c d k`. An index
outside the list is a fault. -/
def placeFrom (marbleList : List ObjPtr) (c : Nat) (d : ℚ) : Nat → Nat → Env → Except Fault Env
  | 0, _, env => Except.ok env
  | n + 1, z, env =>
    match marbleList[z]? with
    | none => Except.error Fault.undefinedBehaviour
    | some p =>
      match env.invoke p (fun m => m.setPos (gridPosition c d z).1 (gridPosition c d z).2.1
          (gridPosition c d z).2.2) with
      | Except.error e => Except.error e
      | Except.ok env1 => placeFrom marbleList c d n (z + 1) env1

/-- The game as `CGame::CGame` leaves it on the sample raw memory. -/
def exampleNewGame : Env × CGame :=
  match CGame.CGame exampleRawGame (fun _ => exampleRawMarble) Env.init with
  | Except.ok s => s
  | Except.error _ => (Env.init, exampleRawGame)

/-- What the surroundings of one `MainLoop` call decide: what the system reports
in that frame, and the state in which the message pump of `CGame::Start`
(`CheckInput`, the window procedure) has left the input manager and the window. -/
structure Frame where
  inp : FrameInput
  input : CInputManager
  render : CGLRender

/-- The `MainLoop` calls of the loop of `CGame::Start`, one per frame, oldest
first; between two calls only the input manager and the window change. A fault
ends the run. -/
def CGame.Start.frames (sqrt toFloat : ℚ → ℚ) (raw : Nat → CMarble) (world : OdeWorld) :
    List Frame → Program → Except Fault Program
  | [], p => Except.ok p
  | f :: rest, p =>
    match CGame.MainLoop sqrt toFloat raw world f.inp
        { p with input := f.input, render := f.render } with
    | Except.error e => Except.error e
    | Except.ok p1 => CGame.Start.frames sqrt toFloat raw world rest p1

/-- The loop of `DynamicsDone` finishes on valid pointers, and its result is true
exactly when the flag was true and every dynamic object passes the test. -/
theorem DynamicsDone_loop_spec (ode : OdeBodies) (heap : List CMarble) :
    ∀ (l : List ObjPtr) (retval : Bool), (∀ p ∈ l, p < heap.length) →
      ∃ b : Bool, CObjectManager.DynamicsDone.loop ode heap l retval = Except.ok b ∧
        (b = true ↔ retval = true ∧
          ∀ p ∈ l, ∀ o, heap[p]? = some o → o.m_dynamic = true →
            withinThreshold (ode.dBodyGetLinearVel o.m_body)) := by
  intro l
  induction l with
  | nil => intro retval _; exact ⟨retval, rfl, by simp⟩
  | cons p rest ih =>
    intro retval hv
    have hp : p < heap.length := hv p (List.mem_cons_self _ _)
    have hrest : ∀ q ∈ rest, q < heap.length := fun q hq => hv q (List.mem_cons_of_mem _ hq)
    have hget : heap[p]? = some heap[p] := List.getElem?_eq_getElem hp
    by_cases hdyn : heap[p].m_dynamic = true
    · by_cases hin : withinThreshold (ode.dBodyGetLinearVel heap[p].m_body)
      · obtain ⟨b, hb, hiff⟩ := ih retval hrest
        refine ⟨b, ?_, ?_⟩
        · have hin2 := hin
          simp only [withinThreshold] at hin2
          simp only [CObjectManager.DynamicsDone.loop, hget, CMarble.isDynamic, hdyn,
            CMarble.getBodyID]
          simp [hin2.1.1, hin2.1.2, hin2.2.1.1, hin2.2.1.2, hin2.2.2.1, hin2.2.2.2, hb]
        · rw [hiff]
          constructor
          · rintro ⟨h1, h2⟩
            refine ⟨h1, ?_⟩
            intro q hq o ho hd
            rcases List.mem_cons.1 hq with rfl | hq
            · rw [hget] at ho; cases ho; exact hin
            · exact h2 q hq o ho hd
          · rintro ⟨h1, h2⟩
            exact ⟨h1, fun q hq => h2 q (List.mem_cons_of_mem _ hq)⟩
      · obtain ⟨b, hb, hiff⟩ := ih false hrest
        refine ⟨b, ?_, ?_⟩
        · simp only [CObjectManager.DynamicsDone.loop, hget, CMarble.isDynamic, hdyn,
            CMarble.getBodyID]
          have hcond : ¬ (((ode.dBodyGetLinearVel heap[p].m_body).1 ≤ 0.1 ∧
              (ode.dBodyGetLinearVel heap[p].m_body).1 ≥ -0.1) ∧
              ((ode.dBodyGetLinearVel heap[p].m_body).2.1 ≤ 0.1 ∧
              (ode.dBodyGetLinearVel heap[p].m_body).2.1 ≥ -0.1) ∧
              ((ode.dBodyGetLinearVel heap[p].m_body).2.2 ≤ 0.1 ∧
              (ode.dBodyGetLinearVel heap[p].m_body).2.2 ≥ -0.1)) := by
            rintro ⟨a, b, c⟩
            exact hin ⟨⟨a.2, a.1⟩, ⟨b.2, b.1⟩, ⟨c.2, c.1⟩⟩
          simp [hcond, hb]
        · rw [hiff]
          constructor
          · rintro ⟨h1, _⟩; cases h1
          · rintro ⟨_, h2⟩
            exact absurd (h2 p (List.mem_cons_self _ _) _ hget hdyn) hin
    · obtain ⟨b, hb, hiff⟩ := ih retval hrest
      refine ⟨b, ?_, ?_⟩
      · simp [CObjectManager.DynamicsDone.loop, hget, CMarble.isDynamic, hdyn, hb]
      · rw [hiff]
        constructor
        · rintro ⟨h1, h2⟩
          refine ⟨h1, ?_⟩
          intro q hq o ho hd
          rcases List.mem_cons.1 hq with rfl | hq
          · rw [hget] at ho; cases ho; exact absurd hd hdyn
          · exact h2 q hq o ho hd
        · rintro ⟨h1, h2⟩
          exact ⟨h1, fun q hq => h2 q (List.mem_cons_of_mem _ hq)⟩

/-- The result of `DynamicsDone` on an object list of valid pointers. -/
theorem DynamicsDone_spec (mgr : CObjectManager) (ode : OdeBodies) (env : Env)
    (hvalid : ∀ p ∈ mgr.m_objectList, p < env.heap.length) :
    ∃ b : Bool,
      mgr.DynamicsDone ode env =
        Except.ok (b, { mgr with m_dynamicWaitLastTime := 0, m_dynamicWaitTime := 0 }) ∧
      (b = true ↔ ∀ p ∈ mgr.m_objectList, ∀ o, env.heap[p]? = some o → o.m_dynamic = true →
          withinThreshold (ode.dBodyGetLinearVel o.m_body)) := by
  obtain ⟨b, hb, hiff⟩ := DynamicsDone_loop_spec ode env.heap mgr.m_objectList true hvalid
  refine ⟨b, ?_, ?_⟩
  · simp [CObjectManager.DynamicsDone, hb]
  · rw [hiff]; simp

/-- The sample manager only holds pointers into the sample heap. -/
theorem exampleManager_valid : ∀ p ∈ exampleManager.m_objectList, p < exampleEnv.heap.length := by
  simp [exampleManager, exampleEnv]

/-! ## C1, C2: the convergence predicate -/

/-- Claim C1: on an object list of valid pointers `DynamicsDone` returns, and it
returns true if and only if every object of the list whose dynamic flag is true
has each of its three linear-velocity components in the closed range from -0.1 to
0.1. For an empty list the result is true, and the velocities the library reports
for objects that are not dynamic never influence the result. -/
theorem DynamicsDone_iff_all_dynamic_within (mgr : CObjectManager) (ode : OdeBodies) (env : Env)
    (hvalid : ∀ p ∈ mgr.m_objectList, p < env.heap.length) :
    ∃ b : Bool,
      mgr.DynamicsDone ode env =
        Except.ok (b, { mgr with m_dynamicWaitLastTime := 0, m_dynamicWaitTime := 0 }) ∧
      (b = true ↔ ∀ p ∈ mgr.m_objectList, ∀ o, env.heap[p]? = some o → o.m_dynamic = true →
          (-0.1 ≤ (ode.dBodyGetLinearVel o.m_body).1 ∧
            (ode.dBodyGetLinearVel o.m_body).1 ≤ 0.1) ∧
          (-0.1 ≤ (ode.dBodyGetLinearVel o.m_body).2.1 ∧
            (ode.dBodyGetLinearVel o.m_body).2.1 ≤ 0.1) ∧
          (-0.1 ≤ (ode.dBodyGetLinearVel o.m_body).2.2 ∧
            (ode.dBodyGetLinearVel o.m_body).2.2 ≤ 0.1)) ∧
      (mgr.m_objectList = [] → b = true) ∧
      (∀ ode2 : OdeBodies,
        (∀ p ∈ mgr.m_objectList, ∀ o, env.heap[p]? = some o → o.m_dynamic = true →
          ode2.dBodyGetLinearVel o.m_body = ode.dBodyGetLinearVel o.m_body) →
        mgr.DynamicsDone ode2 env = mgr.DynamicsDone ode env) := by
  obtain ⟨b, hb, hiff⟩ := DynamicsDone_spec mgr ode env hvalid
  refine ⟨b, hb, hiff, ?_, ?_⟩
  · intro hnil
    rw [hiff, hnil]
    intro p hp
    cases hp
  · intro ode2 hagree
    obtain ⟨b2, hb2, hiff2⟩ := DynamicsDone_spec mgr ode2 env hvalid
    have hbb : b2 = b := by
      have : (b2 = true ↔ b = true) := by
        rw [hiff, hiff2]
        constructor
        · intro h p hp o ho hd
          rw [← hagree p hp o ho hd]; exact h p hp o ho hd
        · intro h p hp o ho hd
          rw [hagree p hp o ho hd]; exact h p hp o ho hd
      cases b <;> cases b2 <;> simp_all
    rw [hb, hb2, hbb]

/-- Witness for C1: a striker moving at (0.05, -0.1, 0.1) next to a disabled
marble; the population counts as settled. -/
theorem DynamicsDone_iff_all_dynamic_within_witness :
    (∀ p ∈ exampleManager.m_objectList, p < exampleEnv.heap.length) ∧
    ∃ b : Bool,
      exampleManager.DynamicsDone (constBodies (0, 0, 0) (0.05, -0.1, 0.1) (9, 9, 9)) exampleEnv =
        Except.ok (b, { exampleManager with m_dynamicWaitLastTime := 0, m_dynamicWaitTime := 0 }) ∧
      b = true :=
  ⟨exampleManager_valid, by
    obtain ⟨b, hb, hiff, _, _⟩ := DynamicsDone_iff_all_dynamic_within exampleManager
      (constBodies (0, 0, 0) (0.05, -0.1, 0.1) (9, 9, 9)) exampleEnv exampleManager_valid
    refine ⟨b, hb, hiff.2 ?_⟩
    intro p _ o _ _
    norm_num [constBodies]⟩

/-- Counterexample to C2 as stated: a dynamic striker whose velocity is exactly
(0.1, 0, -0.1) has components of magnitude 0.1, and `DynamicsDone` returns true. -/
theorem DynamicsDone_at_threshold_counterexample :
    0 ∈ exampleManager.m_objectList ∧
    exampleEnv.heap[0]? = some exampleTolley ∧ exampleTolley.m_dynamic = true ∧
    (0.1 : ℚ) ≤ |((constBodies (0, 0, 0) (0.1, 0, -0.1) (0, 0, 0)).dBodyGetLinearVel
        exampleTolley.m_body).1| ∧
    (0.1 : ℚ) ≤ |((constBodies (0, 0, 0) (0.1, 0, -0.1) (0, 0, 0)).dBodyGetLinearVel
        exampleTolley.m_body).2.2| ∧
    exampleManager.DynamicsDone (constBodies (0, 0, 0) (0.1, 0, -0.1) (0, 0, 0)) exampleEnv =
      Except.ok (true, { exampleManager with m_dynamicWaitLastTime := 0, m_dynamicWaitTime := 0 }) := by
  refine ⟨by simp [exampleManager], rfl, rfl, ?_, ?_, ?_⟩
  · norm_num [constBodies, abs_of_pos]
  · norm_num [constBodies, abs_of_pos]
  · norm_num [CObjectManager.DynamicsDone, CObjectManager.DynamicsDone.loop, exampleManager,
      exampleEnv, exampleTolley, exampleMarble, constBodies, CMarble.isDynamic, CMarble.getBodyID]

/-- Claim C2, amended: on an object list of valid pointers, if every dynamic
body has all three linear-velocity components below 0.1 in magnitude then
`DynamicsDone` returns true, and if some dynamic body has a component of
magnitude above 0.1 then it returns false. -/
theorem DynamicsDone_strict_threshold (mgr : CObjectManager) (ode : OdeBodies) (env : Env)
    (hvalid : ∀ p ∈ mgr.m_objectList, p < env.heap.length) :
    ((∀ p ∈ mgr.m_objectList, ∀ o, env.heap[p]? = some o → o.m_dynamic = true →
        |(ode.dBodyGetLinearVel o.m_body).1| < 0.1 ∧
        |(ode.dBodyGetLinearVel o.m_body).2.1| < 0.1 ∧
        |(ode.dBodyGetLinearVel o.m_body).2.2| < 0.1) →
      mgr.DynamicsDone ode env =
        Except.ok (true, { mgr with m_dynamicWaitLastTime := 0, m_dynamicWaitTime := 0 })) ∧
    ((∃ p ∈ mgr.m_objectList, ∃ o, env.heap[p]? = some o ∧ o.m_dynamic = true ∧
        (|(ode.dBodyGetLinearVel o.m_body).1| > 0.1 ∨
         |(ode.dBodyGetLinearVel o.m_body).2.1| > 0.1 ∨
         |(ode.dBodyGetLinearVel o.m_body).2.2| > 0.1)) →
      mgr.DynamicsDone ode env =
        Except.ok (false, { mgr with m_dynamicWaitLastTime := 0, m_dynamicWaitTime := 0 })) := by
  obtain ⟨b, hb, hiff⟩ := DynamicsDone_spec mgr ode env hvalid
  constructor
  · intro h
    have : b = true := by
      rw [hiff]
      intro p hp o ho hd
      obtain ⟨h1, h2, h3⟩ := h p hp o ho hd
      rw [abs_lt] at h1 h2 h3
      exact ⟨⟨h1.1.le, h1.2.le⟩, ⟨h2.1.le, h2.2.le⟩, ⟨h3.1.le, h3.2.le⟩⟩
    rw [hb, this]
  · rintro ⟨p, hp, o, ho, hd, hbig⟩
    have : b = false := by
      cases hbt : b
      · rfl
      · exfalso
        obtain ⟨h1, h2, h3⟩ := (hiff.1 hbt) p hp o ho hd
        rcases hbig with h | h | h
        · exact absurd (abs_le.2 h1) (not_le.2 h)
        · exact absurd (abs_le.2 h2) (not_le.2 h)
        · exact absurd (abs_le.2 h3) (not_le.2 h)
    rw [hb, this]

/-- Witness for amended C2: a striker moving at (0, 0.2, 0) keeps the population
unsettled. -/
theorem DynamicsDone_strict_threshold_witness :
    (∀ p ∈ exampleManager.m_objectList, p < exampleEnv.heap.length) ∧
    (∃ p ∈ exampleManager.m_objectList, ∃ o, exampleEnv.heap[p]? = some o ∧ o.m_dynamic = true ∧
        (|((constBodies (0, 0, 0) (0, 0.2, 0) (0, 0, 0)).dBodyGetLinearVel o.m_body).1| > 0.1 ∨
         |((constBodies (0, 0, 0) (0, 0.2, 0) (0, 0, 0)).dBodyGetLinearVel o.m_body).2.1| > 0.1 ∨
         |((constBodies (0, 0, 0) (0, 0.2, 0) (0, 0, 0)).dBodyGetLinearVel o.m_body).2.2| > 0.1)) ∧
    exampleManager.DynamicsDone (constBodies (0, 0, 0) (0, 0.2, 0) (0, 0, 0)) exampleEnv =
      Except.ok (false, { exampleManager with m_dynamicWaitLastTime := 0, m_dynamicWaitTime := 0 }) :=
  have hex : ∃ p ∈ exampleManager.m_objectList, ∃ o, exampleEnv.heap[p]? = some o ∧
      o.m_dynamic = true ∧
        (|((constBodies (0, 0, 0) (0, 0.2, 0) (0, 0, 0)).dBodyGetLinearVel o.m_body).1| > 0.1 ∨
         |((constBodies (0, 0, 0) (0, 0.2, 0) (0, 0, 0)).dBodyGetLinearVel o.m_body).2.1| > 0.1 ∨
         |((constBodies (0, 0, 0) (0, 0.2, 0) (0, 0, 0)).dBodyGetLinearVel o.m_body).2.2| > 0.1) :=
    ⟨0, by simp [exampleManager], exampleTolley, rfl, rfl, Or.inr (Or.inl (by
      norm_num [constBodies, abs_of_pos]))⟩
  ⟨exampleManager_valid, hex,
    (DynamicsDone_strict_threshold exampleManager _ exampleEnv exampleManager_valid).2 hex⟩

/-! ## C3, C4, C5: the shot -/

/-- A method that leaves the object as it is only appends its library calls. -/
theorem invoke_readonly (heap : List CMarble) (calls : List OdeCall) (nb : dBodyID) (ng : dGeomID)
    (p : ObjPtr) (t : CMarble) (f : CMarble → CMarble × List OdeCall)
    (ht : heap[p]? = some t) (hf : (f t).1 = t) :
    Env.invoke { heap := heap, odeCalls := calls, nextBody := nb, nextGeom := ng } p f =
      Except.ok { heap := heap, odeCalls := calls ++ (f t).2, nextBody := nb, nextGeom := ng } := by
  have hset : heap.set p t = heap := by
    apply List.ext_getElem?
    intro i
    by_cases hi : p = i
    · subst hi
      rw [List.getElem?_set_self']
      simp [ht]
    · rw [List.getElem?_set_ne hi]
  simp only [Env.invoke, ht, hf, hset]

/-- The guarded form of `invoke_readonly`. -/
theorem invoke_readonly_if (c : Prop) [Decidable c] (heap : List CMarble) (calls : List OdeCall)
    (nb : dBodyID) (ng : dGeomID) (p : ObjPtr) (t : CMarble)
    (f : CMarble → CMarble × List OdeCall) (ht : heap[p]? = some t) (hf : (f t).1 = t) :
    (if c then Env.invoke { heap := heap, odeCalls := calls, nextBody := nb, nextGeom := ng } p f
     else Except.ok { heap := heap, odeCalls := calls, nextBody := nb, nextGeom := ng }) =
      Except.ok { heap := heap, odeCalls := calls ++ (if c then (f t).2 else []),
                  nextBody := nb, nextGeom := ng } := by
  by_cases hc : c
  · rw [if_pos hc, if_pos hc]; exact invoke_readonly heap calls nb ng p t f ht hf
  · rw [if_neg hc, if_neg hc]; simp

/-- The method `AddTorque` leaves the object as it is. -/
theorem AddTorque_fst (t : CMarble) (x y z : ℚ) : (t.AddTorque x y z).1 = t := by
  unfold CMarble.AddTorque; split <;> rfl

/-- The library calls one `ShootMarble` issues for the striker `t`. -/
theorem ShootMarble_eq (sqrt : ℚ → ℚ) (forward side aim : CVector3) (s : Env × CGame)
    (t : CMarble) (ht : s.1.heap[s.2.m_p1Tolley]? = some t) :
    ∃ rest : List OdeCall,
      CGame.ShootMarble sqrt forward side aim s =
        Except.ok
          ({ s.1 with odeCalls := s.1.odeCalls ++
              (OdeCall.dBodySetLinearVel t.m_body (aim.x * 1.3)
                (CGame.ShootMarble.yVel sqrt aim) (aim.z * 1.3) :: rest) },
           { s.2 with m_gameState := GameState.GS_DynamicsSettle }) ∧
      rest =
        (if forward.Magnitude sqrt ≠ 0 then
          (t.AddTorque (forward.x / 10) (forward.y / 10) (forward.z / 10)).2 else []) ++
        (if side.Magnitude sqrt ≠ 0 then
          (t.AddTorque (side.x / 3) (side.y / 3) (side.z / 3)).2 else []) := by
  refine ⟨_, ?_, rfl⟩
  obtain ⟨⟨heap, calls, nb, ng⟩, g⟩ := s
  unfold CGame.ShootMarble
  dsimp only at ht ⊢
  rw [invoke_readonly heap calls nb ng _ t _ ht rfl]
  dsimp only
  rw [invoke_readonly_if _ heap _ nb ng _ t _ ht (AddTorque_fst _ _ _ _)]
  dsimp only
  rw [invoke_readonly_if _ heap _ nb ng _ t _ ht (AddTorque_fst _ _ _ _)]
  simp [CMarble.setVel]

/-- The clamp of `ShootMarble` written with a non-strict test. -/
theorem yVel_eq (sqrt : ℚ → ℚ) (aim : CVector3) :
    CGame.ShootMarble.yVel sqrt aim =
      (if aim.Magnitude sqrt / 30 ≤ 5.0 then aim.Magnitude sqrt / 30 else 10.0) := by
  unfold CGame.ShootMarble.yVel
  by_cases h : aim.Magnitude sqrt / 30 ≤ 5.0
  · have h2 : ¬ (aim.Magnitude sqrt / 30.0 > 5.0) := by norm_num at h ⊢; exact h
    simp only [h2, h, if_true, if_false]; norm_num
  · have h2 : aim.Magnitude sqrt / 30.0 > 5.0 := by norm_num at h ⊢; exact h
    simp only [h2, h, if_true, if_false]

/-- Every call `ShootMarble` issues after the velocity is a torque on the striker. -/
theorem torque_calls_only (sqrt : ℚ → ℚ) (forward side : CVector3) (t : CMarble) :
    ∀ c ∈ (if forward.Magnitude sqrt ≠ 0 then
          (t.AddTorque (forward.x / 10) (forward.y / 10) (forward.z / 10)).2 else []) ++
        (if side.Magnitude sqrt ≠ 0 then
          (t.AddTorque (side.x / 3) (side.y / 3) (side.z / 3)).2 else []),
      ∃ x y z, c = OdeCall.dBodyAddTorque t.m_body x y z := by
  intro c hc
  simp only [CMarble.AddTorque, List.mem_append] at hc
  rcases hc with hc | hc
  · split at hc
    · split at hc
      · simp at hc; exact ⟨_, _, _, hc⟩
      · simp at hc
    · simp at hc
  · split at hc
    · split at hc
      · simp at hc; exact ⟨_, _, _, hc⟩
      · simp at hc
    · simp at hc

/-- The sample square root vanishes only at zero. -/
theorem exampleSqrt_eq_zero_iff (q : ℚ) (hq : 0 ≤ q) : exampleSqrt q = 0 ↔ q = 0 := by
  unfold exampleSqrt
  have hden : (q.den : ℚ) ≠ 0 := by exact_mod_cast q.den_nz
  rw [div_eq_zero_iff]
  simp only [hden, or_false]
  rw [Nat.cast_eq_zero, Nat.sqrt_eq_zero, Nat.mul_eq_zero]
  simp only [q.den_nz, or_false]
  have hnum : 0 ≤ q.num := Rat.num_nonneg.2 hq
  constructor
  · intro h
    have : q.num = 0 := by omega
    exact Rat.num_eq_zero.1 this
  · intro h
    rw [h]; rfl

/-- The sample square root is exact on squares of natural numbers. -/
theorem exampleSqrt_sq (n : ℕ) : exampleSqrt ((n * n : ℕ) : ℚ) = n := by
  unfold exampleSqrt
  rw [Rat.num_natCast, Rat.den_natCast, Int.toNat_natCast, Nat.mul_one, Nat.sqrt_eq]
  simp

/-- A sum of three rational squares vanishes only for the zero vector. -/
theorem sum_squares_eq_zero_iff (v : CVector3) :
    (v.x * v.x) + (v.y * v.y) + (v.z * v.z) = 0 ↔ v = ⟨0, 0, 0⟩ := by
  constructor
  · intro h
    have hx : v.x = 0 := by nlinarith [mul_self_nonneg v.x, mul_self_nonneg v.y, mul_self_nonneg v.z]
    have hy : v.y = 0 := by nlinarith [mul_self_nonneg v.x, mul_self_nonneg v.y, mul_self_nonneg v.z]
    have hz : v.z = 0 := by nlinarith [mul_self_nonneg v.x, mul_self_nonneg v.y, mul_self_nonneg v.z]
    cases v; simp_all
  · intro h; rw [h]; norm_num

/-- For a square root that vanishes only at zero, the test `Magnitude() != 0` is
the test for a non-zero vector. -/
theorem Magnitude_ne_zero_iff (sqrt : ℚ → ℚ) (hsqrt : ∀ q : ℚ, 0 ≤ q → (sqrt q = 0 ↔ q = 0))
    (v : CVector3) : v.Magnitude sqrt ≠ 0 ↔ v ≠ ⟨0, 0, 0⟩ := by
  unfold CVector3.Magnitude
  rw [Ne, hsqrt _ (by nlinarith [mul_self_nonneg v.x, mul_self_nonneg v.y, mul_self_nonneg v.z]),
    sum_squares_eq_zero_iff]

/-- Claim C3: for every aim vector (and a striker pointer that is valid),
`ShootMarble` completes and the one velocity it gives the striker has the vertical
component `|aim|/30` when `|aim|/30 ≤ 5.0` and exactly `10.0` otherwise, `|aim|`
being what `Magnitude` returns; an aim of magnitude 200 yields `10.0`. -/
theorem ShootMarble_vertical_velocity (sqrt : ℚ → ℚ) (forward side aim : CVector3)
    (s : Env × CGame) (t : CMarble) (ht : s.1.heap[s.2.m_p1Tolley]? = some t) :
    (∃ env g vx vz rest,
      CGame.ShootMarble sqrt forward side aim s = Except.ok (env, g) ∧
      env.odeCalls = s.1.odeCalls ++
        OdeCall.dBodySetLinearVel t.m_body vx
          (if aim.Magnitude sqrt / 30 ≤ 5.0 then aim.Magnitude sqrt / 30 else 10.0) vz :: rest ∧
      ∀ c ∈ rest, ∀ b x y z, c ≠ OdeCall.dBodySetLinearVel b x y z) ∧
    (aim.Magnitude sqrt = 200 →
      (if aim.Magnitude sqrt / 30 ≤ 5.0 then aim.Magnitude sqrt / 30 else (10.0 : ℚ)) = 10.0 ∧
      (if aim.Magnitude sqrt / 30 ≤ 5.0 then aim.Magnitude sqrt / 30 else (10.0 : ℚ)) ≠ 200 / 30 ∧
      (if aim.Magnitude sqrt / 30 ≤ 5.0 then aim.Magnitude sqrt / 30 else (10.0 : ℚ)) ≠ 5.0) := by
  constructor
  · obtain ⟨rest, hrun, hrest⟩ := ShootMarble_eq sqrt forward side aim s t ht
    refine ⟨_, _, aim.x * 1.3, aim.z * 1.3, rest, hrun, ?_, ?_⟩
    · rw [yVel_eq]
    · intro c hc b x y z
      rw [hrest] at hc
      obtain ⟨x1, y1, z1, h⟩ := torque_calls_only sqrt forward side t c hc
      rw [h]; simp
  · intro h
    rw [h]; norm_num

/-- Witness for C3: the aim (200, 0, 0) on the sample game. -/
theorem ShootMarble_vertical_velocity_witness :
    exampleEnv.heap[exampleGame.m_p1Tolley]? = some exampleTolley ∧
    CVector3.Magnitude exampleSqrt ⟨200, 0, 0⟩ = 200 ∧
    (if CVector3.Magnitude exampleSqrt ⟨200, 0, 0⟩ / 30 ≤ 5.0
      then CVector3.Magnitude exampleSqrt ⟨200, 0, 0⟩ / 30 else (10.0 : ℚ)) = 10.0 :=
  have hmag : CVector3.Magnitude exampleSqrt ⟨200, 0, 0⟩ = 200 := by
    have h : ((200 * 200 + 0 * 0 + 0 * 0 : ℚ)) = ((200 * 200 : ℕ) : ℚ) := by norm_num
    simp only [CVector3.Magnitude, h, exampleSqrt_sq]
    norm_num
  ⟨rfl, hmag,
   ((ShootMarble_vertical_velocity exampleSqrt ⟨0, 0, 0⟩ ⟨0, 0, 0⟩ ⟨200, 0, 0⟩
      (exampleEnv, exampleGame) exampleTolley rfl).2 hmag).1⟩

/-- Claim C4: for every forward, side and aim vector (and a striker pointer that
is valid), `ShootMarble` sets the linear velocity of the striker to exactly
`(1.3*aim.x, yVel, 1.3*aim.z)`, whatever forward and side are, every other call it
issues being a torque; for forward = side = (0,0,0) and aim = (3,0,4), with
`sqrt 25 = 5` and `sqrt 0 = 0`, the velocity set is (3.9, 5/30, 5.2). -/
theorem ShootMarble_sets_velocity (sqrt : ℚ → ℚ) (forward side aim : CVector3)
    (s : Env × CGame) (t : CMarble) (ht : s.1.heap[s.2.m_p1Tolley]? = some t) :
    (∃ rest : List OdeCall,
      CGame.ShootMarble sqrt forward side aim s =
        Except.ok
          ({ s.1 with odeCalls := s.1.odeCalls ++
              (OdeCall.dBodySetLinearVel t.m_body (1.3 * aim.x)
                (CGame.ShootMarble.yVel sqrt aim) (1.3 * aim.z) :: rest) },
           { s.2 with m_gameState := GameState.GS_DynamicsSettle }) ∧
      ∀ c ∈ rest, ∃ x y z, c = OdeCall.dBodyAddTorque t.m_body x y z) ∧
    (sqrt 25 = 5 → sqrt 0 = 0 →
      CGame.ShootMarble sqrt ⟨0, 0, 0⟩ ⟨0, 0, 0⟩ ⟨3, 0, 4⟩ s =
        Except.ok
          ({ s.1 with odeCalls := s.1.odeCalls ++
              [OdeCall.dBodySetLinearVel t.m_body 3.9 (5 / 30) 5.2] },
           { s.2 with m_gameState := GameState.GS_DynamicsSettle })) := by
  constructor
  · obtain ⟨rest, hrun, hrest⟩ := ShootMarble_eq sqrt forward side aim s t ht
    refine ⟨rest, ?_, ?_⟩
    · rw [hrun, mul_comm aim.x, mul_comm aim.z]
    · rw [hrest]; exact torque_calls_only sqrt forward side t
  · intro h25 h0
    obtain ⟨rest, hrun, hrest⟩ := ShootMarble_eq sqrt ⟨0, 0, 0⟩ ⟨0, 0, 0⟩ ⟨3, 0, 4⟩ s t ht
    have hm0 : CVector3.Magnitude sqrt ⟨0, 0, 0⟩ = 0 := by
      simp only [CVector3.Magnitude]; norm_num [h0]
    have hm5 : CVector3.Magnitude sqrt ⟨3, 0, 4⟩ = 5 := by
      simp only [CVector3.Magnitude]; norm_num [h25]
    have hy : CGame.ShootMarble.yVel sqrt ⟨3, 0, 4⟩ = 5 / 30 := by
      rw [yVel_eq, hm5]; norm_num
    have hr : rest = [] := by
      rw [hrest]; simp [hm0]
    rw [hrun, hr, hy]
    norm_num

/-- Witness for C4: the shot of the claim on the sample game. -/
theorem ShootMarble_sets_velocity_witness :
    exampleEnv.heap[exampleGame.m_p1Tolley]? = some exampleTolley ∧
    exampleSqrt 25 = 5 ∧ exampleSqrt 0 = 0 ∧
    CGame.ShootMarble exampleSqrt ⟨0, 0, 0⟩ ⟨0, 0, 0⟩ ⟨3, 0, 4⟩ (exampleEnv, exampleGame) =
      Except.ok
        ({ exampleEnv with odeCalls := exampleEnv.odeCalls ++
            [OdeCall.dBodySetLinearVel exampleTolley.m_body 3.9 (5 / 30) 5.2] },
         { exampleGame with m_gameState := GameState.GS_DynamicsSettle }) :=
  have h25 : exampleSqrt 25 = 5 := by
    have h : (25 : ℚ) = ((5 * 5 : ℕ) : ℚ) := by norm_num
    rw [h, exampleSqrt_sq]; norm_num
  have h0 : exampleSqrt 0 = 0 := (exampleSqrt_eq_zero_iff 0 le_rfl).2 rfl
  ⟨rfl, h25, h0,
   (ShootMarble_sets_velocity exampleSqrt ⟨0, 0, 0⟩ ⟨0, 0, 0⟩ ⟨3, 0, 4⟩
      (exampleEnv, exampleGame) exampleTolley rfl).2 h25 h0⟩

/-- Claim C5: with a square root that vanishes only at zero (and a striker
pointer that is valid), `ShootMarble` calls `AddTorque(forward/10)` on the striker
if and only if forward is not the zero vector, then `AddTorque(side/3)` if and
only if side is not the zero vector, so that no torque is added when both are
zero; on a striker that is not destroyed these are the library calls
`dBodyAddTorque`; the game state afterwards is `GS_DynamicsSettle` in every case. -/
theorem ShootMarble_torque (sqrt : ℚ → ℚ) (hsqrt : ∀ q : ℚ, 0 ≤ q → (sqrt q = 0 ↔ q = 0))
    (forward side aim : CVector3) (s : Env × CGame) (t : CMarble)
    (ht : s.1.heap[s.2.m_p1Tolley]? = some t) :
    ∃ env g,
      CGame.ShootMarble sqrt forward side aim s = Except.ok (env, g) ∧
      g.m_gameState = GameState.GS_DynamicsSettle ∧
      env.heap = s.1.heap ∧
      env.odeCalls = s.1.odeCalls ++
        (t.setVel (aim.x * 1.3) (CGame.ShootMarble.yVel sqrt aim) (aim.z * 1.3)).2 ++
        (if forward ≠ ⟨0, 0, 0⟩ then
          (t.AddTorque (forward.x / 10) (forward.y / 10) (forward.z / 10)).2 else []) ++
        (if side ≠ ⟨0, 0, 0⟩ then
          (t.AddTorque (side.x / 3) (side.y / 3) (side.z / 3)).2 else []) ∧
      (t.m_odeDestroyed = false →
        env.odeCalls = s.1.odeCalls ++
          [OdeCall.dBodySetLinearVel t.m_body (aim.x * 1.3)
            (CGame.ShootMarble.yVel sqrt aim) (aim.z * 1.3)] ++
          (if forward ≠ ⟨0, 0, 0⟩ then
            [OdeCall.dBodyAddTorque t.m_body (forward.x / 10) (forward.y / 10) (forward.z / 10)]
           else []) ++
          (if side ≠ ⟨0, 0, 0⟩ then
            [OdeCall.dBodyAddTorque t.m_body (side.x / 3) (side.y / 3) (side.z / 3)]
           else [])) := by
  obtain ⟨rest, hrun, hrest⟩ := ShootMarble_eq sqrt forward side aim s t ht
  have hcalls : s.1.odeCalls ++
        (OdeCall.dBodySetLinearVel t.m_body (aim.x * 1.3)
          (CGame.ShootMarble.yVel sqrt aim) (aim.z * 1.3) :: rest) =
      s.1.odeCalls ++
        (t.setVel (aim.x * 1.3) (CGame.ShootMarble.yVel sqrt aim) (aim.z * 1.3)).2 ++
        (if forward ≠ ⟨0, 0, 0⟩ then
          (t.AddTorque (forward.x / 10) (forward.y / 10) (forward.z / 10)).2 else []) ++
        (if side ≠ ⟨0, 0, 0⟩ then
          (t.AddTorque (side.x / 3) (side.y / 3) (side.z / 3)).2 else []) := by
    rw [hrest]
    simp only [Magnitude_ne_zero_iff sqrt hsqrt, CMarble.setVel, List.append_assoc,
      List.singleton_append, List.cons_append, List.nil_append]
  refine ⟨_, _, hrun, rfl, rfl, hcalls, ?_⟩
  intro hlive
  show s.1.odeCalls ++ _ = _
  rw [hcalls]
  simp [CMarble.AddTorque, CMarble.setVel, hlive]

/-- Witness for C5: a shot with zero forward aim and side aim (3, 0, 0) on the
sample game adds the one torque (1, 0, 0). -/
theorem ShootMarble_torque_witness :
    (∀ q : ℚ, 0 ≤ q → (exampleSqrt q = 0 ↔ q = 0)) ∧
    exampleEnv.heap[exampleGame.m_p1Tolley]? = some exampleTolley ∧
    exampleTolley.m_odeDestroyed = false ∧
    ∃ env g,
      CGame.ShootMarble exampleSqrt ⟨0, 0, 0⟩ ⟨3, 0, 0⟩ ⟨3, 0, 4⟩ (exampleEnv, exampleGame) =
        Except.ok (env, g) ∧
      g.m_gameState = GameState.GS_DynamicsSettle ∧
      env.odeCalls =
        [OdeCall.dBodySetLinearVel 1 (3 * 1.3)
            (CGame.ShootMarble.yVel exampleSqrt ⟨3, 0, 4⟩) (4 * 1.3),
         OdeCall.dBodyAddTorque 1 (3 / 3) (0 / 3) (0 / 3)] := by
  refine ⟨exampleSqrt_eq_zero_iff, rfl, rfl, ?_⟩
  obtain ⟨env, g, hrun, hstate, _, _, hlive⟩ :=
    ShootMarble_torque exampleSqrt exampleSqrt_eq_zero_iff ⟨0, 0, 0⟩ ⟨3, 0, 0⟩ ⟨3, 0, 4⟩
      (exampleEnv, exampleGame) exampleTolley rfl
  refine ⟨env, g, hrun, hstate, ?_⟩
  rw [hlive rfl]
  simp [exampleEnv, exampleTolley, exampleMarble]

/-! ## C6: the grid of `CreateMarbles(25)` -/

/-- Counterexample to C6 as stated: `CreateMarbles(25)` on the game as constructed
returns true with the marble list holding the striker (object 0) followed by the
25 new marbles (objects 1 to 25), and the positions of the objects 0 to 25 are the
ones listed. The positions of the new marbles are not a 5x5 grid centred at the
origin: they lie on 6 columns (z from 3 down to -2, x from 3 down to -1), and the
last one is (0, 0, 0). -/
theorem CreateMarbles_25_counterexample :
    ((newGameCreateMarbles exampleRawGame (fun _ => exampleRawMarble) NUM_MARBLES).toOption.map
      (fun r => r.1)) = some true ∧
    ((newGameCreateMarbles exampleRawGame (fun _ => exampleRawMarble) NUM_MARBLES).toOption.map
      (fun r => r.2.2.m_p1Tolley)) = some 0 ∧
    ((newGameCreateMarbles exampleRawGame (fun _ => exampleRawMarble) NUM_MARBLES).toOption.map
      (fun r => r.2.2.m_marbleList)) = some (List.range 26) ∧
    ((newGameCreateMarbles exampleRawGame (fun _ => exampleRawMarble) NUM_MARBLES).toOption.map
      (fun r => r.2.1.heap.map (fun m => m.m_position))) =
      some
        [(3, 1/2, 3), (3, 1/2, 2), (3, 1/2, 1), (3, 1/2, 0), (3, 1/2, -1), (3, 1/2, -2),
         (2, 1/2, 3), (2, 1/2, 2), (2, 1/2, 1), (2, 1/2, 0), (2, 1/2, -1), (2, 1/2, -2),
         (1, 1/2, 3), (1, 1/2, 2), (1, 1/2, 1), (1, 1/2, 0), (1, 1/2, -1), (1, 1/2, -2),
         (0, 1/2, 3), (0, 1/2, 2), (0, 1/2, 1), (0, 1/2, 0), (0, 1/2, -1), (0, 1/2, -2),
         (-1, 1/2, 3), (0, 0, 0)] := by
  decide!

/-- Claim C6, amended: `CreateMarbles(25)` on the game as constructed makes 25
placements, at pairwise distinct positions of a grid of 6 columns
(`cols = (int)sqrt(25) + 1`): placement number `k` (counted from 0) is at
`((3 - k/6)*d, d/2, (3 - k%6)*d)`, where `d` is twice the marble radius, so that
neighbouring grid positions are spaced by `d = 1.0`. -/
theorem CreateMarbles_25_placements :
    ((newGamePlacementCalls exampleRawGame (fun _ => exampleRawMarble) NUM_MARBLES).map
      (fun calls => calls.map OdeCall.positionSet)) =
      some ((List.range 25).map (fun k =>
        some (((((3 : Int) - ((k / 6 : Nat) : Int) : Int) : ℚ) * (2 * MARBLE_RADIUS),
               2 * MARBLE_RADIUS / 2,
               ((((3 : Int) - ((k % 6 : Nat) : Int) : Int) : ℚ) * (2 * MARBLE_RADIUS)))))) ∧
    ((List.range 25).map (fun k =>
        (((((3 : Int) - ((k / 6 : Nat) : Int) : Int) : ℚ) * (2 * MARBLE_RADIUS),
          2 * MARBLE_RADIUS / 2,
          ((((3 : Int) - ((k % 6 : Nat) : Int) : Int) : ℚ) * (2 * MARBLE_RADIUS))) :
          ℚ × ℚ × ℚ))).Nodup ∧
    2 * MARBLE_RADIUS = 1.0 := by
  decide!

/-! ## C7: the ring test of `CMarble::Update` -/

/-- The integer that the sample narrowing picks lies between the floor and the
floor plus one. -/
theorem exampleFloat_bounds (q : ℚ) :
    ∃ n : Int, exampleFloat q = (n : ℚ) / 32768 ∧ Rat.floor (q * 32768) ≤ n ∧
      n ≤ Rat.floor (q * 32768) + 1 ∧
      (q * 32768 - (Rat.floor (q * 32768) : ℚ) < 1 / 2 → n = Rat.floor (q * 32768)) := by
  unfold exampleFloat
  dsimp only
  split
  · exact ⟨_, rfl, le_refl _, by omega, fun _ => rfl⟩
  · rename_i h1
    split
    · exact ⟨_, rfl, by omega, le_refl _, fun h => absurd h h1⟩
    · split
      · exact ⟨_, rfl, le_refl _, by omega, fun _ => rfl⟩
      · exact ⟨_, rfl, by omega, le_refl _, fun h => absurd h h1⟩

/-- The sample narrowing does not carry a value of at most 400 above 400. -/
theorem exampleFloat_le (q : ℚ) (h : q ≤ 400) : exampleFloat q ≤ 400 := by
  obtain ⟨n, hn, _, hhi, hfl⟩ := exampleFloat_bounds q
  have hf1 : ((Rat.floor (q * 32768) : Int) : ℚ) ≤ q * 32768 := Rat.le_floor.1 (le_refl _)
  have hs : q * 32768 ≤ 13107200 := by linarith
  have hfN : Rat.floor (q * 32768) ≤ 13107200 := by
    have : ((Rat.floor (q * 32768) : Int) : ℚ) ≤ ((13107200 : Int) : ℚ) := by
      push_cast; linarith
    exact_mod_cast this
  have hnN : n ≤ 13107200 := by
    by_cases hlt : Rat.floor (q * 32768) < 13107200
    · omega
    · have heq : Rat.floor (q * 32768) = 13107200 := by omega
      have : q * 32768 - ((Rat.floor (q * 32768) : Int) : ℚ) < 1 / 2 := by
        rw [heq]; push_cast; linarith
      rw [hfl this, heq]
  rw [hn]
  have : (n : ℚ) ≤ 13107200 := by exact_mod_cast hnN
  linarith

/-- Claim C8: for every marble and every (x, y, z), if `m_odeDestroyed` is true
then `AddForce` and `AddTorque` leave the object unchanged and issue no library
call; otherwise they leave the object unchanged and pass exactly (x, y, z) to
`dBodyAddForce`, respectively `dBodyAddTorque`, of the body. -/
theorem AddForce_AddTorque_guard (m : CMarble) (x y z : ℚ) :
    (m.m_odeDestroyed = true →
      m.AddForce x y z = (m, []) ∧ m.AddTorque x y z = (m, [])) ∧
    (m.m_odeDestroyed = false →
      m.AddForce x y z = (m, [OdeCall.dBodyAddForce m.m_body x y z]) ∧
      m.AddTorque x y z = (m, [OdeCall.dBodyAddTorque m.m_body x y z])) := by
  constructor
  · intro h; simp [CMarble.AddForce, CMarble.AddTorque, h]
  · intro h; simp [CMarble.AddForce, CMarble.AddTorque, h]

/-- Witness for C8: the sample marble, destroyed and live. -/
theorem AddForce_AddTorque_guard_witness :
    (exampleMarble.DestroyODEObject.1.m_odeDestroyed = true ∧
      exampleMarble.DestroyODEObject.1.AddForce 1 2 3 = (exampleMarble.DestroyODEObject.1, []) ∧
      exampleMarble.DestroyODEObject.1.AddTorque 1 2 3 = (exampleMarble.DestroyODEObject.1, [])) ∧
    (exampleMarble.m_odeDestroyed = false ∧
      exampleMarble.AddForce 1 2 3 = (exampleMarble, [OdeCall.dBodyAddForce 1 1 2 3]) ∧
      exampleMarble.AddTorque 1 2 3 = (exampleMarble, [OdeCall.dBodyAddTorque 1 1 2 3])) :=
  ⟨⟨rfl, (AddForce_AddTorque_guard exampleMarble.DestroyODEObject.1 1 2 3).1 rfl⟩,
   ⟨rfl, (AddForce_AddTorque_guard exampleMarble 1 2 3).2 rfl⟩⟩

/-- Counterexample to C9 as stated: on the destroyed sample marble `setPos(1,2,3)`
changes the object, and `setVel(1,2,3)` issues `dBodySetLinearVel` to the
destroyed body. -/
theorem setPos_setVel_after_destroy_counterexample :
    exampleMarble.DestroyODEObject.1.m_odeDestroyed = true ∧
    (exampleMarble.DestroyODEObject.1.setPos 1 2 3).1 ≠ exampleMarble.DestroyODEObject.1 ∧
    (exampleMarble.DestroyODEObject.1.setVel 1 2 3).2 =
      [OdeCall.dBodySetLinearVel 1 1 2 3] := by
  refine ⟨rfl, ?_, rfl⟩
  intro h
  have h2 := congrArg (fun o : CMarble => o.m_position.1) h
  simp [CMarble.setPos, CMarble.DestroyODEObject, exampleMarble] at h2

/-- Claim C9, amended: after `DestroyODEObject` the object is marked destroyed,
and on a destroyed object every `setPos(x,y,z)` issues no library call, stores
(x, y, z) in the cached position and in the last-known position, changes nothing
else and leaves the object destroyed. -/
theorem setPos_after_destroy (m : CMarble) (x y z : ℚ) :
    m.DestroyODEObject.1.m_odeDestroyed = true ∧
    ∀ d : CMarble, d.m_odeDestroyed = true →
      d.setPos x y z =
        ({ d with m_position := (x, y, z), m_lastPosition := (x, y, z) }, []) ∧
      (d.setPos x y z).1.m_odeDestroyed = true := by
  constructor
  · cases h : m.m_odeDestroyed <;> simp [CMarble.DestroyODEObject, h]
  · intro d hd
    simp [CMarble.setPos, hd]

/-- Witness for amended C9: the destroyed sample marble. -/
theorem setPos_after_destroy_witness :
    exampleMarble.DestroyODEObject.1.m_odeDestroyed = true ∧
    exampleMarble.DestroyODEObject.1.setPos 1 2 3 =
      ({ exampleMarble.DestroyODEObject.1 with
          m_position := (1, 2, 3), m_lastPosition := (1, 2, 3) }, []) ∧
    (exampleMarble.DestroyODEObject.1.setPos 1 2 3).1.m_odeDestroyed = true :=
  ⟨rfl, (setPos_after_destroy exampleMarble 1 2 3).2 exampleMarble.DestroyODEObject.1 rfl⟩

/-- Claim C10: `DestroyODEObject` is idempotent. On an object that is not
destroyed it sets `m_odeDestroyed` and releases the shape and the body, each once;
after any call the object is destroyed; a further call changes nothing and
releases nothing; so any number of calls leaves the object of the first call. -/
theorem DestroyODEObject_idempotent (m : CMarble) :
    (m.m_odeDestroyed = false →
      m.DestroyODEObject =
        ({ m with m_odeDestroyed := true },
         [OdeCall.dGeomDestroy m.m_geom, OdeCall.dBodyDestroy m.m_body])) ∧
    m.DestroyODEObject.1.m_odeDestroyed = true ∧
    m.DestroyODEObject.1.DestroyODEObject = (m.DestroyODEObject.1, []) ∧
    ∀ k : Nat, (fun o : CMarble => o.DestroyODEObject.1)^[k + 1] m = m.DestroyODEObject.1 := by
  have h2 : m.DestroyODEObject.1.m_odeDestroyed = true := by
    cases h : m.m_odeDestroyed <;> simp [CMarble.DestroyODEObject, h]
  have h3 : ∀ d : CMarble, d.m_odeDestroyed = true → d.DestroyODEObject = (d, []) := by
    intro d hd; simp [CMarble.DestroyODEObject, hd]
  refine ⟨?_, h2, h3 _ h2, ?_⟩
  · intro h; simp [CMarble.DestroyODEObject, h]
  · intro k
    induction k with
    | zero => rfl
    | succ n ih =>
      rw [Function.iterate_succ_apply', ih, h3 _ h2]

/-- Witness for C10: the first destruction of the sample marble. -/
theorem DestroyODEObject_idempotent_witness :
    exampleMarble.m_odeDestroyed = false ∧
    exampleMarble.DestroyODEObject =
      ({ exampleMarble with m_odeDestroyed := true },
       [OdeCall.dGeomDestroy 2, OdeCall.dBodyDestroy 1]) :=
  ⟨rfl, (DestroyODEObject_idempotent exampleMarble).1 rfl⟩

/-! ## Auxiliary lemmas on the object manager -/

theorem find_assign (m : ObjectIDMap) (b id : dBodyID) (v : Option ObjPtr) :
    (m.assign b v).find id = if id = b then some v else m.find id := by
  unfold ObjectIDMap.assign ObjectIDMap.find
  by_cases h : id = b
  · subst h
    simp
  · have hb : (b == id) = false := by simpa using (fun h' : b = id => h h'.symm)
    simp only [List.find?_cons, hb, if_neg h]
    congr 1
    induction m with
    | nil => rfl
    | cons e rest ih =>
      by_cases he : e.1 = b
      · have h1 : (e.1 != b) = false := by simp [he]
        have h2 : (e.1 == id) = false := by
          simpa [he] using (fun h' : b = id => h h'.symm)
        simp only [List.filter_cons, h1, List.find?_cons, h2]
        exact ih
      · have h1 : (e.1 != b) = true := by simp [he]
        simp only [List.filter_cons, h1, if_true, List.find?_cons]
        cases (e.1 == id) <;> simp [ih]

theorem getObject_fst (mgr : CObjectManager) (id : dBodyID) :
    (mgr.getObject id).1 = (mgr.m_objectIDMap.find id).getD none := by
  unfold CObjectManager.getObject ObjectIDMap.index
  cases h : mgr.m_objectIDMap.find id <;> simp

theorem find_index (m : ObjectIDMap) (id0 id : dBodyID) :
    ((m.index id0).2.find id).getD none = (m.find id).getD none := by
  unfold ObjectIDMap.index
  cases h : m.find id0 with
  | some v => rfl
  | none =>
    simp only [ObjectIDMap.find, List.find?_cons]
    by_cases hid : id0 = id
    · subst hid
      have h2 : List.find? (fun e => e.1 == id0) m = none := by
        cases hf : List.find? (fun e => e.1 == id0) m with
        | none => rfl
        | some e => simp [ObjectIDMap.find, hf] at h
      simp [h2]
    · have hb : (id0 == id) = false := by simpa using hid
      simp [hb]

theorem lastRegistered_snoc (events : List (dBodyID × ObjPtr)) (b id : dBodyID) (p : ObjPtr) :
    lastRegistered (events ++ [(b, p)]) id =
      if id = b then some p else lastRegistered events id := by
  unfold lastRegistered
  rw [List.reverse_append]
  by_cases h : id = b
  · subst h; simp
  · have hb : (b == id) = false := by simpa using (fun h' : b = id => h h'.symm)
    simp [List.find?_cons, hb, h]

theorem Create_registered (f : List (String × Bool)) (raw : Nat → CMarble) (type : String)
    (env : Env) :
    ((ObjFactory.Create f raw type env).1 = none ↔ f.find? (fun e => e.1 == type) = none) ∧
    ∀ obj, (ObjFactory.Create f raw type env).1 = some obj →
      obj = env.heap.length ∧
      ∃ o, (ObjFactory.Create f raw type env).2.heap = env.heap ++ [o] := by
  unfold ObjFactory.Create
  cases h : f.find? (fun e => e.1 == type) with
  | none => simp
  | some e =>
    simp only [Env.alloc]
    refine ⟨by simp, ?_⟩
    intro obj hobj
    simp only [Option.some.injEq] at hobj
    refine ⟨?_, ?_⟩
    · rw [← hobj]
      cases e.2 <;>
        simp [CTolley.CTolley, CMarble.CMarble, CGameObject.CGameObject, CMarble.constructSphere,
          ODEManager.createBody, ODEManager.createSphere, CMarble.setPos, CMarble.setColor]
    · cases e.2 <;>
        simp [CTolley.CTolley, CMarble.CMarble, CGameObject.CGameObject, CMarble.constructSphere,
          ODEManager.createBody, ODEManager.createSphere, CMarble.setPos, CMarble.setColor]


/-- What a successful `AddObject` does. -/
theorem AddObject_ok (mgr mgr1 : CObjectManager) (env : Env) (p : ObjPtr)
    (h : mgr.AddObject env p = Except.ok mgr1) :
    p < env.heap.length ∧
    mgr1 = { mgr with m_objectList := mgr.m_objectList ++ [p],
                      m_objectIDMap := mgr.m_objectIDMap.assign (bodyIdAt env p) (some p) } := by
  unfold CObjectManager.AddObject at h
  cases hp : env.heap[p]? with
  | none => simp [hp] at h
  | some o =>
    simp only [hp, Except.ok.injEq] at h
    refine ⟨?_, ?_⟩
    · exact (List.getElem?_eq_some.1 hp).1
    · simp only [bodyIdAt, hp]
      exact h.symm

/-- What a successful `CreateObject` does. -/
theorem CreateObject_ok (mgr mgr1 : CObjectManager) (raw : Nat → CMarble) (type : String)
    (env env1 : Env) (obj : ObjPtr)
    (h : mgr.CreateObject raw type env = (Except.ok obj, env1, mgr1)) :
    obj = env.heap.length ∧ (∃ o, env1.heap = env.heap ++ [o]) ∧
    mgr1 = { mgr with m_objectList := mgr.m_objectList ++ [obj],
                      m_objectIDMap := mgr.m_objectIDMap.assign (bodyIdAt env1 obj) (some obj) } := by
  cases hc : (ObjFactory.Create mgr.CGameObjectFactory raw type env).1 with
  | none =>
    simp [CObjectManager.CreateObject, hc] at h
  | some obj2 =>
    obtain ⟨hlen, o, hheap⟩ := (Create_registered mgr.CGameObjectFactory raw type env).2 obj2 hc
    have hget : (ObjFactory.Create mgr.CGameObjectFactory raw type env).2.heap[obj2]? = some o := by
      rw [hheap, hlen]; simp
    simp only [CObjectManager.CreateObject, hc, hget, Prod.mk.injEq, Except.ok.injEq] at h
    obtain ⟨h1, h2, h3⟩ := h
    subst h1
    subst h2
    refine ⟨hlen, ⟨o, hheap⟩, ?_⟩
    simp only [bodyIdAt, hget]
    exact h3.symm

/-- The lookups of the manager return the last registration, step by step. -/
theorem step_lastRegistered (raw : Nat → CMarble) (op : MgrOp) (s s1 : Env × CObjectManager)
    (ev : Option (dBodyID × ObjPtr)) (events : List (dBodyID × ObjPtr))
    (h : op.step raw s = Except.ok (s1, ev))
    (hinv : ∀ id, (s.2.getObject id).1 = lastRegistered events id) :
    ∀ id, (s1.2.getObject id).1 = lastRegistered (events ++ ev.toList) id := by
  intro id
  cases op with
  | AddObject p =>
    simp only [MgrOp.step] at h
    cases hadd : s.2.AddObject s.1 p with
    | error e => simp [hadd] at h
    | ok mgr =>
      simp only [hadd, Except.ok.injEq, Prod.mk.injEq] at h
      obtain ⟨hs, hev⟩ := h
      obtain ⟨_, hmgr⟩ := AddObject_ok _ _ _ _ hadd
      subst hs; subst hev
      have := hinv id
      rw [getObject_fst] at this ⊢
      simp only [Option.toList, hmgr, find_assign, lastRegistered_snoc]
      by_cases hid : id = bodyIdAt s.1 p
      · simp [hid]
      · simp [hid, this]
  | CreateObject type =>
    simp only [MgrOp.step] at h
    cases hc : s.2.CreateObject raw type s.1 with
    | mk r rest =>
      obtain ⟨env1, mgr1⟩ := rest
      cases r with
      | error e => simp [hc] at h
      | ok obj =>
        simp only [hc, Except.ok.injEq, Prod.mk.injEq] at h
        obtain ⟨hs, hev⟩ := h
        obtain ⟨_, _, hmgr⟩ := CreateObject_ok _ _ _ _ _ _ _ hc
        subst hs; subst hev
        have := hinv id
        rw [getObject_fst] at this ⊢
        simp only [Option.toList, hmgr, find_assign, lastRegistered_snoc]
        by_cases hid : id = bodyIdAt env1 obj
        · simp [hid]
        · simp [hid, this]
  | getObject id0 =>
    simp only [MgrOp.step, Except.ok.injEq, Prod.mk.injEq] at h
    obtain ⟨hs, hev⟩ := h
    subst hs; subst hev
    have := hinv id
    rw [getObject_fst] at this ⊢
    simp only [Option.toList, List.append_nil, CObjectManager.getObject]
    rw [find_index]
    exact this

/-- The lookups of the manager return the last registration, along a run. -/
theorem run_lastRegistered (raw : Nat → CMarble) :
    ∀ (ops : List MgrOp) (st st1 : (Env × CObjectManager) × List (dBodyID × ObjPtr)),
      MgrOp.run raw ops st = Except.ok st1 →
      (∀ id, (st.1.2.getObject id).1 = lastRegistered st.2 id) →
      ∀ id, (st1.1.2.getObject id).1 = lastRegistered st1.2 id := by
  intro ops
  induction ops with
  | nil =>
    intro st st1 h hinv
    simp only [MgrOp.run, Except.ok.injEq] at h
    subst h; exact hinv
  | cons op rest ih =>
    intro st st1 h hinv
    simp only [MgrOp.run] at h
    cases hstep : op.step raw st.1 with
    | error e => simp [hstep] at h
    | ok r =>
      simp only [hstep] at h
      exact ih _ _ h (step_lastRegistered raw op st.1 r.1 r.2 st.2 hstep hinv)

/-- An assignment under a fresh key puts the entry in front. -/
theorem assign_fresh (l : List ObjPtr) (f : ObjPtr → dBodyID) (b : dBodyID) (v : Option ObjPtr)
    (hb : b ∉ l.map f) :
    ObjectIDMap.assign (l.map (fun p => (f p, some p))) b v =
      (b, v) :: l.map (fun p => (f p, some p)) := by
  unfold ObjectIDMap.assign
  congr 1
  rw [List.filter_eq_self]
  intro e he
  obtain ⟨p, hp, rfl⟩ := List.mem_map.1 he
  have : f p ≠ b := fun h => hb (List.mem_map.2 ⟨p, hp, h⟩)
  simpa using this

/-- In a map with one entry per object, the entries under the key of an object
are that one entry. -/
theorem filter_key_unique (f : ObjPtr → dBodyID) :
    ∀ (l : List ObjPtr) (p : ObjPtr), (l.map f).Nodup → p ∈ l →
      (l.map (fun q => (f q, some q))).filter (fun e => e.1 == f p) = [(f p, some p)] := by
  intro l
  induction l with
  | nil => intro p _ hp; cases hp
  | cons a rest ih =>
    intro p hnd hp
    rw [List.map_cons, List.nodup_cons] at hnd
    rcases List.mem_cons.1 hp with rfl | hp
    · have hnone : (rest.map (fun q => (f q, some q))).filter (fun e => e.1 == f p) = [] := by
        rw [List.filter_eq_nil_iff]
        intro e he
        obtain ⟨q, hq, rfl⟩ := List.mem_map.1 he
        have : f q ≠ f p := fun h => hnd.1 (List.mem_map.2 ⟨q, hq, h⟩)
        simpa using this
      simp [List.filter_cons, hnone]
    · have hne : f a ≠ f p := fun h => hnd.1 (h ▸ List.mem_map.2 ⟨p, hp, rfl⟩)
      have hb : (f a == f p) = false := by simpa using hne
      simp only [List.map_cons, List.filter_cons, hb]
      exact ih p hnd.2 hp

theorem registrySync_push (env env1 : Env) (mgr : CObjectManager) (p : ObjPtr)
    (hsync : registrySync (env, mgr))
    (hp : p < env1.heap.length)
    (hstable : ∀ q, q < env.heap.length → bodyIdAt env1 q = bodyIdAt env q)
    (hlen : env.heap.length ≤ env1.heap.length) :
    registrySync
      (env1,
       { mgr with m_objectList := mgr.m_objectList ++ [p],
                  m_objectIDMap := mgr.m_objectIDMap.assign (bodyIdAt env1 p) (some p) }) := by
  obtain ⟨hv, hm⟩ := hsync
  have hmapeq : mgr.m_objectList.map (bodyIdAt env1) = mgr.m_objectList.map (bodyIdAt env) := by
    apply List.map_congr_left
    intro q hq
    exact hstable q (hv q hq)
  have hmapeq2 : mgr.m_objectList.reverse.map (fun q => (bodyIdAt env1 q, some q)) =
      mgr.m_objectList.reverse.map (fun q => (bodyIdAt env q, some q)) := by
    apply List.map_congr_left
    intro q hq
    rw [hstable q (hv q (List.mem_reverse.1 hq))]
  refine ⟨?_, ?_⟩
  · intro q hq
    rcases List.mem_append.1 hq with hq | hq
    · exact lt_of_lt_of_le (hv q hq) hlen
    · simp only [List.mem_singleton] at hq
      rw [hq]; exact hp
  · intro hnd
    simp only [List.map_append, List.map_cons, List.map_nil] at hnd
    rw [List.nodup_append] at hnd
    obtain ⟨hnd1, _, hdisj⟩ := hnd
    have hfresh : bodyIdAt env1 p ∉ mgr.m_objectList.map (bodyIdAt env1) := by
      intro hmem
      exact hdisj hmem (List.mem_singleton.2 rfl)
    rw [hmapeq] at hnd1
    have hm1 := hm hnd1
    simp only [List.reverse_append, List.reverse_cons, List.reverse_nil, List.nil_append,
      List.singleton_append, List.map_cons]
    show ObjectIDMap.assign mgr.m_objectIDMap (bodyIdAt env1 p) (some p) = _
    rw [hm1, ← hmapeq2]
    apply assign_fresh
    rw [List.map_reverse]
    intro hmem
    exact hfresh (List.mem_reverse.1 hmem)

theorem bodyIdAt_append (env env1 : Env) (o : CMarble) (h : env1.heap = env.heap ++ [o]) :
    ∀ q, q < env.heap.length → bodyIdAt env1 q = bodyIdAt env q := by
  intro q hq
  simp only [bodyIdAt, h, List.getElem?_append_left hq]

theorem step_registrySync (raw : Nat → CMarble) (op : MgrOp) (s s1 : Env × CObjectManager)
    (ev : Option (dBodyID × ObjPtr)) (hreg : op.isRegistration = true)
    (h : op.step raw s = Except.ok (s1, ev)) (hsync : registrySync s) :
    registrySync s1 := by
  cases op with
  | AddObject p =>
    simp only [MgrOp.step] at h
    cases hadd : s.2.AddObject s.1 p with
    | error e => simp [hadd] at h
    | ok mgr =>
      simp only [hadd, Except.ok.injEq, Prod.mk.injEq] at h
      obtain ⟨hp, hmgr⟩ := AddObject_ok _ _ _ _ hadd
      rw [← h.1, hmgr]
      exact registrySync_push s.1 s.1 s.2 p hsync hp (fun _ _ => rfl) le_rfl
  | CreateObject type =>
    simp only [MgrOp.step] at h
    cases hc : s.2.CreateObject raw type s.1 with
    | mk r rest =>
      obtain ⟨env1, mgr1⟩ := rest
      cases r with
      | error e => simp [hc] at h
      | ok obj =>
        simp only [hc, Except.ok.injEq, Prod.mk.injEq] at h
        obtain ⟨hobj, ⟨o, hheap⟩, hmgr⟩ := CreateObject_ok _ _ _ _ _ _ _ hc
        rw [← h.1, hmgr]
        refine registrySync_push s.1 env1 s.2 obj hsync ?_ (bodyIdAt_append s.1 env1 o hheap) ?_
        · rw [hheap, hobj]; simp
        · rw [hheap]; simp
  | getObject id => simp [MgrOp.isRegistration] at hreg

theorem run_registrySync (raw : Nat → CMarble) :
    ∀ (ops : List MgrOp) (st st1 : (Env × CObjectManager) × List (dBodyID × ObjPtr)),
      (∀ op ∈ ops, op.isRegistration = true) →
      MgrOp.run raw ops st = Except.ok st1 → registrySync st.1 → registrySync st1.1 := by
  intro ops
  induction ops with
  | nil =>
    intro st st1 _ h hinv
    simp only [MgrOp.run, Except.ok.injEq] at h
    subst h; exact hinv
  | cons op rest ih =>
    intro st st1 hreg h hinv
    simp only [MgrOp.run] at h
    cases hstep : op.step raw st.1 with
    | error e => simp [hstep] at h
    | ok r =>
      simp only [hstep] at h
      exact ih _ _ (fun o ho => hreg o (List.mem_cons_of_mem _ ho)) h
        (step_registrySync raw op st.1 r.1 r.2 (hreg op (List.mem_cons_self _ _)) hstep hinv)


/-- What `CreateObject` does when the factory returns an object. -/
theorem CreateObject_some (m : CObjectManager) (raw : Nat → CMarble) (type : String) (env : Env)
    (obj : ObjPtr) (hobj : (ObjFactory.Create m.CGameObjectFactory raw type env).1 = some obj) :
    ∃ o, (ObjFactory.Create m.CGameObjectFactory raw type env).2.heap[obj]? = some o ∧
      m.CreateObject raw type env =
        (Except.ok obj, (ObjFactory.Create m.CGameObjectFactory raw type env).2,
          { m with m_objectList := m.m_objectList ++ [obj],
                   m_objectIDMap := m.m_objectIDMap.assign o.m_body (some obj) }) := by
  obtain ⟨hlen, o, hheap⟩ := (Create_registered m.CGameObjectFactory raw type env).2 obj hobj
  have hget : (ObjFactory.Create m.CGameObjectFactory raw type env).2.heap[obj]? = some o := by
    rw [hheap, hlen]; simp
  refine ⟨o, hget, ?_⟩
  simp only [CObjectManager.CreateObject, hobj, hget, CMarble.getBodyID]

/-- A defined call succeeds; the heap does not shrink and the factory stays. -/
theorem step_defined (raw : Nat → CMarble) (op : MgrOp) (s : Env × CObjectManager)
    (h : op.defined s.1 s.2 = true) :
    ∃ s1 ev, op.step raw s = Except.ok (s1, ev) ∧ s.1.heap.length ≤ s1.1.heap.length ∧
      s1.2.CGameObjectFactory = s.2.CGameObjectFactory := by
  cases op with
  | AddObject p =>
    simp only [MgrOp.defined, decide_eq_true_eq] at h
    have hget := List.getElem?_eq_getElem h
    simp only [MgrOp.step, CObjectManager.AddObject, hget]
    exact ⟨_, _, rfl, le_rfl, rfl⟩
  | CreateObject type =>
    simp only [MgrOp.defined] at h
    cases hc : (ObjFactory.Create s.2.CGameObjectFactory raw type s.1).1 with
    | none =>
      rw [(Create_registered _ raw type s.1).1, List.find?_eq_none] at hc
      obtain ⟨e, he, hb⟩ := List.any_eq_true.1 h
      exact absurd hb (hc e he)
    | some obj =>
      obtain ⟨o, _, heq⟩ := CreateObject_some s.2 raw type s.1 obj hc
      obtain ⟨_, o2, hheap⟩ := (Create_registered _ raw type s.1).2 obj hc
      simp only [MgrOp.step, heq]
      refine ⟨_, _, rfl, ?_, rfl⟩
      show s.1.heap.length ≤ (ObjFactory.Create s.2.CGameObjectFactory raw type s.1).2.heap.length
      rw [hheap]; simp
  | getObject id =>
    exact ⟨_, _, rfl, le_rfl, rfl⟩

/-- A call that is defined stays defined when the heap grows. -/
theorem defined_mono (op : MgrOp) (env env1 : Env) (mgr mgr1 : CObjectManager)
    (hlen : env.heap.length ≤ env1.heap.length)
    (hf : mgr1.CGameObjectFactory = mgr.CGameObjectFactory)
    (h : op.defined env mgr = true) : op.defined env1 mgr1 = true := by
  cases op with
  | AddObject p =>
    simp only [MgrOp.defined, decide_eq_true_eq] at h ⊢
    exact lt_of_lt_of_le h hlen
  | CreateObject type =>
    simp only [MgrOp.defined] at h ⊢
    rw [hf]; exact h
  | getObject id => rfl

/-- A sequence of defined calls runs to its end. -/
theorem run_defined (raw : Nat → CMarble) :
    ∀ (ops : List MgrOp) (st : (Env × CObjectManager) × List (dBodyID × ObjPtr)),
      (∀ op ∈ ops, op.defined st.1.1 st.1.2 = true) →
      ∃ st1, MgrOp.run raw ops st = Except.ok st1 := by
  intro ops
  induction ops with
  | nil => intro st _; exact ⟨st, rfl⟩
  | cons op rest ih =>
    intro st hdef
    obtain ⟨s1, ev, hstep, hlen, hf⟩ :=
      step_defined raw op st.1 (hdef op (List.mem_cons_self _ _))
    simp only [MgrOp.run, hstep]
    exact ih _ (fun o ho => defined_mono o st.1.1 s1.1 st.1.2 s1.2 hlen hf
      (hdef o (List.mem_cons_of_mem _ ho)))

/-- Registrations under other keys after the last one under a key do not change
what is registered under it. -/
theorem lastRegistered_append (ev1 ev2 : List (dBodyID × ObjPtr)) (id : dBodyID)
    (h : ∀ e ∈ ev2, e.1 ≠ id) :
    lastRegistered (ev1 ++ ev2) id = lastRegistered ev1 id := by
  unfold lastRegistered
  rw [List.reverse_append, List.find?_append]
  have : List.find? (fun e => e.1 == id) ev2.reverse = none := by
    rw [List.find?_eq_none]
    intro e he
    simpa using h e (List.mem_reverse.1 he)
  rw [this]; rfl

/-! ## C11: the identity map and the object list after registrations -/

/-- Claim C11: on a manager whose list and map are empty, a sequence of
`AddObject` and `CreateObject` calls that are defined runs to its end, and in
every state such a sequence ends in, when the body ids of the listed objects are
pairwise distinct, every object of the list has exactly one map entry under its
body id, which points to that object, and every map entry is the entry of an
object of the list. -/
theorem registry_in_sync (raw : Nat → CMarble) (ops : List MgrOp) (env0 : Env)
    (mgr0 : CObjectManager)
    (hempty : mgr0.m_objectList = [] ∧ mgr0.m_objectIDMap = [])
    (hreg : ∀ op ∈ ops, op.isRegistration = true) :
    ((∀ op ∈ ops, op.defined env0 mgr0 = true) →
      ∃ r, MgrOp.run raw ops ((env0, mgr0), []) = Except.ok r) ∧
    ∀ (s : Env × CObjectManager) (events : List (dBodyID × ObjPtr)),
      MgrOp.run raw ops ((env0, mgr0), []) = Except.ok (s, events) →
      (s.2.m_objectList.map (bodyIdAt s.1)).Nodup →
      (∀ p ∈ s.2.m_objectList, ∃ o, s.1.heap[p]? = some o ∧
        s.2.m_objectIDMap.filter (fun e => e.1 == o.m_body) = [(o.m_body, some p)]) ∧
      (∀ e ∈ s.2.m_objectIDMap, ∃ p ∈ s.2.m_objectList, ∃ o, s.1.heap[p]? = some o ∧
        e = (o.m_body, some p)) := by
  refine ⟨fun hdef => run_defined raw ops _ hdef, ?_⟩
  intro s events hrun hdistinct
  have hsync0 : registrySync (env0, mgr0) := by
    refine ⟨?_, ?_⟩
    · intro p hp; rw [hempty.1] at hp; cases hp
    · intro _; rw [hempty.1, hempty.2]; rfl
  obtain ⟨hv, hm⟩ := run_registrySync raw ops _ _ hreg hrun hsync0
  have hmap := hm hdistinct
  have hbody : ∀ p ∈ s.2.m_objectList, ∃ o, s.1.heap[p]? = some o ∧ bodyIdAt s.1 p = o.m_body := by
    intro p hp
    have hlt := hv p hp
    refine ⟨s.1.heap[p], List.getElem?_eq_getElem hlt, ?_⟩
    simp [bodyIdAt, List.getElem?_eq_getElem hlt, CMarble.getBodyID]
  refine ⟨?_, ?_⟩
  · intro p hp
    obtain ⟨o, ho, hb⟩ := hbody p hp
    refine ⟨o, ho, ?_⟩
    show s.2.m_objectIDMap.filter (fun e => e.1 == o.m_body) = _
    rw [hmap, ← hb]
    apply filter_key_unique
    · rw [List.map_reverse]; exact List.nodup_reverse.2 hdistinct
    · exact List.mem_reverse.2 hp
  · intro e he
    rw [hmap] at he
    obtain ⟨p, hp, rfl⟩ := List.mem_map.1 he
    have hp2 := List.mem_reverse.1 hp
    obtain ⟨o, ho, hb⟩ := hbody p hp2
    exact ⟨p, hp2, o, ho, by rw [hb]⟩

theorem registry_in_sync_witness :
    ∃ (s : Env × CObjectManager) (events : List (dBodyID × ObjPtr)),
      MgrOp.run (fun _ => exampleRawMarble) exampleOps
        ((exampleEnv, CObjectManager.CObjectManager), []) = Except.ok (s, events) ∧
      (s.2.m_objectList.map (bodyIdAt s.1)).Nodup ∧
      (∀ p ∈ s.2.m_objectList, ∃ o, s.1.heap[p]? = some o ∧
        s.2.m_objectIDMap.filter (fun e => e.1 == o.m_body) = [(o.m_body, some p)]) ∧
      (∀ e ∈ s.2.m_objectIDMap, ∃ p ∈ s.2.m_objectList, ∃ o, s.1.heap[p]? = some o ∧
        e = (o.m_body, some p)) := by
  have hthm := registry_in_sync (fun _ => exampleRawMarble) exampleOps exampleEnv
    CObjectManager.CObjectManager ⟨rfl, rfl⟩ (by decide)
  obtain ⟨r, hr⟩ := hthm.1 (by decide)
  have hnd : (r.1.2.m_objectList.map (bodyIdAt r.1.1)).Nodup := by
    have hd : (match MgrOp.run (fun _ => exampleRawMarble) exampleOps
        ((exampleEnv, CObjectManager.CObjectManager), []) with
      | Except.ok r => decide ((r.1.2.m_objectList.map (bodyIdAt r.1.1)).Nodup)
      | Except.error _ => false) = true := by decide!
    rw [hr] at hd
    exact of_decide_eq_true hd
  exact ⟨r.1, r.2, hr, hnd, hthm.2 r.1 r.2 hr hnd⟩

/-! ## C12: what `getObject` returns -/

/-- Claim C12: on a manager whose map is empty, a sequence of defined `AddObject`,
`CreateObject` and `getObject` calls runs to its end, and in every state such a
sequence ends in, `getObject` returns for a body id the pointer that was
registered under it (the one registered last, if there were several), and the
null pointer for a body id under which nothing was registered. -/
theorem getObject_returns_registered (raw : Nat → CMarble) (ops : List MgrOp) (env0 : Env)
    (mgr0 : CObjectManager) (hempty : mgr0.m_objectIDMap = []) :
    ((∀ op ∈ ops, op.defined env0 mgr0 = true) →
      ∃ r, MgrOp.run raw ops ((env0, mgr0), []) = Except.ok r) ∧
    ∀ (s : Env × CObjectManager) (events : List (dBodyID × ObjPtr)),
      MgrOp.run raw ops ((env0, mgr0), []) = Except.ok (s, events) →
      (∀ id, (s.2.getObject id).1 = lastRegistered events id) ∧
      (∀ ev1 ev2 id p, events = ev1 ++ (id, p) :: ev2 → (∀ e ∈ ev2, e.1 ≠ id) →
        (s.2.getObject id).1 = some p) ∧
      (∀ id, (∀ e ∈ events, e.1 ≠ id) → (s.2.getObject id).1 = none) := by
  refine ⟨fun hdef => run_defined raw ops _ hdef, ?_⟩
  intro s events hrun
  have hall : ∀ id, (s.2.getObject id).1 = lastRegistered events id := by
    apply run_lastRegistered raw ops ((env0, mgr0), []) (s, events) hrun
    intro id
    rw [getObject_fst]
    show (ObjectIDMap.find mgr0.m_objectIDMap id).getD none = lastRegistered [] id
    rw [hempty]; rfl
  refine ⟨hall, ?_, ?_⟩
  · intro ev1 ev2 id p hev hlater
    rw [hall, hev]
    have : ev1 ++ (id, p) :: ev2 = (ev1 ++ [(id, p)]) ++ ev2 := by simp
    rw [this, lastRegistered_append _ _ _ hlater, lastRegistered_snoc, if_pos rfl]
  · intro id hnone
    rw [hall]
    have := lastRegistered_append [] events id hnone
    rw [List.nil_append] at this
    rw [this]; rfl

theorem getObject_returns_registered_witness :
    ∃ (s : Env × CObjectManager) (events : List (dBodyID × ObjPtr)),
      MgrOp.run (fun _ => exampleRawMarble) (exampleOps ++ [MgrOp.getObject 9])
        ((exampleEnv, CObjectManager.CObjectManager), []) = Except.ok (s, events) ∧
      events = [(1, 0), (2, 1), (3, 2)] ∧
      (s.2.getObject 3).1 = some 2 ∧ (s.2.getObject 9).1 = none := by
  have hthm := getObject_returns_registered (fun _ => exampleRawMarble)
    (exampleOps ++ [MgrOp.getObject 9]) exampleEnv CObjectManager.CObjectManager rfl
  obtain ⟨r, hr⟩ := hthm.1 (by decide)
  have hev : r.2 = [(1, 0), (2, 1), (3, 2)] := by
    have hd : (MgrOp.run (fun _ => exampleRawMarble) (exampleOps ++ [MgrOp.getObject 9])
        ((exampleEnv, CObjectManager.CObjectManager), [])).toOption.map (fun r => r.2) =
        some [(1, 0), (2, 1), (3, 2)] := by decide!
    rw [hr] at hd
    simpa [Except.toOption] using hd
  refine ⟨r.1, r.2, hr, hev, ?_, ?_⟩
  · exact (hthm.2 r.1 r.2 hr).2.1 [(1, 0), (2, 1)] [] 3 2 (by rw [hev]; rfl)
      (fun e he => by cases he)
  · exact (hthm.2 r.1 r.2 hr).2.2 9 (by rw [hev]; decide)

/-! ## C13: when `CreateObject` throws -/

theorem constructed_factory :
    CObjectManager.CObjectManager.CGameObjectFactory =
      [(Marble_Type, false), (Tolley_Type, true)] := by
  decide

/-- Claim C13: `CreateObject` leaves through its `throw` exactly when the
factory's `Create` returns 0; the manager (list and map) is then what it was. In
the other case it returns the new object, appended to the list and entered in the
map under its body id. On the constructed manager the factory returns 0 exactly
for the tags other than `Marble_Type` and `Tolley_Type`. -/
theorem CreateObject_throws_iff (mgr : CObjectManager) (raw : Nat → CMarble) (type : String)
    (env : Env) :
    ((mgr.CreateObject raw type env).1 =
        Except.error (Fault.thrown "CGameObjectFactory.Create returned 0") ↔
      (ObjFactory.Create mgr.CGameObjectFactory raw type env).1 = none) ∧
    ((ObjFactory.Create mgr.CGameObjectFactory raw type env).1 = none →
      (mgr.CreateObject raw type env).2.2 = mgr ∧
      (mgr.CreateObject raw type env).2.1 =
        (ObjFactory.Create mgr.CGameObjectFactory raw type env).2) ∧
    (∀ obj, (ObjFactory.Create mgr.CGameObjectFactory raw type env).1 = some obj →
      ∃ o, (ObjFactory.Create mgr.CGameObjectFactory raw type env).2.heap[obj]? = some o ∧
        mgr.CreateObject raw type env =
          (Except.ok obj, (ObjFactory.Create mgr.CGameObjectFactory raw type env).2,
            { mgr with m_objectList := mgr.m_objectList ++ [obj],
                       m_objectIDMap := mgr.m_objectIDMap.assign o.m_body (some obj) })) ∧
    ((CObjectManager.CObjectManager.CreateObject raw type env).1 =
        Except.error (Fault.thrown "CGameObjectFactory.Create returned 0") ↔
      type ≠ Marble_Type ∧ type ≠ Tolley_Type) := by
  have hsome := fun (m : CObjectManager) obj => CreateObject_some m raw type env obj
  have hiff : ∀ m : CObjectManager,
      ((m.CreateObject raw type env).1 =
        Except.error (Fault.thrown "CGameObjectFactory.Create returned 0") ↔
      (ObjFactory.Create m.CGameObjectFactory raw type env).1 = none) := by
    intro m
    cases hc : (ObjFactory.Create m.CGameObjectFactory raw type env).1 with
    | none => simp [CObjectManager.CreateObject, hc]
    | some obj =>
      obtain ⟨o, _, heq⟩ := hsome m obj hc
      rw [heq]; simp
  refine ⟨hiff mgr, ?_, hsome mgr, ?_⟩
  · intro hnone
    simp [CObjectManager.CreateObject, hnone]
  · rw [hiff, (Create_registered _ raw type env).1, constructed_factory]
    simp only [List.find?_cons, List.find?_nil]
    by_cases h1 : Marble_Type = type
    · have hb1 : (Marble_Type == type) = true := by simpa using h1
      simp only [hb1]
      simp [h1.symm]
    · have hb1 : (Marble_Type == type) = false := by simpa using h1
      have h1' : type ≠ Marble_Type := fun h => h1 h.symm
      by_cases h2 : Tolley_Type = type
      · have hb2 : (Tolley_Type == type) = true := by simpa using h2
        simp only [hb1, hb2]
        simp [h2.symm]
      · have hb2 : (Tolley_Type == type) = false := by simpa using h2
        have h2' : type ≠ Tolley_Type := fun h => h2 h.symm
        simp only [hb1, hb2]
        simp [h1', h2']


theorem CreateObject_throws_iff_witness :
    (ObjFactory.Create CObjectManager.CObjectManager.CGameObjectFactory
        (fun _ => exampleRawMarble) "cube" exampleEnv).1 = none ∧
    (CObjectManager.CObjectManager.CreateObject (fun _ => exampleRawMarble) "cube"
        exampleEnv).2.2 = CObjectManager.CObjectManager ∧
    (CObjectManager.CObjectManager.CreateObject (fun _ => exampleRawMarble) "cube"
        exampleEnv).2.1 =
      (ObjFactory.Create CObjectManager.CObjectManager.CGameObjectFactory
        (fun _ => exampleRawMarble) "cube" exampleEnv).2 :=
  ⟨by decide,
   (CreateObject_throws_iff CObjectManager.CObjectManager (fun _ => exampleRawMarble) "cube"
      exampleEnv).2.1 (by decide)⟩

/-! ## C17: the frame delta of the timer -/

/-- One more reading is one more `FrameUpdate`. -/
theorem frames_snoc (t : CTimer) (rs : List Int) (r : Int) :
    t.frames (rs ++ [r]) = (t.frames rs).FrameUpdate r := by
  simp [CTimer.frames, List.foldl_append]

/-- The frequency read by the constructor is never changed by `FrameUpdate`. -/
theorem frames_frequency (t : CTimer) (rs : List Int) :
    (t.frames rs).m_frequency = t.m_frequency := by
  induction rs generalizing t with
  | nil => rfl
  | cons r rs ih => simp only [CTimer.frames, List.foldl_cons] at ih ⊢; rw [ih]; rfl

/-- Counterexample to claim C17: with frequency 10, after the readings 100 and 50
`getDeltaT` returns -5, which is negative, and not max(0, -5) = 0. -/
theorem getDeltaT_counterexample :
    ((CTimer.CTimer 10).frames [100, 50]).getDeltaT = -5 ∧
    max (0 : ℚ) (((50 - 100 : Int) : ℚ) / ((10 : Int) : ℚ)) = 0 ∧
    ((CTimer.CTimer 10).frames [100, 50]).getDeltaT ≠
      max (0 : ℚ) (((50 - 100 : Int) : ℚ) / ((10 : Int) : ℚ)) := by
  decide!

/-- Claim C17, amended: after any sequence of readings, `getDeltaT` returns (latest
reading - previous reading) / frequency, the previous reading being 0 at the very
first frame, with no clamp: for a positive frequency the value is negative
exactly when the latest reading is smaller than the previous one, and equals
max(0, (latest - previous) / frequency) whenever the readings do not decrease. -/
theorem getDeltaT_unclamped (frequency : Int) (readings : List Int) (a b : Int) :
    ((CTimer.CTimer frequency).frames (readings ++ [a, b])).getDeltaT =
      ((b - a : Int) : ℚ) / (frequency : ℚ) ∧
    ((CTimer.CTimer frequency).frames [b]).getDeltaT = ((b - 0 : Int) : ℚ) / (frequency : ℚ) ∧
    (0 < frequency →
      ((0 ≤ ((CTimer.CTimer frequency).frames (readings ++ [a, b])).getDeltaT ↔ a ≤ b) ∧
       (a ≤ b → ((CTimer.CTimer frequency).frames (readings ++ [a, b])).getDeltaT =
          max 0 (((b - a : Int) : ℚ) / (frequency : ℚ))))) := by
  have h1 : ((CTimer.CTimer frequency).frames (readings ++ [a, b])).getDeltaT =
      ((b - a : Int) : ℚ) / (frequency : ℚ) := by
    have : readings ++ [a, b] = (readings ++ [a]) ++ [b] := by simp
    rw [this, frames_snoc, frames_snoc]
    simp only [CTimer.getDeltaT, CTimer.FrameUpdate]
    rw [frames_frequency]
    rfl
  refine ⟨h1, ?_, ?_⟩
  · simp [CTimer.frames, CTimer.getDeltaT, CTimer.FrameUpdate, CTimer.CTimer]
  · intro hf
    have hfq : (0 : ℚ) < (frequency : ℚ) := by exact_mod_cast hf
    have hiff : 0 ≤ ((b - a : Int) : ℚ) / (frequency : ℚ) ↔ a ≤ b := by
      rw [le_div_iff₀ hfq, zero_mul]
      constructor
      · intro h
        have : (0 : Int) ≤ b - a := by exact_mod_cast h
        omega
      · intro h
        have : (0 : Int) ≤ b - a := by omega
        exact_mod_cast this
    rw [h1]
    refine ⟨hiff, ?_⟩
    intro hab
    rw [max_eq_right (hiff.2 hab)]

theorem getDeltaT_unclamped_witness :
    (0 : Int) < 10 ∧
    ((0 ≤ ((CTimer.CTimer 10).frames ([7] ++ [100, 50])).getDeltaT ↔ (100 : Int) ≤ 50) ∧
     ((100 : Int) ≤ 50 → ((CTimer.CTimer 10).frames ([7] ++ [100, 50])).getDeltaT =
        max 0 (((50 - 100 : Int) : ℚ) / ((10 : Int) : ℚ)))) :=
  ⟨by decide, (getDeltaT_unclamped 10 [7] 100 50).2.2 (by decide)⟩


/-! ## C18: `DynamicsDone` and the angular velocity -/

/-- The loop of `DynamicsDone` reads of an object only its dynamic flag and its
body, and of the library only the linear velocities. -/
theorem DynamicsDone_loop_congr (ode1 ode2 : OdeBodies) (heap1 heap2 : List CMarble)
    (hheap : heap1.map (fun o => (o.m_dynamic, o.m_body)) =
             heap2.map (fun o => (o.m_dynamic, o.m_body)))
    (hvel : ode1.dBodyGetLinearVel = ode2.dBodyGetLinearVel) :
    ∀ (l : List ObjPtr) (retval : Bool),
      CObjectManager.DynamicsDone.loop ode1 heap1 l retval =
      CObjectManager.DynamicsDone.loop ode2 heap2 l retval := by
  intro l
  induction l with
  | nil => intro retval; rfl
  | cons p rest ih =>
    intro retval
    have hp : (heap1[p]?).map (fun o => (o.m_dynamic, o.m_body)) =
        (heap2[p]?).map (fun o => (o.m_dynamic, o.m_body)) := by
      rw [← List.getElem?_map, ← List.getElem?_map, hheap]
    cases h1 : heap1[p]? with
    | none =>
      cases h2 : heap2[p]? with
      | none => simp [CObjectManager.DynamicsDone.loop, h1, h2]
      | some o2 => rw [h1, h2] at hp; simp at hp
    | some o1 =>
      cases h2 : heap2[p]? with
      | none => rw [h1, h2] at hp; simp at hp
      | some o2 =>
        rw [h1, h2] at hp
        simp only [Option.map_some', Option.some.injEq, Prod.mk.injEq] at hp
        simp only [CObjectManager.DynamicsDone.loop, h1, h2, CMarble.isDynamic,
          CMarble.getBodyID, hp.1, hp.2, hvel, ih]

/-- Claim C18: `DynamicsDone` returns the same on two populations whose objects
agree on the dynamic flag and the body and whose bodies have the same linear
velocities, whatever the angular velocities are; in particular replacing the
angular velocities by any others does not change the result. -/
theorem DynamicsDone_ignores_angular (mgr : CObjectManager) (env1 env2 : Env)
    (ode1 ode2 : OdeBodies)
    (hheap : env1.heap.map (fun o => (o.m_dynamic, o.m_body)) =
             env2.heap.map (fun o => (o.m_dynamic, o.m_body)))
    (hvel : ode1.dBodyGetLinearVel = ode2.dBodyGetLinearVel) :
    mgr.DynamicsDone ode1 env1 = mgr.DynamicsDone ode2 env2 ∧
    ∀ omega : dBodyID → ℚ × ℚ × ℚ,
      mgr.DynamicsDone { ode1 with dBodyGetAngularVel := omega } env1 =
        mgr.DynamicsDone ode1 env1 := by
  constructor
  · simp only [CObjectManager.DynamicsDone,
      DynamicsDone_loop_congr ode1 ode2 env1.heap env2.heap hheap hvel]
  · intro omega
    simp only [CObjectManager.DynamicsDone,
      DynamicsDone_loop_congr { ode1 with dBodyGetAngularVel := omega } ode1 env1.heap env1.heap
        rfl rfl]

theorem DynamicsDone_ignores_angular_witness :
    (exampleEnv.heap.map (fun o => (o.m_dynamic, o.m_body)) =
      exampleEnv.heap.map (fun o => (o.m_dynamic, o.m_body))) ∧
    ((constBodies (0, 0, 0) (0.05, 0, 0) (1000, 1000, 1000)).dBodyGetLinearVel =
      (constBodies (0, 0, 0) (0.05, 0, 0) (0, 0, 0)).dBodyGetLinearVel) ∧
    exampleManager.DynamicsDone (constBodies (0, 0, 0) (0.05, 0, 0) (1000, 1000, 1000))
        exampleEnv =
      exampleManager.DynamicsDone (constBodies (0, 0, 0) (0.05, 0, 0) (0, 0, 0)) exampleEnv :=
  ⟨rfl, rfl, (DynamicsDone_ignores_angular exampleManager exampleEnv exampleEnv
      (constBodies (0, 0, 0) (0.05, 0, 0) (1000, 1000, 1000))
      (constBodies (0, 0, 0) (0.05, 0, 0) (0, 0, 0)) rfl rfl).1⟩


/-! ## C19: `DestroyObjects` -/

/-- After `DestroyODEObject` the object is marked destroyed and keeps its shape
handle. -/
theorem DestroyODEObject_fields (o : CMarble) :
    o.DestroyODEObject.1.m_odeDestroyed = true ∧ o.DestroyODEObject.1.m_geom = o.m_geom := by
  unfold CMarble.DestroyODEObject
  cases h : o.m_odeDestroyed <;> simp [h]

/-- The loop of `DestroyObjects` on distinct valid pointers: it runs to its end,
marks every object of the list destroyed, leaves the others alone, and issues
for each object in turn the calls of `destroyCallsAt`. -/
theorem DestroyObjects_loop_spec :
    ∀ (l : List ObjPtr) (env : Env), (∀ p ∈ l, p < env.heap.length) → l.Nodup →
      ∃ env1, DestroyObjects.loop l env = Except.ok env1 ∧
        env1.heap.length = env.heap.length ∧
        (∀ p ∈ l, ∃ o, env1.heap[p]? = some o ∧ o.m_odeDestroyed = true) ∧
        (∀ q, q ∉ l → env1.heap[q]? = env.heap[q]?) ∧
        env1.odeCalls = env.odeCalls ++ l.flatMap (destroyCallsAt env) := by
  intro l
  induction l with
  | nil =>
    intro env _ _
    exact ⟨env, rfl, rfl, by simp, by simp, by simp⟩
  | cons curr rest ih =>
    intro env hv hnd
    have hcurr : curr < env.heap.length := hv curr (List.mem_cons_self _ _)
    have hget : env.heap[curr]? = some env.heap[curr] := List.getElem?_eq_getElem hcurr
    rw [List.nodup_cons] at hnd
    let o := env.heap[curr]
    let env2 : Env :=
      { heap := env.heap.set curr o.DestroyODEObject.1,
        odeCalls := env.odeCalls ++ o.DestroyODEObject.2 ++ o.DestroyODEObject.1.destructor ++
          [OdeCall.operatorDelete curr],
        nextBody := env.nextBody, nextGeom := env.nextGeom }
    have hstep : DestroyObjects.loop (curr :: rest) env = DestroyObjects.loop rest env2 := by
      simp only [DestroyObjects.loop, Env.invoke, hget]
      have hget2 : (env.heap.set curr o.DestroyODEObject.1)[curr]? =
          some o.DestroyODEObject.1 := by
        rw [List.getElem?_set_self hcurr]
      simp only [hget2]
    have hlen2 : env2.heap.length = env.heap.length := by simp [env2]
    have hv2 : ∀ p ∈ rest, p < env2.heap.length := by
      intro p hp; rw [hlen2]; exact hv p (List.mem_cons_of_mem _ hp)
    obtain ⟨env1, hrun, hlen, hdest, hother, hcalls⟩ := ih env2 hv2 hnd.2
    have hne : ∀ p ∈ rest, curr ≠ p := fun p hp h => hnd.1 (h ▸ hp)
    have hflat : rest.flatMap (destroyCallsAt env2) = rest.flatMap (destroyCallsAt env) := by
      simp only [List.flatMap]
      congr 1
      apply List.map_congr_left
      intro p hp
      simp only [destroyCallsAt, env2, List.getElem?_set_ne (hne p hp)]
    refine ⟨env1, by rw [hstep, hrun], by rw [hlen, hlen2], ?_, ?_, ?_⟩
    · intro p hp
      rcases List.mem_cons.1 hp with rfl | hp
      · refine ⟨o.DestroyODEObject.1, ?_, (DestroyODEObject_fields o).1⟩
        rw [hother p hnd.1]
        simp only [env2]
        rw [List.getElem?_set_self hcurr]
      · exact hdest p hp
    · intro q hq
      have hq1 : q ≠ curr := fun h => hq (h ▸ List.mem_cons_self _ _)
      have hq2 : q ∉ rest := fun h => hq (List.mem_cons_of_mem _ h)
      rw [hother q hq2]
      simp only [env2]
      rw [List.getElem?_set_ne (fun h => hq1 h.symm)]
    · rw [hcalls, hflat]
      simp only [env2, List.flatMap_cons, destroyCallsAt, hget, CMarble.destructor,
        (DestroyODEObject_fields o).2, List.append_assoc]

/-- Of the calls of the loop, those that destroy a shape or a body are the ones
issued by `DestroyODEObject`. -/
theorem filter_destroyCalls (env : Env) (l : List ObjPtr) :
    (l.flatMap (destroyCallsAt env)).filter OdeCall.isDestroy =
      l.flatMap (fun p => match env.heap[p]? with
        | some o => o.DestroyODEObject.2
        | none => []) := by
  induction l with
  | nil => rfl
  | cons p rest ih =>
    simp only [List.flatMap_cons, List.filter_append, ih]
    congr 1
    unfold destroyCallsAt
    cases h : env.heap[p]? with
    | none => rfl
    | some o =>
      simp only [CMarble.DestroyODEObject, CMarble.destructor]
      cases o.m_odeDestroyed <;> simp [OdeCall.isDestroy, List.filter_cons]

/-- Claim C19, amended: on a list of distinct valid pointers `DestroyObjects` runs
to its end; afterwards every object of the list is marked destroyed, the
shape and body destructions issued are those of one `DestroyODEObject` per
object, in list order, and the object list is empty; the identity map is not
touched, so it keeps its entries, those of the removed objects included. -/
theorem DestroyObjects_effect (mgr : CObjectManager) (env : Env)
    (hvalid : ∀ p ∈ mgr.m_objectList, p < env.heap.length)
    (hnodup : mgr.m_objectList.Nodup) :
    ∃ env1,
      mgr.DestroyObjects env = Except.ok (env1, { mgr with m_objectList := [] }) ∧
      (∀ p ∈ mgr.m_objectList, ∃ o, env1.heap[p]? = some o ∧ o.m_odeDestroyed = true) ∧
      (env1.odeCalls.drop env.odeCalls.length).filter OdeCall.isDestroy =
        mgr.m_objectList.flatMap (fun p => match env.heap[p]? with
          | some o => o.DestroyODEObject.2
          | none => []) := by
  obtain ⟨env1, hrun, _, hdest, _, hcalls⟩ :=
    DestroyObjects_loop_spec mgr.m_objectList env hvalid hnodup
  refine ⟨env1, ?_, hdest, ?_⟩
  · simp [CObjectManager.DestroyObjects, hrun]
  · rw [hcalls, List.drop_left, filter_destroyCalls]

theorem DestroyObjects_effect_witness :
    (∀ p ∈ exampleManager.m_objectList, p < exampleEnv.heap.length) ∧
    exampleManager.m_objectList.Nodup ∧
    ∃ env1,
      exampleManager.DestroyObjects exampleEnv =
        Except.ok (env1, { exampleManager with m_objectList := [] }) ∧
      (env1.odeCalls.drop exampleEnv.odeCalls.length).filter OdeCall.isDestroy =
        [OdeCall.dGeomDestroy 2, OdeCall.dBodyDestroy 1,
         OdeCall.dGeomDestroy 3, OdeCall.dBodyDestroy 2] := by
  have hnd : exampleManager.m_objectList.Nodup := by decide
  refine ⟨exampleManager_valid, hnd, ?_⟩
  obtain ⟨env1, hrun, _, hcalls⟩ :=
    DestroyObjects_effect exampleManager exampleEnv exampleManager_valid hnd
  refine ⟨env1, hrun, ?_⟩
  rw [hcalls]
  decide

/-- Counterexample to claim C19: after `DestroyObjects` on the sample manager the
list is empty, while the map still holds the entries of both removed objects,
such as the one under body id 1 for the object at pointer 0. -/
theorem DestroyObjects_map_counterexample :
    0 ∈ exampleManager.m_objectList ∧ bodyIdAt exampleEnv 0 = 1 ∧
    ((exampleManager.DestroyObjects exampleEnv).toOption.map
      (fun r => (r.2.m_objectList, r.2.m_objectIDMap))) =
      some ([], [(2, some 1), (1, some 0)]) := by
  decide!


/-! ## C15, C16: the simulation step and the collision callback -/

/-- A lookup of a registered body id returns the stored pointer and leaves the
manager as it is. -/
theorem getObject_found (mgr : CObjectManager) (b : dBodyID) (v : Option ObjPtr)
    (h : mgr.m_objectIDMap.find b = some v) : mgr.getObject b = (v, mgr) := by
  simp [CObjectManager.getObject, ObjectIDMap.index, h]

/-- A completed `CheckCollisions` leaves the heap and the library calls as they
are, and the floor plane as well. -/
theorem CheckCollisions_env (world : OdeWorld) (b1 b2 : dBodyID) (p p1 : Program)
    (h : CGame.CheckCollisions world b1 b2 p = Except.ok p1) :
    p1.env = p.env ∧ p1.game.m_odeManager = p.game.m_odeManager ∧ p1.input = p.input ∧
      p1.game.m_gameState = p.game.m_gameState := by
  unfold CGame.CheckCollisions at h
  dsimp only at h
  split at h
  · split at h
    · split at h <;>
      · simp only [Except.ok.injEq] at h
        subst h
        exact ⟨rfl, rfl, rfl, rfl⟩
    · cases h
  · cases h

/-- `CheckCollisions` completes on two resolved bodies and leaves the game as it
is. -/
theorem CheckCollisions_total (world : OdeWorld) (b1 b2 : dBodyID) (p : Program)
    (h1 : resolves p b1) (h2 : resolves p b2) :
    ∃ p1, CGame.CheckCollisions world b1 b2 p = Except.ok p1 ∧ p1.env = p.env ∧
      p1.game = p.game := by
  obtain ⟨obj1, o1, hf1, ho1⟩ := h1
  obtain ⟨obj2, o2, hf2, ho2⟩ := h2
  unfold CGame.CheckCollisions
  simp only [getObject_found _ _ _ hf1, getObject_found _ _ _ hf2, ho1, ho2]
  split
  · exact ⟨_, rfl, rfl, rfl⟩
  · exact ⟨_, rfl, rfl, rfl⟩

/-- A completed callback appends its contact calls and nothing else. -/
theorem NearCallback_env (world : OdeWorld) (c : Candidate) (p p1 : Program)
    (h : ODEManager.NearCallback world c p = Except.ok p1) :
    p1.env = { p.env with odeCalls := p.env.odeCalls ++ ODEManager.callbackCalls c } ∧
    p1.game.m_odeManager = p.game.m_odeManager ∧ p1.input = p.input ∧
      p1.game.m_gameState = p.game.m_gameState := by
  unfold ODEManager.NearCallback at h
  unfold ODEManager.callbackCalls
  by_cases hskip : c.b1 ≠ 0 ∧ c.b2 ≠ 0 ∧ c.connected = true
  · simp only [if_pos hskip, Except.ok.injEq] at h
    subst h
    simp [if_pos hskip]
  · simp only [if_neg hskip] at h ⊢
    split at h
    · cases h
    · rename_i p2 hp2
      simp only [Except.ok.injEq] at h
      subst h
      split at hp2
      · obtain ⟨henv, hode, hin, hst⟩ := CheckCollisions_env world _ _ _ _ hp2
        simp only [henv, hode, hin, hst, and_self]
      · simp only [Except.ok.injEq] at hp2
        subst hp2
        exact ⟨rfl, rfl, rfl, rfl⟩

/-- A completed collision pass appends the contact calls of its callbacks. -/
theorem collide_env (world : OdeWorld) :
    ∀ (cs : List Candidate) (p p1 : Program), ODEManager.collide world cs p = Except.ok p1 →
      p1.env = { p.env with odeCalls := p.env.odeCalls ++ cs.flatMap ODEManager.callbackCalls } ∧
      p1.game.m_odeManager = p.game.m_odeManager ∧ p1.input = p.input ∧
        p1.game.m_gameState = p.game.m_gameState := by
  intro cs
  induction cs with
  | nil =>
    intro p p1 h
    simp only [ODEManager.collide, Except.ok.injEq] at h
    subst h
    simp
  | cons c rest ih =>
    intro p p1 h
    simp only [ODEManager.collide] at h
    split at h
    · cases h
    · rename_i p2 hp2
      obtain ⟨henv, hode, hin, hst⟩ := NearCallback_env world c p p2 hp2
      obtain ⟨henv1, hode1, hin1, hst1⟩ := ih p2 p1 h
      rw [henv1, henv, hode1, hode, hin1, hin, hst1, hst]
      simp [List.flatMap_cons, List.append_assoc]

/-- The callback completes when the bodies it hands to `CheckCollisions` resolve;
the game is left as it is. -/
theorem NearCallback_total (world : OdeWorld) (c : Candidate) (p : Program)
    (h : c.checked p.game.m_odeManager.m_plane → resolves p c.b1 ∧ resolves p c.b2) :
    ∃ p1, ODEManager.NearCallback world c p = Except.ok p1 ∧ p1.game = p.game ∧
      p1.env.heap = p.env.heap := by
  unfold ODEManager.NearCallback
  by_cases hskip : c.b1 ≠ 0 ∧ c.b2 ≠ 0 ∧ c.connected = true
  · simp only [if_pos hskip]
    exact ⟨p, rfl, rfl, rfl⟩
  · simp only [if_neg hskip]
    by_cases hplane : c.o1 ≠ p.game.m_odeManager.m_plane ∧ c.o2 ≠ p.game.m_odeManager.m_plane
    · obtain ⟨hr1, hr2⟩ := h ⟨hskip, hplane⟩
      obtain ⟨p2, hp2, henv, hgame⟩ := CheckCollisions_total world c.b1 c.b2 p hr1 hr2
      simp only [if_pos hplane, hp2]
      exact ⟨_, rfl, hgame, by rw [henv]⟩
    · simp only [if_neg hplane]
      exact ⟨_, rfl, rfl, rfl⟩

/-- Whether a body id resolves depends on the game and the heap only. -/
theorem resolves_congr (p p1 : Program) (b : dBodyID)
    (hg : p1.game.m_objectManager = p.game.m_objectManager)
    (hh : p1.env.heap = p.env.heap) (h : resolves p b) : resolves p1 b := by
  obtain ⟨obj, o, hf, ho⟩ := h
  exact ⟨obj, o, by rw [hg]; exact hf, by rw [hh]; exact ho⟩

/-- The collision pass completes when the bodies of all checked pairs resolve. -/
theorem collide_total (world : OdeWorld) :
    ∀ (cs : List Candidate) (p : Program),
      (∀ c ∈ cs, c.checked p.game.m_odeManager.m_plane → resolves p c.b1 ∧ resolves p c.b2) →
      ∃ p1, ODEManager.collide world cs p = Except.ok p1 ∧ p1.game = p.game ∧
        p1.env.heap = p.env.heap := by
  intro cs
  induction cs with
  | nil => intro p _; exact ⟨p, rfl, rfl, rfl⟩
  | cons c rest ih =>
    intro p h
    obtain ⟨p2, hp2, hg, hh⟩ := NearCallback_total world c p (h c (List.mem_cons_self _ _))
    obtain ⟨p3, hp3, hg3, hh3⟩ := ih p2 (by
      intro c1 hc1 hchk
      rw [hg] at hchk
      obtain ⟨r1, r2⟩ := h c1 (List.mem_cons_of_mem _ hc1) hchk
      exact ⟨resolves_congr p p2 _ (by rw [hg]) hh r1, resolves_congr p p2 _ (by rw [hg]) hh r2⟩)
    simp only [ODEManager.collide, hp2]
    exact ⟨p3, hp3, hg3.trans hg, hh3.trans hh⟩

/-- The contact calls are joint creations and attachments only. -/
theorem contactCalls_kinds (b1 b2 : dBodyID) :
    ∀ (n : Nat), ∀ call ∈ ODEManager.contactCalls b1 b2 n,
      call = OdeCall.dJointCreateContact 0.75 0.1 ∨ call = OdeCall.dJointAttach b1 b2 := by
  intro n
  induction n with
  | zero => intro call h; cases h
  | succ n ih =>
    intro call h
    simp only [ODEManager.contactCalls, List.mem_cons] at h
    rcases h with h | h | h
    · exact Or.inl h
    · exact Or.inr h
    · exact ih call h

/-- After `dJointGroupEmpty` as the last call the contact group is empty. -/
theorem contactJoints_emptied (calls : List OdeCall) :
    contactJoints (calls ++ [OdeCall.dJointGroupEmpty]) = 0 := by
  simp [contactJoints, List.foldl_append]

/-- Claim C15: `SimLoop(true)` returns the state as it is, so no library call
is made. A completed `SimLoop(false)` appends to the library calls one
`dSpaceCollide`, the calls of its callbacks, which only create and attach contact
joints, then `dWorldStep` with step 0.05, whatever the timer holds, and
`dJointGroupEmpty` last, after which the contact group is empty; the heap is
left alone. `SimLoop(false)` completes when the bodies of every pair that the
callback hands to `CheckCollisions` are registered with valid objects. -/
theorem SimLoop_effect (world : OdeWorld) (p : Program) :
    ODEManager.SimLoop world true p = Except.ok p ∧
    (∀ p1, ODEManager.SimLoop world false p = Except.ok p1 →
      p1.env.odeCalls = p.env.odeCalls ++ [OdeCall.dSpaceCollide] ++
        (world.candidates (p.env.odeCalls ++ [OdeCall.dSpaceCollide])).flatMap
          ODEManager.callbackCalls ++
        [OdeCall.dWorldStep 0.05, OdeCall.dJointGroupEmpty] ∧
      p1.env.heap = p.env.heap ∧
      contactJoints p1.env.odeCalls = 0) ∧
    (∀ c call, call ∈ ODEManager.callbackCalls c →
      call = OdeCall.dJointCreateContact 0.75 0.1 ∨ call = OdeCall.dJointAttach c.b1 c.b2) ∧
    ((∀ c ∈ world.candidates (p.env.odeCalls ++ [OdeCall.dSpaceCollide]),
        c.checked p.game.m_odeManager.m_plane → resolves p c.b1 ∧ resolves p c.b2) →
      ∃ p1, ODEManager.SimLoop world false p = Except.ok p1) := by
  refine ⟨rfl, ?_, ?_, ?_⟩
  · intro p1 h
    simp only [ODEManager.SimLoop, Bool.not_false, if_true] at h
    split at h
    · cases h
    · rename_i p2 hp2
      obtain ⟨henv, _, _, _⟩ := collide_env world _ _ _ hp2
      simp only [Except.ok.injEq] at h
      subst h
      refine ⟨?_, ?_, ?_⟩
      · simp only [henv, List.append_assoc]
      · simp only [henv]
      · show contactJoints (p2.env.odeCalls ++ [OdeCall.dWorldStep 0.05, OdeCall.dJointGroupEmpty])
          = 0
        have : p2.env.odeCalls ++ [OdeCall.dWorldStep 0.05, OdeCall.dJointGroupEmpty] =
            (p2.env.odeCalls ++ [OdeCall.dWorldStep 0.05]) ++ [OdeCall.dJointGroupEmpty] := by
          simp
        rw [this, contactJoints_emptied]
  · intro c call hcall
    unfold ODEManager.callbackCalls at hcall
    split at hcall
    · cases hcall
    · exact contactCalls_kinds _ _ _ call hcall
  · intro h
    simp only [ODEManager.SimLoop, Bool.not_false, if_true]
    obtain ⟨p2, hp2, _, _⟩ := collide_total world
      (world.candidates (p.env.odeCalls ++ [OdeCall.dSpaceCollide]))
      { p with env := { p.env with odeCalls := p.env.odeCalls ++ [OdeCall.dSpaceCollide] } }
      (by
        intro c hc hchk
        obtain ⟨r1, r2⟩ := h c hc hchk
        exact ⟨resolves_congr p _ _ rfl rfl r1, resolves_congr p _ _ rfl rfl r2⟩)
    simp only [hp2]
    exact ⟨_, rfl⟩


theorem SimLoop_effect_witness :
    ∃ p1, ODEManager.SimLoop (exampleWorld (0, 0, 0) (0.6, 0, 0) (0, 0, 0) [examplePair]) false
        (exampleProgram GameState.GS_DynamicsSettle false) = Except.ok p1 ∧
      p1.env.odeCalls =
        [OdeCall.dSpaceCollide, OdeCall.dJointCreateContact 0.75 0.1, OdeCall.dJointAttach 1 2,
         OdeCall.dJointCreateContact 0.75 0.1, OdeCall.dJointAttach 1 2,
         OdeCall.dWorldStep 0.05, OdeCall.dJointGroupEmpty] ∧
      contactJoints p1.env.odeCalls = 0 := by
  have hthm := SimLoop_effect (exampleWorld (0, 0, 0) (0.6, 0, 0) (0, 0, 0) [examplePair])
    (exampleProgram GameState.GS_DynamicsSettle false)
  obtain ⟨p1, hrun⟩ := hthm.2.2.2 (by
    intro c hc _
    simp only [exampleWorld, List.mem_singleton] at hc
    subst hc
    exact ⟨⟨0, exampleTolley, by decide, rfl⟩,
      ⟨1, { exampleMarble with m_body := 2, m_geom := 3, m_dynamic := false }, by decide, rfl⟩⟩)
  obtain ⟨hcalls, _, hjoints⟩ := hthm.2.1 p1 hrun
  refine ⟨p1, hrun, ?_, hjoints⟩
  rw [hcalls]
  decide!

/-- The result of `CheckCollisions` on two bodies registered with valid objects. -/
theorem CheckCollisions_resolved (world : OdeWorld) (b1 b2 : dBodyID) (p : Program)
    (obj1 obj2 : ObjPtr) (o1 o2 : CMarble)
    (h1 : p.game.m_objectManager.m_objectIDMap.find b1 = some (some obj1))
    (h2 : p.game.m_objectManager.m_objectIDMap.find b2 = some (some obj2))
    (ho1 : p.env.heap[obj1]? = some o1) (ho2 : p.env.heap[obj2]? = some o2) :
    CGame.CheckCollisions world b1 b2 p =
      Except.ok { p with sound := p.sound ++
        (if squaredSpeed world p o1.m_body > 0.3 ∨ squaredSpeed world p o2.m_body > 0.3 then
          [SoundCall.playFX
            (max (squaredSpeed world p o1.m_body) (squaredSpeed world p o2.m_body) * 2.0)]
        else []) } := by
  unfold CGame.CheckCollisions
  simp only [getObject_found _ _ _ h1, getObject_found _ _ _ h2, ho1, ho2, CMarble.getVel,
    squaredSpeed]
  split <;> simp

/-- Claim C16, amended: for two bodies registered with valid objects,
`CheckCollisions` completes and leaves the heap, the library calls and the game
as they are; it calls `playFX` exactly when the `getVel()` value of at least one
of the two objects, which is the squared speed of its body, exceeds 0.3, and the
volume passed is 2 times the larger of the two `getVel()` values. -/
theorem CheckCollisions_reports_impact (world : OdeWorld) (b1 b2 : dBodyID) (p : Program)
    (obj1 obj2 : ObjPtr) (o1 o2 : CMarble)
    (h1 : p.game.m_objectManager.m_objectIDMap.find b1 = some (some obj1))
    (h2 : p.game.m_objectManager.m_objectIDMap.find b2 = some (some obj2))
    (ho1 : p.env.heap[obj1]? = some o1) (ho2 : p.env.heap[obj2]? = some o2) :
    ∃ p1, CGame.CheckCollisions world b1 b2 p = Except.ok p1 ∧
      p1.env = p.env ∧ p1.game = p.game ∧
      o1.getVel (world.bodies p.env.odeCalls) = squaredSpeed world p o1.m_body ∧
      o2.getVel (world.bodies p.env.odeCalls) = squaredSpeed world p o2.m_body ∧
      ((squaredSpeed world p o1.m_body > 0.3 ∨ squaredSpeed world p o2.m_body > 0.3) →
        p1.sound = p.sound ++ [SoundCall.playFX
          (2 * max (squaredSpeed world p o1.m_body) (squaredSpeed world p o2.m_body))]) ∧
      (¬ (squaredSpeed world p o1.m_body > 0.3 ∨ squaredSpeed world p o2.m_body > 0.3) →
        p1.sound = p.sound) := by
  refine ⟨_, CheckCollisions_resolved world b1 b2 p obj1 obj2 o1 o2 h1 h2 ho1 ho2, rfl, rfl,
    rfl, rfl, ?_, ?_⟩
  · intro h
    simp only [if_pos h]
    congr 3
    norm_num [mul_comm]
  · intro h
    simp only [if_neg h, List.append_nil]

/-- Counterexample to claim C16: a body moving with velocity (0.4, 0, 0) has speed
0.4, which exceeds 0.3, and yet `CheckCollisions` on it and a resting body calls
nothing on the sound manager (the squared speed 0.16 does not exceed 0.3). -/
theorem CheckCollisions_speed_counterexample :
    ((exampleWorld (0, 0, 0) (0.4, 0, 0) (0, 0, 0) []).bodies
        (exampleProgram GameState.GS_DynamicsSettle false).env.odeCalls).dBodyGetLinearVel 1 =
      (0.4, 0, 0) ∧
    CVector3.Magnitude exampleSqrt ⟨0.4, 0, 0⟩ = 0.4 ∧ (0.4 : ℚ) > 0.3 ∧
    (CGame.CheckCollisions (exampleWorld (0, 0, 0) (0.4, 0, 0) (0, 0, 0) []) 1 2
        (exampleProgram GameState.GS_DynamicsSettle false)).toOption.map (fun p => p.sound) =
      some [] := by
  decide!

theorem CheckCollisions_reports_impact_witness :
    ∃ p1, CGame.CheckCollisions (exampleWorld (0, 0, 0) (0.6, 0, 0) (0, 0, 0) []) 1 2
        (exampleProgram GameState.GS_DynamicsSettle false) = Except.ok p1 ∧
      p1.sound = [SoundCall.playFX 0.72] := by
  obtain ⟨p1, hrun, _, _, _, _, hyes, _⟩ :=
    CheckCollisions_reports_impact (exampleWorld (0, 0, 0) (0.6, 0, 0) (0, 0, 0) []) 1 2
      (exampleProgram GameState.GS_DynamicsSettle false) 0 1 exampleTolley
      { exampleMarble with m_body := 2, m_geom := 3, m_dynamic := false }
      (by decide) (by decide) rfl rfl
  refine ⟨p1, hrun, ?_⟩
  rw [hyes (by decide!)]
  decide!


/-! ## C14: the state machine of `MainLoop` -/

/-- The music keys touch the sound calls only. -/
theorem musicKeys_fields (p : Program) :
    (CGame.MainLoop.musicKeys p).game = p.game ∧ (CGame.MainLoop.musicKeys p).env = p.env ∧
    (CGame.MainLoop.musicKeys p).input = p.input ∧ (CGame.MainLoop.musicKeys p).timer = p.timer ∧
    (CGame.MainLoop.musicKeys p).render = p.render := by
  unfold CGame.MainLoop.musicKeys
  dsimp only
  split <;> split <;> exact ⟨rfl, rfl, rfl, rfl, rfl⟩

/-- A completed `SimLoop` leaves the input manager and the game state alone. -/
theorem SimLoop_frame (world : OdeWorld) (pause : Bool) (p p1 : Program)
    (h : ODEManager.SimLoop world pause p = Except.ok p1) :
    p1.input = p.input ∧ p1.game.m_gameState = p.game.m_gameState := by
  unfold ODEManager.SimLoop at h
  cases pause with
  | true =>
    simp only [Bool.not_true, Bool.false_eq_true, if_false, Except.ok.injEq] at h
    subst h; exact ⟨rfl, rfl⟩
  | false =>
    simp only [Bool.not_false, if_true] at h
    split at h
    · cases h
    · rename_i p2 hp2
      obtain ⟨_, _, hin, hst⟩ := collide_env world _ _ _ hp2
      simp only [Except.ok.injEq] at h
      subst h
      exact ⟨hin, hst⟩

/-- What the completed statements before `SimLoop` leave alone (the heap, the
library calls, the object manager, the floor plane, the pause flag, the striker
pointer, the input manager, the game state, the view timer), and what they store:
the timer reading, and the throbber and its sign as the two throbber statements
give them. -/
theorem prepare_ok (sqrt : ℚ → ℚ) (inp : FrameInput) (p p1 : Program)
    (h : CGame.MainLoop.prepare sqrt inp p = Except.ok p1) :
    p1.env = p.env ∧
    p1.game.m_objectManager = p.game.m_objectManager ∧
    p1.game.m_odeManager = p.game.m_odeManager ∧
    p1.game.m_pause = p.game.m_pause ∧
    p1.game.m_p1Tolley = p.game.m_p1Tolley ∧
    p1.input = p.input ∧
    p1.game.m_gameState = p.game.m_gameState ∧
    p1.game.m_viewInterp = p.game.m_viewInterp ∧
    p1.timer = p.timer.FrameUpdate inp.counter ∧
    (p1.game.m_throbber, p1.game.m_throbIncrSign) =
      CGame.MainLoop.throb (p.timer.FrameUpdate inp.counter).getDeltaT
        (p.game.m_throbber, p.game.m_throbIncrSign) := by
  unfold CGame.MainLoop.prepare at h
  dsimp only at h
  split at h
  · cases h
  · split at h
    · cases h
    · simp only [Except.ok.injEq] at h
      subst h
      exact ⟨rfl, rfl, rfl, rfl, rfl, rfl, rfl, rfl, rfl, rfl⟩

/-- The statements before `SimLoop` read the game and the timer only. -/
theorem prepare_congr (sqrt : ℚ → ℚ) (inp : FrameInput) (p q q1 : Program)
    (hg : q.game = p.game) (ht : q.timer = p.timer)
    (h : CGame.MainLoop.prepare sqrt inp q = Except.ok q1) :
    ∃ p1, CGame.MainLoop.prepare sqrt inp p = Except.ok p1 ∧ p1.game = q1.game ∧
      p1.timer = q1.timer := by
  unfold CGame.MainLoop.prepare at h ⊢
  rw [hg, ht] at h
  dsimp only at h ⊢
  split at h
  · cases h
  · rename_i f hf
    try rw [hf]
    try dsimp only
    split at h
    · cases h
    · rename_i st hst
      try rw [hst]
      try dsimp only
      simp only [Except.ok.injEq] at h
      subst h
      exact ⟨_, rfl, rfl, rfl⟩

/-- The statements up to `SimLoop` leave the input manager and the game state
alone. -/
theorem simulate_frame (sqrt : ℚ → ℚ) (world : OdeWorld) (inp : FrameInput) (p p1 : Program)
    (h : CGame.MainLoop.simulate sqrt world inp p = Except.ok p1) :
    p1.input = p.input ∧ p1.game.m_gameState = p.game.m_gameState := by
  unfold CGame.MainLoop.simulate at h
  split at h
  · cases h
  · rename_i p0 hp0
    obtain ⟨_, _, _, _, _, hin, hst, _⟩ := prepare_ok sqrt inp p p0 hp0
    obtain ⟨h1, h2⟩ := SimLoop_frame world _ _ _ h
    exact ⟨h1.trans hin, h2.trans hst⟩

/-- A completed `invoke` keeps the size of the heap. -/
theorem invoke_length (env env1 : Env) (q : ObjPtr) (f : CMarble → CMarble × List OdeCall)
    (h : env.invoke q f = Except.ok env1) : env1.heap.length = env.heap.length := by
  unfold Env.invoke at h
  split at h
  · cases h
  · simp only [Except.ok.injEq] at h
    subst h
    simp

/-- The method call `invoke` completes on a valid pointer. -/
theorem invoke_total (env : Env) (q : ObjPtr) (f : CMarble → CMarble × List OdeCall)
    (h : q < env.heap.length) : ∃ env1, env.invoke q f = Except.ok env1 := by
  unfold Env.invoke
  rw [List.getElem?_eq_getElem h]
  exact ⟨_, rfl⟩

/-- In a state other than `GS_Menu` and `GS_LoadLevel` a completed frame is made of
the statements up to `SimLoop`, the branch of the state and the end of the
frame. -/
theorem MainLoop_simulation (sqrt toFloat : ℚ → ℚ) (raw : Nat → CMarble) (world : OdeWorld)
    (inp : FrameInput) (p p1 : Program)
    (hmenu : p.game.m_gameState ≠ GameState.GS_Menu)
    (hload : p.game.m_gameState ≠ GameState.GS_LoadLevel)
    (h : CGame.MainLoop sqrt toFloat raw world inp p = Except.ok p1) :
    ∃ p2 p3, CGame.MainLoop.simulate sqrt world inp (CGame.MainLoop.musicKeys p) = Except.ok p2 ∧
      CGame.MainLoop.react sqrt world inp (p.render.getWidth / 2) (p.render.getHeight / 2) p2 =
        Except.ok p3 ∧
      CGame.MainLoop.finish toFloat world p3 = Except.ok p1 ∧
      p2.input = p.input ∧ p2.game.m_gameState = p.game.m_gameState := by
  obtain ⟨hg, _, hin, _, hr⟩ := musicKeys_fields p
  unfold CGame.MainLoop at h
  dsimp only at h
  rw [hg, hr] at h
  split at h
  · rename_i hs; exact absurd hs hmenu
  · rename_i hs; exact absurd hs hload
  · split at h
    · cases h
    · rename_i p2 hp2
      split at h
      · cases h
      · rename_i p3 hp3
        obtain ⟨hin2, hst2⟩ := simulate_frame sqrt world inp _ _ hp2
        exact ⟨p2, p3, hp2, hp3, h, by rw [hin2, hin], by rw [hst2, hg]⟩

/-- Claim C20, evaluated on `CreateMarbles(25)` as the first frame calls it on the
constructed game: the 25 placements go to the bodies 1 to 25, of which body 1 is
the striker, object 0, which existed before the call and is moved from
(-20, 1, 50) to (3, 1/2, 3); the marble created last, object 25 with body 26,
receives no placement and stays at (0, 0, 0). -/
theorem CreateMarbles_moves_striker :
    (newGamePlacementCalls exampleRawGame (fun _ => exampleRawMarble) 25).map
        (fun calls => calls.filterMap OdeCall.positionedBody) = some (List.range' 1 25) ∧
    (newGameCreateMarbles exampleRawGame (fun _ => exampleRawMarble) 25).toOption.map
        (fun r => (r.2.2.m_p1Tolley, r.2.2.m_marbleList)) = some (0, List.range 26) ∧
    (newGameCreateMarbles exampleRawGame (fun _ => exampleRawMarble) 25).toOption.map
        (fun r => r.2.1.heap.map (fun o => o.m_body)) = some (List.range' 1 26) ∧
    ((CGame.CGame exampleRawGame (fun _ => exampleRawMarble) Env.init).toOption.bind
        (fun s => s.1.heap[0]?)).map (fun o => o.m_position) = some ((-20 : ℚ), (1 : ℚ), (50 : ℚ)) ∧
    ((newGameCreateMarbles exampleRawGame (fun _ => exampleRawMarble) 25).toOption.bind
        (fun r => r.2.1.heap[0]?)).map (fun o => o.m_position) = some ((3 : ℚ), (1 / 2 : ℚ), (3 : ℚ)) ∧
    ((newGameCreateMarbles exampleRawGame (fun _ => exampleRawMarble) 25).toOption.bind
        (fun r => r.2.1.heap[25]?)).map (fun o => o.m_position) = some ((0 : ℚ), (0 : ℚ), (0 : ℚ)) := by
  decide!

/-! ## C21: the weight of `interpView` -/

/-- Counterexample to C21 as stated: with the timer at 0.9 and a frame delta of 0.5
`interpView` blends with the weight 1.4, which is above 1: the eye is put at
(4.2, 54, 0.2), beyond the overview position (3, 40, 3) as seen from the source
position (0, 5, 10). -/
theorem interpView_overshoot_counterexample :
    exampleSettling.m_viewInterp = 9 / 10 ∧ (0 : ℚ) ≤ exampleSettling.m_deltaT ∧
    (CGame.interpView exampleSettling).m_viewInterp = 7 / 5 ∧
    ¬ ((CGame.interpView exampleSettling).m_viewInterp ≤ 1) ∧
    (CGame.interpView exampleSettling).m_camera.eye = ⟨21 / 5, 54, 1 / 5⟩ := by
  decide!

/-- Claim C21, amended: while the view-interpolation timer is below 1,
`interpView` first adds the frame delta to the timer and then blends with the new
value `t` of the timer as weight: the eye is `source*(1-t) + dest*t` with `dest`
the overview position (3, 40, 3), the view centre `aim*(1-t) + striker*t`. For a
timer that was not negative and a delta that is not negative, `0 ≤ t < 1 + delta`;
there is no clamp, and `t` exceeds 1 whenever timer plus delta does. Once the
timer has reached 1 it stays as it is, the eye is exactly (3, 40, 3) and the view
centre is the striker position. -/
theorem interpView_weight (g : CGame) :
    (g.m_viewInterp < 1 →
      (CGame.interpView g).m_viewInterp = g.m_viewInterp + g.m_deltaT ∧
      (CGame.interpView g).m_camera.eye =
        ((CVector3.mk (g.m_tolleyPos.x + g.m_tolleyForward.x * 10) 5
            (g.m_tolleyPos.z + g.m_tolleyForward.z * 10)).mul
          (1 - (CGame.interpView g).m_viewInterp)).add
        ((CVector3.mk 3 40 3).mul (CGame.interpView g).m_viewInterp) ∧
      (CGame.interpView g).m_camera.center =
        (g.m_aimPos.mul (1 - (CGame.interpView g).m_viewInterp)).add
          (g.m_tolleyPos.mul (CGame.interpView g).m_viewInterp) ∧
      (0 ≤ g.m_viewInterp → 0 ≤ g.m_deltaT →
        0 ≤ (CGame.interpView g).m_viewInterp ∧
        (CGame.interpView g).m_viewInterp < 1 + g.m_deltaT ∧
        (1 < g.m_viewInterp + g.m_deltaT → 1 < (CGame.interpView g).m_viewInterp))) ∧
    (1 ≤ g.m_viewInterp →
      (CGame.interpView g).m_viewInterp = g.m_viewInterp ∧
      (CGame.interpView g).m_camera.eye = ⟨3, 40, 3⟩ ∧
      (CGame.interpView g).m_camera.center = g.m_tolleyPos) := by
  constructor
  · intro h
    have e : (CGame.interpView g).m_viewInterp = g.m_viewInterp + g.m_deltaT := by
      simp [CGame.interpView, h]
    refine ⟨e, ?_, ?_, ?_⟩
    · simp [CGame.interpView, h, CCamera.LookAt, CVector3.add, CVector3.mul]
    · simp [CGame.interpView, h, CCamera.LookAt, CVector3.add, CVector3.mul]
    · intro h0 hd
      rw [e]
      exact ⟨by linarith, by linarith, fun h1 => h1⟩
  · intro h
    have hn : ¬ g.m_viewInterp < 1 := not_lt.2 h
    refine ⟨?_, ?_, ?_⟩ <;> simp [CGame.interpView, hn, CCamera.LookAt]

/-- Witness for amended C21: the settling sample game, whose timer is below 1. -/
theorem interpView_weight_witness :
    exampleSettling.m_viewInterp < 1 ∧
    (CGame.interpView exampleSettling).m_viewInterp =
      exampleSettling.m_viewInterp + exampleSettling.m_deltaT ∧
    0 ≤ (CGame.interpView exampleSettling).m_viewInterp ∧
    (CGame.interpView exampleSettling).m_viewInterp < 1 + exampleSettling.m_deltaT :=
  have h : exampleSettling.m_viewInterp < 1 := by decide!
  ⟨h, ((interpView_weight exampleSettling).1 h).1,
    (((interpView_weight exampleSettling).1 h).2.2.2 (by decide!) (by decide!)).1,
    (((interpView_weight exampleSettling).1 h).2.2.2 (by decide!) (by decide!)).2.1⟩

/-! ## What a frame leaves alone -/

/-- A completed `CheckCollisions` leaves the throbber, the aim vectors and the view timer alone. -/
theorem CheckCollisions_scalars (world : OdeWorld) (b1 b2 : dBodyID) (p p1 : Program)
    (h : CGame.CheckCollisions world b1 b2 p = Except.ok p1) :
    p1.game.frameValues = p.game.frameValues ∧ p1.game.m_viewInterp = p.game.m_viewInterp := by
  unfold CGame.CheckCollisions at h
  dsimp only at h
  split at h
  · split at h
    · split at h <;>
      · simp only [Except.ok.injEq] at h
        subst h
        exact ⟨rfl, rfl⟩
    · cases h
  · cases h

/-- A completed callback leaves the throbber, the aim vectors and the view timer alone. -/
theorem NearCallback_scalars (world : OdeWorld) (c : Candidate) (p p1 : Program)
    (h : ODEManager.NearCallback world c p = Except.ok p1) :
    p1.game.frameValues = p.game.frameValues ∧ p1.game.m_viewInterp = p.game.m_viewInterp := by
  unfold ODEManager.NearCallback at h
  by_cases hskip : c.b1 ≠ 0 ∧ c.b2 ≠ 0 ∧ c.connected = true
  · simp only [if_pos hskip, Except.ok.injEq] at h
    subst h
    exact ⟨rfl, rfl⟩
  · simp only [if_neg hskip] at h
    split at h
    · cases h
    · rename_i p2 hp2
      simp only [Except.ok.injEq] at h
      subst h
      split at hp2
      · have h2 := CheckCollisions_scalars world _ _ _ _ hp2
        exact h2
      · simp only [Except.ok.injEq] at hp2
        subst hp2
        exact ⟨rfl, rfl⟩

/-- A completed collision pass leaves the throbber, the aim vectors and the view timer alone. -/
theorem collide_scalars (world : OdeWorld) :
    ∀ (cs : List Candidate) (p p1 : Program), ODEManager.collide world cs p = Except.ok p1 →
      p1.game.frameValues = p.game.frameValues ∧
        p1.game.m_viewInterp = p.game.m_viewInterp := by
  intro cs
  induction cs with
  | nil =>
    intro p p1 h
    simp only [ODEManager.collide, Except.ok.injEq] at h
    subst h
    exact ⟨rfl, rfl⟩
  | cons c rest ih =>
    intro p p1 h
    simp only [ODEManager.collide] at h
    split at h
    · cases h
    · rename_i p2 hp2
      obtain ⟨h1, h2⟩ := NearCallback_scalars world c p p2 hp2
      obtain ⟨h3, h4⟩ := ih p2 p1 h
      exact ⟨h3.trans h1, h4.trans h2⟩

/-- A completed `SimLoop` leaves the throbber, the aim vectors and the view timer alone. -/
theorem SimLoop_scalars (world : OdeWorld) (pause : Bool) (p p1 : Program)
    (h : ODEManager.SimLoop world pause p = Except.ok p1) :
    p1.game.frameValues = p.game.frameValues ∧ p1.game.m_viewInterp = p.game.m_viewInterp := by
  unfold ODEManager.SimLoop at h
  cases pause with
  | true =>
    simp only [Bool.not_true, Bool.false_eq_true, if_false, Except.ok.injEq] at h
    subst h; exact ⟨rfl, rfl⟩
  | false =>
    simp only [Bool.not_false, if_true] at h
    split at h
    · cases h
    · rename_i p2 hp2
      have h2 := collide_scalars world _ _ _ hp2
      simp only [Except.ok.injEq] at h
      subst h
      exact h2

/-- The end of the frame leaves the throbber, the aim vectors and the view timer alone. -/
theorem finish_scalars (toFloat : ℚ → ℚ) (world : OdeWorld) (p p1 : Program)
    (h : CGame.MainLoop.finish toFloat world p = Except.ok p1) :
    p1.game.frameValues = p.game.frameValues ∧ p1.game.m_viewInterp = p.game.m_viewInterp := by
  unfold CGame.MainLoop.finish at h
  split at h
  · cases h
  · dsimp only at h
    split at h
    · cases h
    · simp only [Except.ok.injEq] at h
      subst h; exact ⟨rfl, rfl⟩

/-- The arrow keys leave the throbber, the aim vectors and the view timer alone. -/
theorem arrowKeys_scalars (im : CInputManager) (speed : ℚ) (g : CGame) :
    (CGame.MainLoop.arrowKeys im speed g).frameValues = g.frameValues ∧
    (CGame.MainLoop.arrowKeys im speed g).m_viewInterp = g.m_viewInterp := by
  unfold CGame.MainLoop.arrowKeys
  dsimp only
  split <;> split <;> split <;> split <;> split <;> exact ⟨rfl, rfl⟩

/-- The camera interpolation leaves the throbber and the aim vectors alone. -/
theorem interpView_throbber (g : CGame) :
    (CGame.interpView g).frameValues = g.frameValues := by
  unfold CGame.interpView
  dsimp only
  split <;> rfl

/-- The state branches leave the throbber and the aim vectors alone. -/
theorem react_throbber (sqrt : ℚ → ℚ) (world : OdeWorld) (inp : FrameInput)
    (width height : Int) (p p1 : Program)
    (h : CGame.MainLoop.react sqrt world inp width height p = Except.ok p1) :
    p1.game.frameValues = p.game.frameValues := by
  unfold CGame.MainLoop.react at h
  split at h
  · unfold CGame.MainLoop.dynamicsSettle at h
    dsimp only at h
    split at h
    · cases h
    · rename_i r hr
      simp only [Except.ok.injEq] at h
      subst h
      have hi := interpView_throbber p.game
      cases hr1 : r.1
      · simp only [Bool.false_eq_true, if_false]
        exact hi
      · simp only [if_true]
        exact hi
  · unfold CGame.MainLoop.aimShot at h
    dsimp only at h
    split at h
    · cases h
    · rename_i r hr
      split at h
      · cases h
      · simp only [Except.ok.injEq] at h
        subst h
        show (CGame.MainLoop.arrowKeys _ _ _).frameValues = _
        rw [(arrowKeys_scalars _ _ _).1]
        cases p.input.MouseState LEFT_MB <;> cases r.1 <;>
          cases p.input.KeyState VK_SPACE <;> rfl
  · unfold CGame.MainLoop.shotDetect at h
    cases hm : p.input.MouseState LEFT_MB with
    | true =>
      simp only [hm, Bool.not_true, Bool.false_eq_true, if_false, Except.ok.injEq] at h
      subst h
      rfl
    | false =>
      simp only [hm, Bool.not_false, if_true] at h
      split at h
      · cases h
      · rename_i p2 hp2
        split at hp2
        · cases hp2
        · rename_i s hs
          simp only [Except.ok.injEq] at hp2 h
          subst hp2
          subst h
          unfold CGame.ShootMarble at hs
          dsimp only at hs
          split at hs
          · cases hs
          · split at hs
            · cases hs
            · split at hs
              · cases hs
              · simp only [Except.ok.injEq] at hs
                subst hs
                rfl
  · simp only [Except.ok.injEq] at h
    subst h; rfl

/-- In a completed frame of a state other than `GS_Menu` and `GS_LoadLevel` the
throbber, its sign and the aim vectors end as the statements before `SimLoop` have
stored them. -/
theorem MainLoop_frameValues (sqrt toFloat : ℚ → ℚ) (raw : Nat → CMarble) (world : OdeWorld)
    (inp : FrameInput) (p p1 : Program)
    (hmenu : p.game.m_gameState ≠ GameState.GS_Menu)
    (hload : p.game.m_gameState ≠ GameState.GS_LoadLevel)
    (h : CGame.MainLoop sqrt toFloat raw world inp p = Except.ok p1) :
    ∃ p0, CGame.MainLoop.prepare sqrt inp p = Except.ok p0 ∧
      p1.game.frameValues = p0.game.frameValues := by
  obtain ⟨p2, p3, hp2, hp3, hfin, _, _⟩ :=
    MainLoop_simulation sqrt toFloat raw world inp p p1 hmenu hload h
  obtain ⟨hg, _, _, ht, _⟩ := musicKeys_fields p
  unfold CGame.MainLoop.simulate at hp2
  split at hp2
  · cases hp2
  · rename_i q1 hq1
    obtain ⟨p0, hp0, hg0, _⟩ := prepare_congr sqrt inp p _ q1 hg ht hq1
    refine ⟨p0, hp0, ?_⟩
    rw [(finish_scalars toFloat world p3 p1 hfin).1, react_throbber sqrt world inp _ _ p2 p3 hp3,
      (SimLoop_scalars world _ _ _ hp2).1, hg0]

/-! ## C22: the throbber -/

/-- In a completed frame of a state other than `GS_Menu` and `GS_LoadLevel` the
throbber and its sign change by the two throbber statements, for the delta that the
timer gives in that frame, and by nothing else. -/
theorem MainLoop_throbber (sqrt toFloat : ℚ → ℚ) (raw : Nat → CMarble) (world : OdeWorld)
    (inp : FrameInput) (p p1 : Program)
    (hmenu : p.game.m_gameState ≠ GameState.GS_Menu)
    (hload : p.game.m_gameState ≠ GameState.GS_LoadLevel)
    (h : CGame.MainLoop sqrt toFloat raw world inp p = Except.ok p1) :
    (p1.game.m_throbber, p1.game.m_throbIncrSign) =
      CGame.MainLoop.throb (p.timer.FrameUpdate inp.counter).getDeltaT
        (p.game.m_throbber, p.game.m_throbIncrSign) := by
  obtain ⟨p0, hp0, hv⟩ := MainLoop_frameValues sqrt toFloat raw world inp p p1 hmenu hload h
  have h1 := congrArg (fun v : ℚ × ℚ × CVector3 × CVector3 => v.1) hv
  have h2 := congrArg (fun v : ℚ × ℚ × CVector3 × CVector3 => v.2.1) hv
  simp only [CGame.frameValues] at h1 h2
  rw [h1, h2]
  exact (prepare_ok sqrt inp p p0 hp0).2.2.2.2.2.2.2.2.2

/-- Claim C22, as the code has it: the throbber does not stay within
`[-d, 1+d]`. With `d = 1` and the frame deltas 1, 1, 0.01 and 1, all between 0 and
`d`, the throbber is 1, 2, 1.99 and then 2.99, which is above `1 + d = 2`: the third
frame starts outside the range and flips the sign to -1, the fourth starts outside
the range as well and flips it back to +1. -/
theorem throbber_drift_counterexample :
    (∀ x ∈ [(1 : ℚ), 1, 1 / 100, 1], 0 ≤ x ∧ x ≤ 1) ∧
    throbberAfter [] = (0, 1) ∧
    throbberAfter [1] = (1, 1) ∧ throbberAfter [1, 1] = (2, 1) ∧
    throbberAfter [1, 1, 1 / 100] = (199 / 100, -1) ∧
    throbberAfter [1, 1, 1 / 100, 1] = (299 / 100, 1) ∧
    ¬ ((throbberAfter [1, 1, 1 / 100, 1]).1 ≤ 1 + 1) := by
  decide!

/-! ## C23, C24: what the constructors allocate and write -/

/-- Claim C23, as the code has it: `CMarble::CMarble` creates one body and one
sphere of radius 0.5 and attaches that sphere to the body. `CTolley::CTolley` runs
after `CMarble::CMarble` and creates a second sphere, of radius 0.75: a striker
has one body and two spheres, both attached to the body, and `m_geom` holds the
second sphere only. -/
theorem CTolley_constructs_two_shapes (raw : CMarble) (env : Env) :
    (CMarble.CMarble raw env).2.odeCalls = env.odeCalls ++
      [OdeCall.dBodyCreate env.nextBody,
       OdeCall.dCreateSphere env.nextGeom MARBLE_RADIUS,
       OdeCall.dGeomSetBody env.nextGeom env.nextBody,
       OdeCall.dBodySetMass env.nextBody 20.0 (MARBLE_RADIUS / 2),
       OdeCall.dBodySetPosition env.nextBody 0.0 0.0 0.0] ∧
    (CMarble.CMarble raw env).1.m_body = env.nextBody ∧
    (CMarble.CMarble raw env).1.m_geom = env.nextGeom ∧
    (CMarble.CMarble raw env).1.m_radius = 0.5 ∧
    (CTolley.CTolley raw env).2.odeCalls = env.odeCalls ++
      [OdeCall.dBodyCreate env.nextBody,
       OdeCall.dCreateSphere env.nextGeom MARBLE_RADIUS,
       OdeCall.dGeomSetBody env.nextGeom env.nextBody,
       OdeCall.dBodySetMass env.nextBody 20.0 (MARBLE_RADIUS / 2),
       OdeCall.dBodySetPosition env.nextBody 0.0 0.0 0.0,
       OdeCall.dCreateSphere (env.nextGeom + 1) TOLLEY_RADIUS,
       OdeCall.dGeomSetBody (env.nextGeom + 1) env.nextBody,
       OdeCall.dBodySetMass env.nextBody 20.0 (TOLLEY_RADIUS / 2),
       OdeCall.dBodySetPosition env.nextBody 0.0 0.0 0.0] ∧
    (CTolley.CTolley raw env).1.m_body = env.nextBody ∧
    (CTolley.CTolley raw env).1.m_geom = env.nextGeom + 1 ∧
    (CTolley.CTolley raw env).1.m_radius = 0.75 := by
  refine ⟨?_, ?_, ?_, ?_, ?_, ?_, ?_, ?_⟩ <;>
    simp [CTolley.CTolley, CMarble.CMarble, CMarble.constructSphere, CGameObject.CGameObject,
      ODEManager.createBody, ODEManager.createSphere, CMarble.setPos, CMarble.setColor,
      MARBLE_RADIUS, TOLLEY_RADIUS]

/-- Claim C24, as the code has it: no constructor writes `ID`. The field keeps
the contents of the raw memory of the object, so of two marbles constructed one
after the other on raw memory holding the same value both have that value as
`ID`; the two marbles that `CreateObject` makes on the sample raw memory both have
`ID` 7. -/
theorem constructor_leaves_ID (raw1 raw2 : CMarble) (env : Env) :
    (CGameObject.CGameObject raw1 env).1.ID = raw1.ID ∧
    (CMarble.CMarble raw1 env).1.ID = raw1.ID ∧
    (CTolley.CTolley raw1 env).1.ID = raw1.ID ∧
    (CMarble.CMarble raw2 (CMarble.CMarble raw1 env).2).1.ID = raw2.ID ∧
    ((MgrOp.run (fun _ => exampleRawMarble)
        [MgrOp.CreateObject Marble_Type, MgrOp.CreateObject Marble_Type]
        ((Env.init, CObjectManager.CObjectManager), [])).toOption.map
      (fun r => r.1.1.heap.map (fun o => o.ID))) = some [7, 7] := by
  refine ⟨rfl, rfl, rfl, rfl, ?_⟩
  decide!

/-! ## C25, C26: the damping of `Update` -/

/-- Counterexample to C25 as stated: outside the ring the striker and a marble take
the same linear coefficient, -3.0, so the magnitude of the striker's is not the
greater one. -/
theorem Update_coefficients_counterexample :
    outsideRing exampleFloat exampleOutside ∧ outsideRing exampleFloat exampleOutsideTolley ∧
    (CMarble.Update exampleFloat (constBodies (25, 0.5, 0) (0, 0, 0) (0, 0, 0)) exampleOutside).dAccel = -3.0 ∧
    (CTolley.Update exampleFloat (constBodies (25, 0.75, 0) (0, 0, 0) (0, 0, 0)) exampleOutsideTolley).dAccel
      = -3.0 ∧
    ¬ (|(CTolley.Update exampleFloat (constBodies (25, 0.75, 0) (0, 0, 0) (0, 0, 0)) exampleOutsideTolley).dAccel|
        > |(CMarble.Update exampleFloat (constBodies (25, 0.5, 0) (0, 0, 0) (0, 0, 0)) exampleOutside).dAccel|) := by
  unfold outsideRing
  refine ⟨by decide!, by decide!, by decide!, by decide!, by decide!⟩

/-- Claim C25, amended: inside the ring the magnitudes of both coefficients that
`CTolley::Update` chooses (angular 0.5, linear 1.5) are strictly greater than those
that `CMarble::Update` chooses (0.05 and 1.0); outside the ring the magnitude of
the angular coefficient is strictly greater (0.3 against 0.1) and the linear
coefficients are equal (both -3.0). -/
theorem Update_coefficients (toFloat : ℚ → ℚ) (ode1 ode2 : OdeBodies)
    (m t : CMarble) :
    (¬ outsideRing toFloat m → ¬ outsideRing toFloat t →
      (CMarble.Update toFloat ode1 m).dAngAccel = -0.05 ∧ (CMarble.Update toFloat ode1 m).dAccel = -1.0 ∧
      (CTolley.Update toFloat ode2 t).dAngAccel = -0.5 ∧ (CTolley.Update toFloat ode2 t).dAccel = -1.5 ∧
      |(CTolley.Update toFloat ode2 t).dAngAccel| > |(CMarble.Update toFloat ode1 m).dAngAccel| ∧
      |(CTolley.Update toFloat ode2 t).dAccel| > |(CMarble.Update toFloat ode1 m).dAccel|) ∧
    (outsideRing toFloat m → outsideRing toFloat t →
      (CMarble.Update toFloat ode1 m).dAngAccel = -0.1 ∧ (CMarble.Update toFloat ode1 m).dAccel = -3.0 ∧
      (CTolley.Update toFloat ode2 t).dAngAccel = -0.3 ∧ (CTolley.Update toFloat ode2 t).dAccel = -3.0 ∧
      |(CTolley.Update toFloat ode2 t).dAngAccel| > |(CMarble.Update toFloat ode1 m).dAngAccel| ∧
      (CTolley.Update toFloat ode2 t).dAccel = (CMarble.Update toFloat ode1 m).dAccel) := by
  unfold outsideRing
  constructor
  · intro hm ht
    have e1 : (CMarble.Update toFloat ode1 m).dAngAccel = -0.05 := by simp [CMarble.Update, hm]
    have e2 : (CMarble.Update toFloat ode1 m).dAccel = -1.0 := by simp [CMarble.Update, hm]
    have e3 : (CTolley.Update toFloat ode2 t).dAngAccel = -0.5 := by simp [CTolley.Update, ht]
    have e4 : (CTolley.Update toFloat ode2 t).dAccel = -1.5 := by simp [CTolley.Update, ht]
    refine ⟨e1, e2, e3, e4, ?_, ?_⟩
    · rw [e1, e3]; norm_num [abs_of_neg]
    · rw [e2, e4]; norm_num [abs_of_neg]
  · intro hm ht
    have e1 : (CMarble.Update toFloat ode1 m).dAngAccel = -0.1 := by simp [CMarble.Update, hm]
    have e2 : (CMarble.Update toFloat ode1 m).dAccel = -3.0 := by simp [CMarble.Update, hm]
    have e3 : (CTolley.Update toFloat ode2 t).dAngAccel = -0.3 := by simp [CTolley.Update, ht]
    have e4 : (CTolley.Update toFloat ode2 t).dAccel = -3.0 := by simp [CTolley.Update, ht]
    refine ⟨e1, e2, e3, e4, ?_, ?_⟩
    · rw [e1, e3]; norm_num [abs_of_neg]
    · rw [e2, e4]

/-- Witness for amended C25: the sample marble and the sample striker, both inside
the ring. -/
theorem Update_coefficients_witness :
    ¬ outsideRing exampleFloat exampleMarble ∧ ¬ outsideRing exampleFloat exampleTolley ∧
    |(CTolley.Update exampleFloat (constBodies (0, 0.75, 0) (0, 0, 0) (0, 0, 0)) exampleTolley).dAngAccel| >
      |(CMarble.Update exampleFloat (constBodies (0, 0.5, 0) (0, 0, 0) (0, 0, 0)) exampleMarble).dAngAccel| ∧
    |(CTolley.Update exampleFloat (constBodies (0, 0.75, 0) (0, 0, 0) (0, 0, 0)) exampleTolley).dAccel| >
      |(CMarble.Update exampleFloat (constBodies (0, 0.5, 0) (0, 0, 0) (0, 0, 0)) exampleMarble).dAccel| :=
  have hm : ¬ outsideRing exampleFloat exampleMarble := by
    unfold outsideRing; decide!
  have ht : ¬ outsideRing exampleFloat exampleTolley := by
    unfold outsideRing; decide!
  ⟨hm, ht,
    ((Update_coefficients exampleFloat (constBodies (0, 0.5, 0) (0, 0, 0) (0, 0, 0))
      (constBodies (0, 0.75, 0) (0, 0, 0) (0, 0, 0)) exampleMarble exampleTolley).1 hm ht).2.2.2.2⟩

/-- Counterexample to C26 as stated: the sample marble lies on the floor, its body
at height 0.5, which is its radius, and rolls with linear velocity (1, 0, 0) and
angular velocity (0, 0, 1); its `Update` adds the torque and no force. -/
theorem Update_marble_force_counterexample :
    ((constBodies (0, 0.5, 0) (1, 0, 0) (0, 0, 1)).dBodyGetPosition exampleMarble.m_body).2.1 ≤
      exampleMarble.m_radius ∧
    (CMarble.Update exampleFloat (constBodies (0, 0.5, 0) (1, 0, 0) (0, 0, 1)) exampleMarble).calls =
      [OdeCall.dBodyAddTorque 1 0 0 (-0.05)] := by
  decide!

/-- Claim C26, amended: `Update` applies rolling damping exactly when the vertical
position, read from the body in that `Update`, is at or below the radius. The
striker (`CTolley::Update`) then adds a torque equal to a negative coefficient
times the angular velocity and a force equal to a negative coefficient times the
horizontal linear velocity (vx, 0, vz); a marble (`CMarble::Update`) then adds the
torque only, no force. Above the radius neither adds anything. -/
theorem Update_rolling_damping (toFloat : ℚ → ℚ) (ode : OdeBodies) (m : CMarble) :
    (CTolley.Update toFloat ode m).calls =
      (if (ode.dBodyGetPosition m.m_body).2.1 ≤ m.m_radius then
        [OdeCall.dBodyAddTorque m.m_body
          ((CTolley.Update toFloat ode m).dAngAccel * (ode.dBodyGetAngularVel m.m_body).1)
          ((CTolley.Update toFloat ode m).dAngAccel * (ode.dBodyGetAngularVel m.m_body).2.1)
          ((CTolley.Update toFloat ode m).dAngAccel * (ode.dBodyGetAngularVel m.m_body).2.2),
         OdeCall.dBodyAddForce m.m_body
          ((ode.dBodyGetLinearVel m.m_body).1 * (CTolley.Update toFloat ode m).dAccel) 0
          ((ode.dBodyGetLinearVel m.m_body).2.2 * (CTolley.Update toFloat ode m).dAccel)]
       else []) ∧
    (CTolley.Update toFloat ode m).dAngAccel < 0 ∧ (CTolley.Update toFloat ode m).dAccel < 0 ∧
    (CMarble.Update toFloat ode m).calls =
      (if (ode.dBodyGetPosition m.m_body).2.1 ≤ m.m_radius then
        [OdeCall.dBodyAddTorque m.m_body
          ((CMarble.Update toFloat ode m).dAngAccel * (ode.dBodyGetAngularVel m.m_body).1)
          ((CMarble.Update toFloat ode m).dAngAccel * (ode.dBodyGetAngularVel m.m_body).2.1)
          ((CMarble.Update toFloat ode m).dAngAccel * (ode.dBodyGetAngularVel m.m_body).2.2)]
       else []) ∧
    (CMarble.Update toFloat ode m).dAngAccel < 0 ∧
    (CTolley.Update toFloat ode m).obj.m_position = ode.dBodyGetPosition m.m_body ∧
    (CMarble.Update toFloat ode m).obj.m_position = ode.dBodyGetPosition m.m_body := by
  by_cases h2 : toFloat (m.m_lastPosition.1 * m.m_lastPosition.1 +
      m.m_lastPosition.2.2 * m.m_lastPosition.2.2) > RING_RADIUS * RING_RADIUS <;>
  by_cases h3 : (ode.dBodyGetPosition m.m_body).2.1 ≤ m.m_radius <;>
  refine ⟨?_, ?_, ?_, ?_, ?_, ?_, ?_⟩ <;>
  simp [CMarble.Update, CTolley.Update, h2, h3] <;> norm_num

/-! ## C27: the placement loop of `CreateMarbles` -/

/-- The grid position of index `i*c + j` with `j < c` is the one the loop computes
from `i` and `j`. -/
theorem gridPosition_eq (c : Nat) (d : ℚ) (i j : Nat) (hj : j < c) :
    gridPosition c d (i * c + j) =
      (((((c / 2 : Nat) : Int) - (i : Int) : Int) : ℚ) * d, d / 2,
       ((((c / 2 : Nat) : Int) - (j : Int) : Int) : ℚ) * d) := by
  have hc : 0 < c := by omega
  have h1 : (i * c + j) / c = i := by
    rw [Nat.add_comm, Nat.add_mul_div_right _ _ hc, Nat.div_eq_of_lt hj, Nat.zero_add]
  have h2 : (i * c + j) % c = j := by
    rw [Nat.add_comm, Nat.add_mul_mod_self_right, Nat.mod_eq_of_lt hj]
  simp only [gridPosition, h1, h2]

/-- Distinct indices have distinct grid positions when the spacing is not 0. -/
theorem gridPosition_injective (c : Nat) (d : ℚ) (hd : d ≠ 0) (k k1 : Nat)
    (h : gridPosition c d k = gridPosition c d k1) : k = k1 := by
  simp only [gridPosition, Prod.mk.injEq] at h
  obtain ⟨hx, _, hz⟩ := h
  have hx1 := mul_right_cancel₀ hd hx
  have hz1 := mul_right_cancel₀ hd hz
  have hx2 : ((c / 2 : Nat) : Int) - ((k / c : Nat) : Int) =
      ((c / 2 : Nat) : Int) - ((k1 / c : Nat) : Int) := by exact_mod_cast hx1
  have hz2 : ((c / 2 : Nat) : Int) - ((k % c : Nat) : Int) =
      ((c / 2 : Nat) : Int) - ((k1 % c : Nat) : Int) := by exact_mod_cast hz1
  have hdiv : k / c = k1 / c := by omega
  have hmod : k % c = k1 % c := by omega
  rw [← Nat.div_add_mod k c, ← Nat.div_add_mod k1 c, hdiv, hmod]

/-- The placements of `a + b` indices are those of the first `a` followed by those
of the next `b`. -/
theorem placeFrom_add (marbleList : List ObjPtr) (c : Nat) (d : ℚ) (b : Nat) :
    ∀ (a z : Nat) (env env2 : Env), placeFrom marbleList c d (a + b) z env = Except.ok env2 →
      ∃ env1, placeFrom marbleList c d a z env = Except.ok env1 ∧
        placeFrom marbleList c d b (z + a) env1 = Except.ok env2 := by
  intro a
  induction a with
  | zero =>
    intro z env env2 h
    rw [Nat.zero_add] at h
    exact ⟨env, rfl, h⟩
  | succ a ih =>
    intro z env env2 h
    rw [Nat.add_right_comm] at h
    simp only [placeFrom] at h ⊢
    split at h
    · cases h
    · rename_i p hp
      split at h
      · cases h
      · rename_i env1 he
        obtain ⟨env3, h3, h4⟩ := ih (z + 1) env1 env2 h
        refine ⟨env3, h3, ?_⟩
        rw [Nat.add_assoc, Nat.add_comm 1 a] at h4
        exact h4

/-- The placements complete when the indices are in the list and the pointers
stored there are valid. -/
theorem placeFrom_total (marbleList : List ObjPtr) (c : Nat) (d : ℚ) :
    ∀ (n z : Nat) (env : Env),
      (∀ k, z ≤ k → k < z + n → ∃ p, marbleList[k]? = some p ∧ p < env.heap.length) →
      ∃ env1, placeFrom marbleList c d n z env = Except.ok env1 ∧
        env1.heap.length = env.heap.length := by
  intro n
  induction n with
  | zero => intro z env _; exact ⟨env, rfl, rfl⟩
  | succ n ih =>
    intro z env h
    obtain ⟨p, hp, hlt⟩ := h z (Nat.le_refl z) (by omega)
    obtain ⟨env1, he⟩ := invoke_total env p (fun m => m.setPos (gridPosition c d z).1
      (gridPosition c d z).2.1 (gridPosition c d z).2.2) hlt
    have hlen := invoke_length _ _ _ _ he
    obtain ⟨env2, h2, hlen2⟩ := ih (z + 1) env1 (by
      intro k hk1 hk2
      obtain ⟨q, hq, hqlt⟩ := h k (by omega) (by omega)
      exact ⟨q, hq, by rw [hlen]; exact hqlt⟩)
    refine ⟨env2, ?_, by rw [hlen2, hlen]⟩
    simp only [placeFrom, hp, he]
    exact h2

/-- The inner loop from column `j` on, when the last placement falls into this
row: it makes the remaining placements and returns from the function. -/
theorem inner_returns (marbleList : List ObjPtr) (number c : Nat) (x : ℚ) (i : Nat) :
    ∀ (rem j z : Nat) (env env1 : Env), z = i * c + j → j + rem ≤ c → z < number →
      number - z ≤ rem →
      placeFrom marbleList c x (number - z) z env = Except.ok env1 →
      CGame.CreateMarbles.inner marbleList number c x i rem j z env =
        Except.ok (true, number, env1) := by
  intro rem
  induction rem with
  | zero => intro j z env env1 _ _ hz hle _; omega
  | succ rem ih =>
    intro j z env env1 hzij hj hz hle h
    obtain ⟨k, hk⟩ : ∃ k, number - z = k + 1 := ⟨number - z - 1, by omega⟩
    rw [hk] at h
    simp only [placeFrom] at h
    simp only [CGame.CreateMarbles.inner]
    split at h
    · cases h
    · rename_i q hq
      try rw [hq]
      try dsimp only
      have hpos := gridPosition_eq c x i j (by omega)
      rw [← hzij] at hpos
      rw [hpos] at h
      dsimp only at h
      split at h
      · cases h
      · rename_i env2 he
        try rw [he]
        try dsimp only
        by_cases hret : z + 1 ≥ number
        · rw [if_pos hret]
          have hk0 : k = 0 := by omega
          subst hk0
          simp only [placeFrom, Except.ok.injEq] at h
          subst h
          have : z + 1 = number := by omega
          rw [this]
        · rw [if_neg hret]
          have hk2 : number - (z + 1) = k := by omega
          exact ih (j + 1) (z + 1) env2 env1 (by omega) (by omega) (by omega) (by omega)
            (by rw [hk2]; exact h)

/-- The inner loop from column `j` on, when the last placement lies beyond this
row: it fills the row and does not return from the function. -/
theorem inner_continues (marbleList : List ObjPtr) (number c : Nat) (x : ℚ) (i : Nat) :
    ∀ (rem j z : Nat) (env env1 : Env), z = i * c + j → j + rem ≤ c →
      rem < number - z →
      placeFrom marbleList c x rem z env = Except.ok env1 →
      CGame.CreateMarbles.inner marbleList number c x i rem j z env =
        Except.ok (false, z + rem, env1) := by
  intro rem
  induction rem with
  | zero =>
    intro j z env env1 _ _ _ h
    simp only [placeFrom, Except.ok.injEq] at h
    subst h
    rfl
  | succ rem ih =>
    intro j z env env1 hzij hj hlt h
    simp only [placeFrom] at h
    simp only [CGame.CreateMarbles.inner]
    split at h
    · cases h
    · rename_i q hq
      try rw [hq]
      try dsimp only
      have hpos := gridPosition_eq c x i j (by omega)
      rw [← hzij] at hpos
      rw [hpos] at h
      dsimp only at h
      split at h
      · cases h
      · rename_i env2 he
        try rw [he]
        try dsimp only
        have hret : ¬ (z + 1 ≥ number) := by omega
        rw [if_neg hret]
        have := ih (j + 1) (z + 1) env2 env1 (by omega) (by omega) (by omega) h
        rw [this, Nat.add_assoc, Nat.add_comm 1 rem]

/-- The outer loop from row `i` on, when the rows left hold the last placement: it
makes the remaining placements in order and leaves through the `return` inside the
inner loop. -/
theorem outer_returns (marbleList : List ObjPtr) (number c : Nat) (x : ℚ) :
    ∀ (rem i z : Nat) (env env1 : Env), z = i * c → z < number → number - z ≤ rem * c →
      placeFrom marbleList c x (number - z) z env = Except.ok env1 →
      CGame.CreateMarbles.outer marbleList number c x rem i z env =
        Except.ok (true, number, env1) := by
  intro rem
  induction rem with
  | zero => intro i z env env1 _ hz hle _; omega
  | succ rem ih =>
    intro i z env env1 hzi hz hle h
    simp only [CGame.CreateMarbles.outer]
    by_cases hrow : number - z ≤ c
    · rw [inner_returns marbleList number c x i c 0 z env env1 (by omega) (by omega) hz hrow h]
      simp
    · have hsplit : number - z = c + (number - (z + c)) := by omega
      rw [hsplit] at h
      obtain ⟨env2, h2, h3⟩ := placeFrom_add marbleList c x _ c z env env1 h
      rw [inner_continues marbleList number c x i c 0 z env env2 (by omega) (by omega)
        (by omega) h2]
      simp only [Bool.false_eq_true, if_false]
      have hmul : (rem + 1) * c = rem * c + c := Nat.succ_mul rem c
      exact ih (i + 1) (z + c) env2 env1 (by rw [Nat.succ_mul, hzi]) (by omega) (by omega) h3

/-- What the factory makes for `Marble_Type` when the tag stands for `CMarble`: a
new heap cell holding the constructed marble. -/
theorem Create_marble (f : List (String × Bool)) (raw : Nat → CMarble) (env : Env)
    (hf : f.find? (fun e => e.1 == Marble_Type) = some (Marble_Type, false)) :
    ∃ env1 o, ObjFactory.Create f raw Marble_Type env = (some env.heap.length, env1) ∧
      env1.heap = env.heap ++ [o] ∧ o.m_radius = MARBLE_RADIUS := by
  have hheap : (CMarble.CMarble (raw env.heap.length) env).2.heap = env.heap := by
    simp [CMarble.CMarble, CGameObject.CGameObject, CMarble.constructSphere,
      ODEManager.createBody, ODEManager.createSphere, CMarble.setPos, CMarble.setColor]
  unfold ObjFactory.Create
  rw [hf]
  refine ⟨((CMarble.CMarble (raw env.heap.length) env).2.alloc
    (CMarble.CMarble (raw env.heap.length) env).1).2,
    (CMarble.CMarble (raw env.heap.length) env).1, ?_, ?_, ?_⟩
  · simp only [Bool.false_eq_true, if_false, Env.alloc, hheap]
  · simp only [Env.alloc, hheap]
  · simp [CMarble.CMarble, CGameObject.CGameObject, CMarble.constructSphere,
      ODEManager.createBody, ODEManager.createSphere, CMarble.setPos, CMarble.setColor]

/-- The first loop of `CreateMarbles` completes on a factory that knows
`Marble_Type`: it appends `n` new marbles of radius `MARBLE_RADIUS` to the heap and
their pointers, in order, to the marble list. -/
theorem create_spec (raw : Nat → CMarble) :
    ∀ (n : Nat) (s : Env × CGame),
      s.2.m_objectManager.CGameObjectFactory.find? (fun e => e.1 == Marble_Type) =
        some (Marble_Type, false) →
      ∃ s1 l, CGame.CreateMarbles.create raw n s = Except.ok s1 ∧
        s1.1.heap = s.1.heap ++ l ∧ l.length = n ∧ (∀ o ∈ l, o.m_radius = MARBLE_RADIUS) ∧
        s1.2.m_marbleList = s.2.m_marbleList ++ List.range' s.1.heap.length n := by
  intro n
  induction n with
  | zero =>
    intro s _
    exact ⟨s, [], rfl, by simp, rfl, by simp, by simp⟩
  | succ n ih =>
    intro s hf
    obtain ⟨env1, o, hc, hheap, hrad⟩ := Create_marble _ raw s.1 hf
    have hobj : (ObjFactory.Create s.2.m_objectManager.CGameObjectFactory raw Marble_Type s.1).1 =
        some s.1.heap.length := by rw [hc]
    obtain ⟨o2, _, hco⟩ := CreateObject_some s.2.m_objectManager raw Marble_Type s.1 _ hobj
    rw [hc] at hco
    obtain ⟨s1, l, h1, h2, h3, h4, h5⟩ := ih
      (env1, { s.2 with
        m_objectManager :=
          { s.2.m_objectManager with
              m_objectList := s.2.m_objectManager.m_objectList ++ [s.1.heap.length],
              m_objectIDMap := s.2.m_objectManager.m_objectIDMap.assign o2.m_body
                (some s.1.heap.length) },
        m_marbleList := s.2.m_marbleList ++ [s.1.heap.length] }) hf
    refine ⟨s1, o :: l, ?_, ?_, ?_, ?_, ?_⟩
    · simp only [CGame.CreateMarbles.create, hco]
      exact h1
    · rw [h2]
      show env1.heap ++ l = _
      rw [hheap]
      simp
    · simp [h3]
    · intro o3 ho3
      rcases List.mem_cons.1 ho3 with h | h
      · rw [h]; exact hrad
      · exact h4 o3 h
    · rw [h5]
      show (s.2.m_marbleList ++ [s.1.heap.length]) ++ List.range' env1.heap.length n = _
      rw [hheap]
      simp [List.range'_succ]

/-- Claim C27: for every `n ≥ 1`, on a game whose marble list holds exactly the
striker and whose factory is the constructed one, `CreateMarbles(n)` completes: its
first loop leaves a list of `n + 1` valid pointers, and its placement loop is `n`
calls of `setPos` on the list indices 0, 1, ..., `n-1` in that order, the call on
index `k` at `gridPosition c d k` with `c = floor(sqrt(n)) + 1` and `d` twice the
marble radius. These positions are pairwise distinct, every index used is inside
the list, `c*c > n`, the loops leave through the `return` inside the inner loop,
and the function returns true. -/
theorem CreateMarbles_placement_loop (raw : Nat → CMarble) (n : Nat) (s : Env × CGame)
    (hn : 1 ≤ n) (hlist : s.2.m_marbleList = [s.2.m_p1Tolley])
    (hptr : s.2.m_p1Tolley < s.1.heap.length)
    (hfac : s.2.m_objectManager.CGameObjectFactory =
      CObjectManager.CObjectManager.CGameObjectFactory) :
    ∃ s1 env1, CGame.CreateMarbles.create raw n s = Except.ok s1 ∧
      s1.2.m_marbleList.length = n + 1 ∧
      (∀ k, k < n → ∃ q, s1.2.m_marbleList[k]? = some q ∧ q < s1.1.heap.length) ∧
      n < (Nat.sqrt n + 1) * (Nat.sqrt n + 1) ∧
      placeFrom s1.2.m_marbleList (Nat.sqrt n + 1) (MARBLE_RADIUS * 2) n 0 s1.1 =
        Except.ok env1 ∧
      CGame.CreateMarbles.outer s1.2.m_marbleList n (Nat.sqrt n + 1) (MARBLE_RADIUS * 2)
        (Nat.sqrt n + 1) 0 0 s1.1 = Except.ok (true, n, env1) ∧
      CGame.CreateMarbles raw n s = Except.ok (true, env1, s1.2) ∧
      (∀ k k1, k < n → k1 < n →
        gridPosition (Nat.sqrt n + 1) (MARBLE_RADIUS * 2) k =
          gridPosition (Nat.sqrt n + 1) (MARBLE_RADIUS * 2) k1 → k = k1) := by
  have hf : s.2.m_objectManager.CGameObjectFactory.find? (fun e => e.1 == Marble_Type) =
      some (Marble_Type, false) := by
    rw [hfac]; decide
  obtain ⟨s1, l, hcreate, hheap, hlen, hrad, hml⟩ := create_spec raw n s hf
  rw [hlist] at hml
  have hmlen : s1.2.m_marbleList.length = n + 1 := by
    rw [hml]; simp
  have hvalid : ∀ k, k < n + 1 → ∃ q, s1.2.m_marbleList[k]? = some q ∧ q < s1.1.heap.length := by
    intro k hk
    have hk2 : k < s1.2.m_marbleList.length := by rw [hmlen]; exact hk
    refine ⟨s1.2.m_marbleList[k], List.getElem?_eq_getElem hk2, ?_⟩
    have hall : ∀ q ∈ s1.2.m_marbleList, q < s1.1.heap.length := by
      intro q hq
      rw [hml] at hq
      rw [hheap, List.length_append, hlen]
      rcases List.mem_append.1 hq with h | h
      · rw [List.mem_singleton.1 h]
        exact Nat.lt_add_right n hptr
      · exact (List.mem_range'_1.1 h).2
    exact hall _ (List.getElem_mem hk2)
  have hsq : n < (Nat.sqrt n + 1) * (Nat.sqrt n + 1) := Nat.lt_succ_sqrt n
  obtain ⟨env1, hplace, _⟩ := placeFrom_total s1.2.m_marbleList (Nat.sqrt n + 1)
    (MARBLE_RADIUS * 2) n 0 s1.1 (by
      intro k _ hk
      exact hvalid k (by omega))
  have houter := outer_returns s1.2.m_marbleList n (Nat.sqrt n + 1) (MARBLE_RADIUS * 2)
    (Nat.sqrt n + 1) 0 0 s1.1 env1 (by simp) (by omega)
    (by simp only [Nat.sub_zero]; omega) (by simpa using hplace)
  have hfirst : s1.2.m_marbleList[1]? = some s.1.heap.length := by
    rw [hml]
    cases n with
    | zero => omega
    | succ m => simp [List.range'_succ]
  have hobj : ∃ m1, s1.1.heap[s.1.heap.length]? = some m1 ∧ m1.m_radius = MARBLE_RADIUS := by
    cases l with
    | nil => simp at hlen; omega
    | cons o rest =>
      refine ⟨o, ?_, hrad o (List.mem_cons_self _ _)⟩
      rw [hheap, List.getElem?_append_right (Nat.le_refl _), Nat.sub_self]
      simp
  obtain ⟨m1, hm1, hr1⟩ := hobj
  refine ⟨s1, env1, hcreate, hmlen, fun k hk => hvalid k (by omega), hsq, hplace, houter,
    ?_, ?_⟩
  · simp only [CGame.CreateMarbles, hcreate, hfirst, hm1, CMarble.getRadius, hr1, houter]
  · intro k k1 _ _ h
    exact gridPosition_injective _ _ (by norm_num [MARBLE_RADIUS]) k k1 h

/-- Witness for C27: `CreateMarbles(25)` on the game as the constructor leaves
it. -/
theorem CreateMarbles_placement_loop_witness :
    exampleNewGame.2.m_marbleList = [exampleNewGame.2.m_p1Tolley] ∧
    exampleNewGame.2.m_p1Tolley < exampleNewGame.1.heap.length ∧
    ∃ s1 env1, CGame.CreateMarbles.create (fun _ => exampleRawMarble) 25 exampleNewGame =
        Except.ok s1 ∧
      placeFrom s1.2.m_marbleList (Nat.sqrt 25 + 1) (MARBLE_RADIUS * 2) 25 0 s1.1 =
        Except.ok env1 ∧
      CGame.CreateMarbles (fun _ => exampleRawMarble) 25 exampleNewGame =
        Except.ok (true, env1, s1.2) :=
  have hlist : exampleNewGame.2.m_marbleList = [exampleNewGame.2.m_p1Tolley] := by decide!
  have hptr : exampleNewGame.2.m_p1Tolley < exampleNewGame.1.heap.length := by decide!
  have hthm := CreateMarbles_placement_loop (fun _ => exampleRawMarble) 25 exampleNewGame
    (by decide) hlist hptr (by decide!)
  ⟨hlist, hptr, hthm.elim (fun s1 h => h.elim (fun env1 h2 =>
    ⟨s1, env1, h2.1, h2.2.2.2.2.1, h2.2.2.2.2.2.2.1⟩))⟩

/-! ## C28: what `getObject` changes -/

/-- Claim C28, as the code has it: `getObject` leaves the object list as it is,
and the identity map as it is when the map has an entry for the body id; for a
body id without an entry it adds the entry (id, null) to the map. On the sample
manager, whose list and map hold two objects, `getObject(9)` returns null and
leaves a map of three entries next to the list of two. -/
theorem getObject_inserts (mgr : CObjectManager) (id : dBodyID) :
    (mgr.getObject id).2.m_objectList = mgr.m_objectList ∧
    (mgr.getObject id).2.m_objectIDMap =
      (match mgr.m_objectIDMap.find id with
       | some _ => mgr.m_objectIDMap
       | none => (id, none) :: mgr.m_objectIDMap) ∧
    exampleManager.m_objectIDMap.find 9 = none ∧
    (exampleManager.getObject 9).1 = none ∧
    (exampleManager.getObject 9).2.m_objectList = [0, 1] ∧
    (exampleManager.getObject 9).2.m_objectIDMap = [(9, none), (2, some 1), (1, some 0)] ∧
    (exampleManager.getObject 9).2 ≠ exampleManager := by
  refine ⟨rfl, ?_, by decide, by decide, by decide, by decide, by decide⟩
  unfold CObjectManager.getObject ObjectIDMap.index
  cases h : mgr.m_objectIDMap.find id <;> simp

/-! ## C29: the states a run of frames reaches -/

end Marbles
